import Mathlib

/-! ## The `System<T>` kernel of `systems/framework/system.cc`

A shallow embedding of the member functions of `System<T>` and theorems about
them.  Member functions that raise C++ exceptions return their outcome in
`Run`, which keeps the raised exception apart from the returned value and
records, in order, every call made to a virtual hook or to an external
collaborator (event handlers, cache entries, scalar converters).  Output
arguments passed by pointer are returned next to the function result.
-/

namespace drake
namespace systems

/-! ## Scalars, exceptions, plain data -/

/-- Values of the scalar type `T`, read as for `T = double`: the three
non-finite values and the finite ones. -/
inductive Scalar where
  | nan
  | neg_infinity
  | infinity
  | finite (value : Rat)
  deriving DecidableEq, Repr

/-- The C++ `std::isnan`. -/
def isnan : Scalar → Bool
  | .nan => true
  | _ => false

/-- The C++ `std::isfinite`. -/
def isfinite : Scalar → Bool
  | .finite _ => true
  | _ => false

/-- The C++ `operator==` on scalars: NaN compares unequal to everything. -/
def Scalar.eq : Scalar → Scalar → Bool
  | .nan, _ => false
  | _, .nan => false
  | a, b => decide (a = b)

/-- The ways a member function ends other than by returning: the exceptions
thrown by the kernel, with their `what()` text; a failed `DRAKE_DEMAND`, with
the text of its condition; and an execution the language leaves undefined (an
unchecked element access out of bounds). -/
inductive Exception where
  | logic_error (what : String)
  | out_of_range (what : String)
  | assertion_failed (condition : String)
  | undefined_behavior (what : String)
  deriving DecidableEq, Repr

/-- The message carried by an exception. -/
def Exception.what : Exception → String
  | .logic_error w => w
  | .out_of_range w => w
  | .assertion_failed w => w
  | .undefined_behavior w => w

/-- The identity token (`internal::SystemId`) shared by a system and the
objects allocated for it. -/
abbrev SystemId := Nat

/-- The scalar types a system is instantiated on. -/
inductive ScalarType where
  | double
  | AutoDiffXd
  | Expression
  deriving DecidableEq, Repr

/-- An opaque, type-tagged value (`AbstractValue`). -/
structure AbstractValue where
  type_name : String
  payload : Nat
  deriving DecidableEq, Repr

/-- The discrete state of a context (`DiscreteValues<T>`): its groups. -/
structure DiscreteValues where
  system_id : SystemId
  groups : List (List Scalar)
  deriving DecidableEq, Repr

/-- Number of groups: `DiscreteValues::num_groups()`. -/
def DiscreteValues.num_groups (xd : DiscreteValues) : Nat := xd.groups.length

/-- The continuous state of a context (`ContinuousState<T>`); also the type
of its time derivatives. -/
structure ContinuousState where
  system_id : SystemId
  vector : List Scalar
  deriving DecidableEq, Repr

/-- Number of continuous variables: `ContinuousState::size()`. -/
def ContinuousState.size (xc : ContinuousState) : Nat := xc.vector.length

/-- The whole state (`State<T>`). -/
structure State where
  system_id : SystemId
  continuous_state : ContinuousState
  discrete_state : DiscreteValues
  abstract_state : List AbstractValue
  deriving DecidableEq, Repr

/-- Modelled from the spec: the status returned by the `Calc*` dispatchers
(`EventStatus`, declared outside this file), "carrying either success or a
description of why the update should be treated as a simulation-ending
failure". -/
inductive EventStatus where
  | Succeeded
  | Failed (message : String)
  deriving DecidableEq, Repr

/-- Timing of a periodic event (`PeriodicEventData`). -/
structure PeriodicEventData where
  period_sec : Rat
  offset_sec : Rat
  deriving DecidableEq, Repr

/-- The three kinds of event. -/
inductive EventKind where
  | publish
  | discrete_update
  | unrestricted_update
  deriving DecidableEq, Repr

/-- An event: its kind and the identity of its handler. -/
structure Event where
  kind : EventKind
  id : Nat
  deriving DecidableEq, Repr

/-- The query `Event::is_discrete_update()`. -/
def Event.is_discrete_update (e : Event) : Bool := e.kind == EventKind.discrete_update

/-- The events of one kind (`EventCollection<EventType>`). -/
abbrev EventCollection := List Event

/-- The query `EventCollection::HasEvents()`. -/
def EventCollection.HasEvents (events : EventCollection) : Bool := !events.isEmpty

/-- The per-system aggregate of the three collections
(`CompositeEventCollection<T>`). -/
structure CompositeEventCollection where
  system_id : SystemId
  publish_events : EventCollection
  discrete_update_events : EventCollection
  unrestricted_update_events : EventCollection
  deriving DecidableEq, Repr

/-- The member `CompositeEventCollection::Clear()`. -/
def CompositeEventCollection.Clear (events : CompositeEventCollection) :
    CompositeEventCollection :=
  { events with
    publish_events := [], discrete_update_events := [], unrestricted_update_events := [] }

/-- The member `CompositeEventCollection::HasEvents()`. -/
def CompositeEventCollection.HasEvents (events : CompositeEventCollection) : Bool :=
  EventCollection.HasEvents events.publish_events ||
  EventCollection.HasEvents events.discrete_update_events ||
  EventCollection.HasEvents events.unrestricted_update_events

/-- The handles of the independently invalidatable sources of a context
(`DependencyTicket`): the built-in ones used by this file, and the ones
assigned to input ports and to declared cache entries. -/
inductive DependencyTicket where
  | time
  | accuracy
  | all_state
  | all_parameters
  | all_input_ports
  | all_sources
  | xcdot
  | xd_unique_periodic_update
  | input_port (index : Nat)
  | cache_entry (index : Nat)
  deriving DecidableEq, Repr

/-- The kind of data carried by a port (`PortDataType`). -/
inductive PortDataType where
  | kVectorValued
  | kAbstractValued
  deriving DecidableEq, Repr

/-- A declared port (`InputPortBase` / `OutputPortBase`): its index, its
name, its deprecation marker, and the kind and size of its data. -/
structure PortBase where
  index : Nat
  name : String
  deprecation : Option String
  data_type : PortDataType
  size : Nat
  deriving DecidableEq, Repr

/-- A value held by a cache entry. -/
inductive CacheValue where
  | scalar (value : Scalar)
  | continuous_state (value : ContinuousState)
  | discrete_values (value : DiscreteValues)
  deriving DecidableEq, Repr

/-- The memoized slot of one cache entry in a context (`CacheEntryValue`). -/
structure CacheEntryValue where
  value : CacheValue
  is_out_of_date : Bool
  deriving DecidableEq, Repr

/-- The value of an input port: a vector (`BasicVector<T>`) or an opaque
abstract value. -/
inductive PortValue where
  | vector (value : List Scalar)
  | abstract (value : AbstractValue)
  deriving DecidableEq, Repr

/-- The runtime counterpart of a system (`Context<T>`).  The entry `i` of
`input_port_values` is the value fixed for input port `i`, `none` while the
port has no value. -/
structure Context where
  system_id : SystemId
  is_root_context : Bool
  time : Scalar
  true_time : Option Scalar
  state : State
  cache : List CacheEntryValue
  input_port_values : List (Option PortValue)
  deriving DecidableEq, Repr

/-- Bounds of a constraint (`SystemConstraintBounds`). -/
structure SystemConstraintBounds where
  lower : List Scalar
  upper : List Scalar
  deriving DecidableEq, Repr

/-- A constraint of a system (`SystemConstraint<T>`): the system it was
constructed for (`get_system()`, by identity), the identity set by
`set_system_id` if any, the residual rule, the bounds and the description. -/
structure SystemConstraint where
  get_system : SystemId
  system_id : Option SystemId
  calc_ : Context → List Scalar
  bounds : SystemConstraintBounds
  description : String

/-- A constraint that can be attached to systems of any scalar type
(`ExternalSystemConstraint`): its description, its bounds and, for each
scalar type, the residual rule if there is one (`get_calc<T>()`). -/
structure ExternalSystemConstraint where
  description : String
  bounds : SystemConstraintBounds
  get_calc : ScalarType → Option (Context → List Scalar)

/-- The getter `Context::get_discrete_state()`. -/
def Context.get_discrete_state (context : Context) : DiscreteValues :=
  context.state.discrete_state

/-! ## Calls to hooks and collaborators, and the outcome of a member function -/

/-- One call to a virtual hook or an external collaborator, with the
arguments that identify it. -/
inductive Call where
  | DispatchUnrestrictedUpdateHandler (context : Context) (events : EventCollection)
      (state : State)
  | DoApplyUnrestrictedUpdate (events : EventCollection) (state : State) (context : Context)
  | DispatchDiscreteVariableUpdateHandler (context : Context) (events : EventCollection)
      (discrete_state : DiscreteValues)
  | DoApplyDiscreteVariableUpdate (events : EventCollection)
      (discrete_state : DiscreteValues) (context : Context)
  | DispatchPublishHandler (context : Context) (events : EventCollection)
  | DoCalcNextUpdateTime (context : Context)
  | DoGetPeriodicEvents (context : Context)
  | DoGetPerStepEvents (context : Context)
  | DoGetInitializationEvents (context : Context)
  | ToScalarTypeMaybe (source : ScalarType) (target : ScalarType)
  | CacheEntryEval (cache_index : Nat) (context : Context)
  | DoCalc (description : String) (context : Context)
  deriving DecidableEq, Repr

deriving instance DecidableEq for Except

/-- Outcome of a member function: the calls it made, in order, and either
the exception it raised or the value it returned. -/
structure Run (α : Type) where
  calls : List Call
  result : Except Exception α

/-- Return normally without calling anything. -/
def Run.pure {α : Type} (a : α) : Run α := ⟨[], .ok a⟩

/-- Sequencing: an exception of the first part ends the run. -/
def Run.bind {α β : Type} (x : Run α) (f : α → Run β) : Run β :=
  match x.result with
  | .error e => ⟨x.calls, .error e⟩
  | .ok a => ⟨x.calls ++ (f a).calls, (f a).result⟩

instance : Monad Run where
  pure := Run.pure
  bind := Run.bind

/-- The C++ `throw`. -/
def Run.throw {α : Type} (e : Exception) : Run α := ⟨[], .error e⟩

/-- A call to a hook or collaborator that returns `a`. -/
def Run.call {α : Type} (c : Call) (a : α) : Run α := ⟨[c], .ok a⟩

/-- Whether the run ended by raising. -/
def Run.raises {α : Type} (x : Run α) : Bool :=
  match x.result with
  | .error _ => true
  | .ok _ => false

/-- Modelled from the spec: `EventStatus::ThrowOnFailure` (declared outside
this file): callers that need fire-or-throw semantics "convert a failing
status into a hard error immediately". -/
def EventStatus.ThrowOnFailure (status : EventStatus) (function_name : String) : Run Unit :=
  match status with
  | .Succeeded => Run.pure ()
  | .Failed message =>
    Run.throw (.logic_error (function_name ++ "(): An event handler failed with message: \"" ++
      message ++ "\"."))

/-! ## The system -/

/-- A system: its identity, its declared shape and its virtual hooks.  The
hooks are the pure virtual and `Do*` members that subclasses supply; the
allocators stand for the virtual allocation members. -/
structure System where
  system_id : SystemId
  scalar_type : ScalarType
  GetSystemType : String
  GetSystemName : String
  GetSystemPathname : String
  get_name : String
  input_ports : List PortBase
  output_ports : List PortBase
  num_continuous_states : Nat
  num_discrete_state_groups : Nat
  num_abstract_states : Nat
  DoAllocateContext : Context
  DoAllocateCompositeEventCollection : CompositeEventCollection
  AllocateDiscreteVariables : DiscreteValues
  AllocateTimeDerivatives : ContinuousState
  DispatchPublishHandler : Context → EventCollection → EventStatus
  DispatchDiscreteVariableUpdateHandler :
    Context → EventCollection → DiscreteValues → EventStatus × DiscreteValues
  DispatchUnrestrictedUpdateHandler : Context → EventCollection → State → EventStatus × State
  DoCalcTimeDerivatives : Context → ContinuousState → ContinuousState
  DoCalcNextUpdateTime :
    Context → CompositeEventCollection → Scalar → CompositeEventCollection × Scalar
  DoGetPeriodicEvents : Context → CompositeEventCollection → CompositeEventCollection
  DoGetPerStepEvents : Context → CompositeEventCollection → CompositeEventCollection
  DoGetInitializationEvents : Context → CompositeEventCollection → CompositeEventCollection
  DoMapPeriodicEventsByTiming : Context → List (PeriodicEventData × List Event)
  FindUniquePeriodicDiscreteUpdatesOrThrow :
    String → Context → Option PeriodicEventData → EventCollection →
      Except Exception (Option PeriodicEventData × EventCollection)
  DoCalcPotentialEnergy : Context → Scalar
  DoCalcKineticEnergy : Context → Scalar
  DoCalcConservativePower : Context → Scalar
  DoCalcNonConservativePower : Context → Scalar
  constraints_ : List SystemConstraint
  external_constraints_ : List ExternalSystemConstraint
  forced_publish_events_ : EventCollection
  forced_discrete_update_events_ : EventCollection
  forced_unrestricted_update_events_ : EventCollection
  GetDirectFeedthroughs : List (Int × Int)
  DoGetTargetSystemContext : SystemId → Context → Option Context
  DoAllocateInput : PortBase → PortValue

/-- The count `num_input_ports()`. -/
def System.num_input_ports (self : System) : Nat := self.input_ports.length

/-- The count `num_output_ports()`. -/
def System.num_output_ports (self : System) : Nat := self.output_ports.length

/-- Modelled from the spec: `SystemBase::ValidateContext` (declared outside
this file) "confirms identity-token equality with the model node's own
token; mismatch is a fatal usage error". -/
def System.ValidateContext (self : System) (context : Context) : Run Unit :=
  if context.system_id = self.system_id then Run.pure ()
  else Run.throw (.logic_error ("A function call on a " ++ self.GetSystemType ++
    " system named '" ++ self.GetSystemPathname ++
    "' was passed the Context of a different system."))

/-- Modelled from the spec: `SystemBase::ValidateCreatedForThisSystem`
(declared outside this file) validates "that any auxiliary output argument
was itself allocated for this exact model node, by the same identity-token
check". -/
def System.ValidateCreatedForThisSystem (self : System) (object_id : SystemId) : Run Unit :=
  if object_id = self.system_id then Run.pure ()
  else Run.throw (.logic_error ("An object was passed to a " ++ self.GetSystemType ++
    " system named '" ++ self.GetSystemPathname ++
    "' that was not created for that system."))

/-- The member `System<T>::AllocateContext`. -/
def System.AllocateContext (self : System) : Context := self.DoAllocateContext

/-- The member `System<T>::AllocateCompositeEventCollection`. -/
def System.AllocateCompositeEventCollection (self : System) : CompositeEventCollection :=
  let result := self.DoAllocateCompositeEventCollection
  { result with system_id := self.system_id }

/-- The member `System<T>::Publish`. -/
def System.Publish (self : System) (context : Context) (events : EventCollection) :
    Run EventStatus := do
  self.ValidateContext context
  Run.call (.DispatchPublishHandler context events) (self.DispatchPublishHandler context events)

/-- The member `System<T>::CalcTimeDerivatives`; the output `derivatives` is
returned. -/
def System.CalcTimeDerivatives (self : System) (context : Context)
    (derivatives : ContinuousState) : Run ContinuousState := do
  self.ValidateContext context
  self.ValidateCreatedForThisSystem derivatives.system_id
  Run.call (.DoCalc "time derivatives" context) (self.DoCalcTimeDerivatives context derivatives)

/-- The member `System<T>::CalcDiscreteVariableUpdate`; the output
`discrete_state` is returned next to the status. -/
def System.CalcDiscreteVariableUpdate (self : System) (context : Context)
    (events : EventCollection) (discrete_state : DiscreteValues) :
    Run (EventStatus × DiscreteValues) := do
  self.ValidateContext context
  self.ValidateCreatedForThisSystem discrete_state.system_id
  Run.call (.DispatchDiscreteVariableUpdateHandler context events discrete_state)
    (self.DispatchDiscreteVariableUpdateHandler context events discrete_state)

/-- Modelled from the spec: the virtual `DoApplyDiscreteVariableUpdate`
(implemented outside this file) "commits a previously computed result into
the context". -/
def System.DoApplyDiscreteVariableUpdate (_self : System) (_events : EventCollection)
    (discrete_state : DiscreteValues) (context : Context) : Context :=
  { context with state := { context.state with discrete_state := discrete_state } }

/-- The member `System<T>::ApplyDiscreteVariableUpdate`; the updated context
is returned. -/
def System.ApplyDiscreteVariableUpdate (self : System) (events : EventCollection)
    (discrete_state : DiscreteValues) (context : Context) : Run Context := do
  self.ValidateContext context
  self.ValidateCreatedForThisSystem discrete_state.system_id
  Run.call (.DoApplyDiscreteVariableUpdate events discrete_state context)
    (self.DoApplyDiscreteVariableUpdate events discrete_state context)

/-- The text of the shape error of `CalcUnrestrictedUpdate`. -/
def shape_error : Exception :=
  .logic_error "State variable dimensions cannot be changed in CalcUnrestrictedUpdate()."

/-- The member `System<T>::CalcUnrestrictedUpdate`; the output `state` is
returned next to the status. -/
def System.CalcUnrestrictedUpdate (self : System) (context : Context)
    (events : EventCollection) (state : State) : Run (EventStatus × State) := do
  self.ValidateContext context
  self.ValidateCreatedForThisSystem state.system_id
  let continuous_state_dim := state.continuous_state.size
  let discrete_state_dim := state.discrete_state.num_groups
  let abstract_state_dim := state.abstract_state.length
  let (status, state) ← Run.call (.DispatchUnrestrictedUpdateHandler context events state)
    (self.DispatchUnrestrictedUpdateHandler context events state)
  if continuous_state_dim ≠ state.continuous_state.size ∨
      discrete_state_dim ≠ state.discrete_state.num_groups ∨
      abstract_state_dim ≠ state.abstract_state.length then
    Run.throw shape_error
  else
    return (status, state)

/-- Modelled from the spec: the virtual `DoApplyUnrestrictedUpdate`
(implemented outside this file) "commits a previously computed result into
the context". -/
def System.DoApplyUnrestrictedUpdate (_self : System) (_events : EventCollection)
    (state : State) (context : Context) : Context :=
  { context with state := state }

/-- The member `System<T>::ApplyUnrestrictedUpdate`; the updated context is
returned. -/
def System.ApplyUnrestrictedUpdate (self : System) (events : EventCollection)
    (state : State) (context : Context) : Run Context := do
  self.ValidateContext context
  self.ValidateCreatedForThisSystem state.system_id
  Run.call (.DoApplyUnrestrictedUpdate events state context)
    (self.DoApplyUnrestrictedUpdate events state context)

/-- The decimal digits after the point of `remainder / denominator`, at most
`fuel` of them, without trailing zeros. -/
def Scalar.format.digits (denominator : Nat) : Nat → Nat → String
  | 0, _ => ""
  | fuel + 1, remainder =>
    if remainder = 0 then ""
    else toString (remainder * 10 / denominator) ++
      Scalar.format.digits denominator fuel (remainder * 10 % denominator)

/-- Text of a scalar in a message (`ExtractDoubleOrThrow`, then the `{}` of
`fmt::format` on a `double`): the value in decimal notation, `0.25` for a
quarter and `5` for five, with at most 17 digits after the point.  The
exponent notation that `fmt` chooses for very large and very small values is
not modelled. -/
def Scalar.format : Scalar → String
  | .nan => "nan"
  | .neg_infinity => "-inf"
  | .infinity => "inf"
  | .finite value =>
    let magnitude := value.num.natAbs
    (if value.num < 0 then "-" else "") ++ toString (magnitude / value.den) ++
      (if magnitude % value.den = 0 then ""
        else "." ++ Scalar.format.digits value.den 17 (magnitude % value.den))

/-- The member `System<T>::CalcNextUpdateTime`; the output `events` is
returned next to the time. -/
def System.CalcNextUpdateTime (self : System) (context : Context)
    (events : CompositeEventCollection) : Run (Scalar × CompositeEventCollection) := do
  self.ValidateContext context
  self.ValidateCreatedForThisSystem events.system_id
  let events := events.Clear
  let time := Scalar.nan
  let (events, time) ← Run.call (.DoCalcNextUpdateTime context)
    (self.DoCalcNextUpdateTime context events time)
  if isnan time then
    Run.throw (.logic_error ("System::CalcNextUpdateTime(): " ++ self.GetSystemType ++
      " system '" ++ self.GetSystemPathname ++ "' overrode DoCalcNextUpdateTime() but at time=" ++
      context.time.format ++ " it returned with no update time set (or the update time was " ++
      "set to NaN). Return infinity to indicate no next update time."))
  else if isfinite time && !events.HasEvents then
    Run.throw (.logic_error ("System::CalcNextUpdateTime(): " ++ self.GetSystemType ++
      " system '" ++ self.GetSystemPathname ++ "' overrode DoCalcNextUpdateTime() but at time=" ++
      context.time.format ++ " it returned update time " ++ time.format ++
      " with an empty Event collection. Return infinity to indicate no next update time; " ++
      "otherwise at least one Event object must be provided even if it does nothing."))
  else
    match context.true_time with
    | some true_time =>
      if time.eq context.time then return (true_time, events) else return (time, events)
    | none => return (time, events)

/-- The member `System<T>::GetPeriodicEvents`. -/
def System.GetPeriodicEvents (self : System) (context : Context)
    (events : CompositeEventCollection) : Run CompositeEventCollection := do
  self.ValidateContext context
  self.ValidateCreatedForThisSystem events.system_id
  let events := events.Clear
  Run.call (.DoGetPeriodicEvents context) (self.DoGetPeriodicEvents context events)

/-- The member `System<T>::GetPerStepEvents`. -/
def System.GetPerStepEvents (self : System) (context : Context)
    (events : CompositeEventCollection) : Run CompositeEventCollection := do
  self.ValidateContext context
  self.ValidateCreatedForThisSystem events.system_id
  let events := events.Clear
  Run.call (.DoGetPerStepEvents context) (self.DoGetPerStepEvents context events)

/-- The member `System<T>::GetInitializationEvents`. -/
def System.GetInitializationEvents (self : System) (context : Context)
    (events : CompositeEventCollection) : Run CompositeEventCollection := do
  self.ValidateContext context
  self.ValidateCreatedForThisSystem events.system_id
  let events := events.Clear
  Run.call (.DoGetInitializationEvents context) (self.DoGetInitializationEvents context events)

/-- The member `System<T>::ExecuteInitializationEvents`; the updated context
is returned. -/
def System.ExecuteInitializationEvents (self : System) (context : Context) : Run Context := do
  let discrete_updates := self.AllocateDiscreteVariables
  let state := context.state
  let init_events := self.AllocateCompositeEventCollection
  let init_events ← self.GetInitializationEvents context init_events
  let context ←
    (if EventCollection.HasEvents init_events.unrestricted_update_events then do
      let (status, state) ← self.CalcUnrestrictedUpdate context
        init_events.unrestricted_update_events state
      status.ThrowOnFailure "ExecuteInitializationEvents"
      self.ApplyUnrestrictedUpdate init_events.unrestricted_update_events state context
    else pure context)
  let context ←
    (if EventCollection.HasEvents init_events.discrete_update_events then do
      let (status, discrete_updates) ← self.CalcDiscreteVariableUpdate context
        init_events.discrete_update_events discrete_updates
      status.ThrowOnFailure "ExecuteInitializationEvents"
      self.ApplyDiscreteVariableUpdate init_events.discrete_update_events discrete_updates
        context
    else pure context)
  (if EventCollection.HasEvents init_events.publish_events then do
    let status ← self.Publish context init_events.publish_events
    status.ThrowOnFailure "ExecuteInitializationEvents"
  else pure ())
  return context

/-- The member `System<T>::MapPeriodicEventsByTiming`; `none` stands for a
null `context` argument. -/
def System.MapPeriodicEventsByTiming (self : System) (context : Option Context) :
    List (PeriodicEventData × List Event) :=
  let context_to_use :=
    match context with
    | none => self.AllocateContext
    | some context => context
  self.DoMapPeriodicEventsByTiming context_to_use

/-- Inner loop of `GetUniquePeriodicDiscreteUpdateAttribute` over the events
of one timing.  `none` means the function returned `std::nullopt` from inside
the loop; `some saved_attr` means the loop was left (by `break` or at its
end) with that value of `saved_attr`. -/
def GetUniquePeriodicDiscreteUpdateAttribute.events_loop (timing : PeriodicEventData)
    (saved_attr : Option PeriodicEventData) : List Event → Option (Option PeriodicEventData)
  | [] => some saved_attr
  | event :: rest =>
    if event.is_discrete_update then
      if saved_attr.isSome then none
      else some (some timing)
    else GetUniquePeriodicDiscreteUpdateAttribute.events_loop timing saved_attr rest

/-- Outer loop of `GetUniquePeriodicDiscreteUpdateAttribute` over the map,
followed by the final `return saved_attr`. -/
def GetUniquePeriodicDiscreteUpdateAttribute.map_loop
    (saved_attr : Option PeriodicEventData) :
    List (PeriodicEventData × List Event) → Option PeriodicEventData
  | [] => saved_attr
  | saved_attr_and_vector :: rest =>
    match GetUniquePeriodicDiscreteUpdateAttribute.events_loop saved_attr_and_vector.1
        saved_attr saved_attr_and_vector.2 with
    | none => none
    | some saved_attr => GetUniquePeriodicDiscreteUpdateAttribute.map_loop saved_attr rest

/-- The member `System<T>::GetUniquePeriodicDiscreteUpdateAttribute`. -/
def System.GetUniquePeriodicDiscreteUpdateAttribute (self : System) :
    Option PeriodicEventData :=
  let periodic_events_map := self.MapPeriodicEventsByTiming none
  GetUniquePeriodicDiscreteUpdateAttribute.map_loop none periodic_events_map

/-- The member `System<T>::IsDifferenceEquationSystem`.  The argument is the
pointer `time_period`: `none` for a null pointer, else the value it points
to; the value it points to afterwards is returned next to the result. -/
def System.IsDifferenceEquationSystem (self : System) (time_period : Option Rat) :
    Bool × Option Rat :=
  if self.num_continuous_states ≠ 0 ∨ self.num_abstract_states ≠ 0 then (false, time_period)
  else if self.num_discrete_state_groups ≠ 1 then (false, time_period)
  else
    match self.GetUniquePeriodicDiscreteUpdateAttribute with
    | none => (false, time_period)
    | some periodic_data =>
      if periodic_data.offset_sec ≠ 0 then (false, time_period)
      else
        match time_period with
        | some _ => (true, some periodic_data.period_sec)
        | none => (true, none)

/-- The intermediate scalar type `U` of `Clone`:
`std::conditional_t<std::is_same_v<T, double>, AutoDiffXd, double>`. -/
def Clone.U (T : ScalarType) : ScalarType :=
  if T = ScalarType.double then ScalarType.AutoDiffXd else ScalarType.double

/-- The text of the error of `Clone`. -/
def Clone.error (self : System) : Exception :=
  .logic_error ("System::Clone(): " ++ self.GetSystemType ++ " system '" ++
    self.GetSystemPathname ++ "' does not support Cloning")

/-- The member `System<T>::Clone`.  The template member `ToScalarTypeMaybe`
(declared outside this file) is the argument `ToScalarTypeMaybe`: applied to
a system and a target scalar type it yields the converted system, or `none`
for a null pointer. -/
def System.Clone (ToScalarTypeMaybe : System → ScalarType → Option System) (self : System) :
    Run System := do
  let T := self.scalar_type
  let U := Clone.U T
  let intermediate ← Run.call (.ToScalarTypeMaybe T U) (ToScalarTypeMaybe self U)
  let result ←
    match intermediate with
    | some intermediate => Run.call (.ToScalarTypeMaybe U T) (ToScalarTypeMaybe intermediate T)
    | none => pure none
  match result with
  | none => Run.throw (Clone.error self)
  | some result => return result

/-- The member `System<T>::CalcPotentialEnergy`. -/
def System.CalcPotentialEnergy (self : System) (context : Context) : Run Scalar := do
  self.ValidateContext context
  Run.call (.DoCalc "potential energy" context) (self.DoCalcPotentialEnergy context)

/-- The member `System<T>::CalcKineticEnergy`. -/
def System.CalcKineticEnergy (self : System) (context : Context) : Run Scalar := do
  self.ValidateContext context
  Run.call (.DoCalc "kinetic energy" context) (self.DoCalcKineticEnergy context)

/-- The member `System<T>::CalcConservativePower`. -/
def System.CalcConservativePower (self : System) (context : Context) : Run Scalar := do
  self.ValidateContext context
  Run.call (.DoCalc "conservative power" context) (self.DoCalcConservativePower context)

/-- The member `System<T>::CalcNonConservativePower`. -/
def System.CalcNonConservativePower (self : System) (context : Context) : Run Scalar := do
  self.ValidateContext context
  Run.call (.DoCalc "non-conservative power" context) (self.DoCalcNonConservativePower context)

/-- Modelled from the spec: `DiscreteValues::SetFrom` (declared outside this
file), by which the scratch discrete state is "seeded from the current
context": the values of every group of `other` are copied into this object.
It raises when the number of groups differs, and when a group has another
size than the group it is copied into. -/
def DiscreteValues.SetFrom (self other : DiscreteValues) : Run DiscreteValues :=
  if self.num_groups ≠ other.num_groups then
    Run.throw (.logic_error "SetFrom(): num_groups() == other.num_groups()")
  else if self.groups.map List.length ≠ other.groups.map List.length then
    Run.throw (.logic_error "SetFrom(): the size of a group differs.")
  else Run.pure { self with groups := other.groups }

/-- The member `System<T>::CalcUniquePeriodicDiscreteUpdate`; the output
`discrete_values` is returned.  (The `DRAKE_ASSERT` of the source is compiled
out of release builds and is not part of the embedding.) -/
def System.CalcUniquePeriodicDiscreteUpdate (self : System) (context : Context)
    (discrete_values : DiscreteValues) : Run DiscreteValues := do
  self.ValidateContext context
  self.ValidateCreatedForThisSystem discrete_values.system_id
  let collection := self.AllocateCompositeEventCollection
  let found : Option PeriodicEventData × EventCollection ←
    match self.FindUniquePeriodicDiscreteUpdatesOrThrow "CalcUniquePeriodicDiscreteUpdate"
        context none collection.discrete_update_events with
    | .error e => Run.throw e
    | .ok found => pure found
  let timing := found.1
  let collection := { collection with discrete_update_events := found.2 }
  if timing.isNone then
    Run.throw (.logic_error ("CalcUniquePeriodicDiscreteUpdate" ++
      "(): there are no periodic discrete update events in this System."))
  else do
    let discrete_values ← discrete_values.SetFrom context.get_discrete_state
    let (status, discrete_values) ← self.CalcDiscreteVariableUpdate context
      collection.discrete_update_events discrete_values
    status.ThrowOnFailure "CalcUniquePeriodicDiscreteUpdate"
    return discrete_values

/-- A declared cache entry (`CacheEntry`): its index, its ticket, its
description, its computation rule (the `ValueProducer`) and the tickets the
rule depends on. -/
structure CacheEntry where
  cache_index : Nat
  ticket : DependencyTicket
  description : String
  value_producer : Context → Run CacheValue
  prerequisites_of_calc : List DependencyTicket

/-- Modelled from the spec: `SystemBase::DeclareCacheEntryWithKnownTicket`
(declared outside this file) appends an entry, which gets the next index. -/
def DeclareCacheEntryWithKnownTicket (cache_entries : List CacheEntry)
    (known_ticket : DependencyTicket) (description : String)
    (value_producer : Context → Run CacheValue) (prerequisites_of_calc : List DependencyTicket) :
    List CacheEntry × CacheEntry :=
  let entry : CacheEntry :=
    { cache_index := cache_entries.length, ticket := known_ticket, description := description,
      value_producer := value_producer, prerequisites_of_calc := prerequisites_of_calc }
  (cache_entries ++ [entry], entry)

/-- Modelled from the spec: `SystemBase::DeclareCacheEntry` (declared outside
this file) does the same with a freshly assigned ticket. -/
def DeclareCacheEntry (cache_entries : List CacheEntry) (description : String)
    (value_producer : Context → Run CacheValue) (prerequisites_of_calc : List DependencyTicket) :
    List CacheEntry × CacheEntry :=
  DeclareCacheEntryWithKnownTicket cache_entries (.cache_entry cache_entries.length)
    description value_producer prerequisites_of_calc

/-- What the constructor leaves in the system: the declared cache entries and
the six index members. -/
structure Constructed where
  cache_entries : List CacheEntry
  potential_energy_cache_index_ : Nat
  kinetic_energy_cache_index_ : Nat
  conservative_power_cache_index_ : Nat
  nonconservative_power_cache_index_ : Nat
  time_derivatives_cache_index_ : Nat
  unique_periodic_discrete_update_cache_index_ : Nat

/-- The constructor `System<T>::System` (`System` itself names the type
here): the standing cache entries, in the order in which they are declared. -/
def System.constructed (self : System) : Constructed :=
  let energy_prereqs_for_9171 : List DependencyTicket :=
    [.accuracy, .all_state, .all_parameters]
  let cache_entries : List CacheEntry := []
  let (cache_entries, potential_energy) := DeclareCacheEntry cache_entries "potential energy"
    (fun context => do return .scalar (← self.CalcPotentialEnergy context))
    energy_prereqs_for_9171
  let (cache_entries, kinetic_energy) := DeclareCacheEntry cache_entries "kinetic energy"
    (fun context => do return .scalar (← self.CalcKineticEnergy context))
    energy_prereqs_for_9171
  let (cache_entries, conservative_power) := DeclareCacheEntry cache_entries
    "conservative power"
    (fun context => do return .scalar (← self.CalcConservativePower context))
    energy_prereqs_for_9171
  let (cache_entries, nonconservative_power) := DeclareCacheEntry cache_entries
    "non-conservative power"
    (fun context => do return .scalar (← self.CalcNonConservativePower context))
    [.all_sources]
  let (cache_entries, time_derivatives) := DeclareCacheEntryWithKnownTicket cache_entries
    .xcdot "time derivatives"
    (fun context => do
      return .continuous_state (← self.CalcTimeDerivatives context self.AllocateTimeDerivatives))
    [.all_sources]
  let (cache_entries, unique_periodic_discrete_update) :=
    DeclareCacheEntryWithKnownTicket cache_entries .xd_unique_periodic_update
      "unique periodic discrete variable update"
      (fun context => do
        return .discrete_values
          (← self.CalcUniquePeriodicDiscreteUpdate context self.AllocateDiscreteVariables))
      [.all_sources]
  { cache_entries := cache_entries
    potential_energy_cache_index_ := potential_energy.cache_index
    kinetic_energy_cache_index_ := kinetic_energy.cache_index
    conservative_power_cache_index_ := conservative_power.cache_index
    nonconservative_power_cache_index_ := nonconservative_power.cache_index
    time_derivatives_cache_index_ := time_derivatives.cache_index
    unique_periodic_discrete_update_cache_index_ := unique_periodic_discrete_update.cache_index }

/-- Modelled from the spec: `SystemBase::get_cache_entry` (declared outside
this file): the declared entry with the given index. -/
def System.get_cache_entry (self : System) (index : Nat) : Run CacheEntry :=
  match self.constructed.cache_entries[index]? with
  | some entry => pure entry
  | none => Run.throw (.logic_error "get_cache_entry(): there is no such cache entry.")

/-- Modelled from the spec: `CacheEntry::Eval` (declared outside this file)
"returns the memoized value if valid, else invokes the declared computation
rule, stores the result, marks it valid, and returns it".  The context with
its cache after the call is returned next to the value. -/
def CacheEntry.Eval (entry : CacheEntry) (context : Context) : Run (CacheValue × Context) := do
  Run.call (.CacheEntryEval entry.cache_index context) ()
  match context.cache[entry.cache_index]? with
  | none => Run.throw (.logic_error "Eval(): the context has no value for this cache entry.")
  | some cache_value =>
    if cache_value.is_out_of_date then do
      let value ← entry.value_producer context
      return (value, { context with
        cache := context.cache.set entry.cache_index
          { cache_value with value := value, is_out_of_date := false } })
    else return (cache_value.value, context)

/-- The typed access `Eval<T>` of a scalar-valued entry. -/
def CacheEntry.Eval_T (entry : CacheEntry) (context : Context) : Run (Scalar × Context) := do
  let (value, context) ← entry.Eval context
  match value with
  | .scalar value => return (value, context)
  | _ => Run.throw (.logic_error "Eval(): wrong value type.")

/-- The typed access `Eval<DiscreteValues<T>>`. -/
def CacheEntry.Eval_DiscreteValues (entry : CacheEntry) (context : Context) :
    Run (DiscreteValues × Context) := do
  let (value, context) ← entry.Eval context
  match value with
  | .discrete_values value => return (value, context)
  | _ => Run.throw (.logic_error "Eval(): wrong value type.")

/-- The member `System<T>::EvalPotentialEnergy`. -/
def System.EvalPotentialEnergy (self : System) (context : Context) :
    Run (Scalar × Context) := do
  self.ValidateContext context
  let entry ← self.get_cache_entry self.constructed.potential_energy_cache_index_
  entry.Eval_T context

/-- The member `System<T>::EvalKineticEnergy`. -/
def System.EvalKineticEnergy (self : System) (context : Context) :
    Run (Scalar × Context) := do
  self.ValidateContext context
  let entry ← self.get_cache_entry self.constructed.kinetic_energy_cache_index_
  entry.Eval_T context

/-- The member `System<T>::EvalConservativePower`. -/
def System.EvalConservativePower (self : System) (context : Context) :
    Run (Scalar × Context) := do
  self.ValidateContext context
  let entry ← self.get_cache_entry self.constructed.conservative_power_cache_index_
  entry.Eval_T context

/-- The member `System<T>::EvalNonConservativePower`. -/
def System.EvalNonConservativePower (self : System) (context : Context) :
    Run (Scalar × Context) := do
  self.ValidateContext context
  let entry ← self.get_cache_entry self.constructed.nonconservative_power_cache_index_
  entry.Eval_T context

/-- The member `System<T>::EvalUniquePeriodicDiscreteUpdate`. -/
def System.EvalUniquePeriodicDiscreteUpdate (self : System) (context : Context) :
    Run (DiscreteValues × Context) := do
  let entry ← self.get_cache_entry self.constructed.unique_periodic_discrete_update_cache_index_
  entry.Eval_DiscreteValues context

/-- Modelled from the spec: `SystemBase::GetInputPortBaseOrThrow` (declared
outside this file): the declared input port with the given index; a missing
port index is a fatal error.  A deprecation warning is only logged. -/
def System.GetInputPortBaseOrThrow (self : System) (func : String) (port_index : Nat)
    (_warn_deprecated : Bool) : Run PortBase :=
  match self.input_ports[port_index]? with
  | some port => pure port
  | none => Run.throw (.logic_error ("System " ++ self.GetSystemName ++ ": " ++ func ++
      "(): there is no input port with index " ++ toString port_index ++ "."))

/-- Modelled from the spec: `SystemBase::GetOutputPortBaseOrThrow`, the same
for output ports. -/
def System.GetOutputPortBaseOrThrow (self : System) (func : String) (port_index : Nat)
    (_warn_deprecated : Bool) : Run PortBase :=
  match self.output_ports[port_index]? with
  | some port => pure port
  | none => Run.throw (.logic_error ("System " ++ self.GetSystemName ++ ": " ++ func ++
      "(): there is no output port with index " ++ toString port_index ++ "."))

/-- The inline member `get_input_port(port_index)`, which warns about
deprecated ports. -/
def System.get_input_port (self : System) (port_index : Nat) : Run PortBase :=
  self.GetInputPortBaseOrThrow "get_input_port" port_index true

/-- The inline member `get_output_port(port_index)`. -/
def System.get_output_port (self : System) (port_index : Nat) : Run PortBase :=
  self.GetOutputPortBaseOrThrow "get_output_port" port_index true

/-- The counting loop of `GetSoleInputPort` and of `GetSoleOutputPort`, run
from index `i` over the ports from that index on; it yields the final
`num_non_deprecated` and `non_deprecated_index` (`none` while unset). -/
def GetSolePort.loop : List PortBase → Nat → Nat → Option Nat → Nat × Option Nat
  | [], _, num_non_deprecated, non_deprecated_index =>
    (num_non_deprecated, non_deprecated_index)
  | port_base :: rest, i, num_non_deprecated, non_deprecated_index =>
    if port_base.deprecation = none then
      GetSolePort.loop rest (i + 1) (num_non_deprecated + 1) (some i)
    else
      GetSolePort.loop rest (i + 1) num_non_deprecated non_deprecated_index

/-- The member `System<T>::GetSoleInputPort`. -/
def System.GetSoleInputPort (self : System) : Run PortBase :=
  if self.num_input_ports = 0 then
    Run.throw (.logic_error ("System::get_input_port(): " ++ self.GetSystemType ++
      " system '" ++ self.GetSystemPathname ++ "' does not have any inputs"))
  else
    match GetSolePort.loop self.input_ports 0 0 none with
    | (1, some non_deprecated_index) => self.get_input_port non_deprecated_index
    | _ =>
      Run.throw (.logic_error ("System::get_input_port(): " ++ self.GetSystemType ++
        " system '" ++ self.GetSystemPathname ++ "' has " ++ toString self.num_input_ports ++
        " inputs, so this convenience function cannot be used; instead, use another " ++
        "overload e.g. get_input_port(InputPortIndex) or GetInputPort(string)"))

/-- The member `System<T>::GetSoleOutputPort`. -/
def System.GetSoleOutputPort (self : System) : Run PortBase :=
  if self.num_output_ports = 0 then
    Run.throw (.logic_error ("System::get_output_port(): " ++ self.GetSystemType ++
      " system '" ++ self.GetSystemPathname ++ "' does not have any outputs"))
  else
    match GetSolePort.loop self.output_ports 0 0 none with
    | (1, some non_deprecated_index) => self.get_output_port non_deprecated_index
    | _ =>
      Run.throw (.logic_error ("System::get_output_port(): " ++ self.GetSystemType ++
        " system '" ++ self.GetSystemPathname ++ "' has " ++ toString self.num_output_ports ++
        " outputs, so this convenience function cannot be used; instead, use another " ++
        "overload e.g. get_output_port(OutputPortIndex) or GetOutputPort(string)"))

/-- The search loop of `GetInputPort` and of `GetOutputPort`, run from index
`i` over the ports from that index on: the index at which the loop returns,
or `none` when it runs to its end. -/
def GetPort.loop (port_name : String) : List PortBase → Nat → Option Nat
  | [], _ => none
  | port_base :: rest, i =>
    if port_name = port_base.name then some i
    else GetPort.loop port_name rest (i + 1)

/-- The list of names given in the error of `GetInputPort` and of
`GetOutputPort`, with the placeholder when there is no port. -/
def GetPort.port_names (ports : List PortBase) (placeholder : String) : List String :=
  let port_names := ports.map (fun port_base => port_base.name)
  if port_names.isEmpty then [placeholder] else port_names

/-- The member `System<T>::GetInputPort`. -/
def System.GetInputPort (self : System) (port_name : String) : Run PortBase :=
  match GetPort.loop port_name self.input_ports 0 with
  | some i => self.get_input_port i
  | none =>
    let port_names := GetPort.port_names self.input_ports "it has no input ports"
    Run.throw (.logic_error ("System " ++ self.GetSystemName ++
      " does not have an input port named " ++ port_name ++ " (valid port names: " ++
      String.intercalate ", " port_names ++ ")"))

/-- The member `System<T>::GetOutputPort`. -/
def System.GetOutputPort (self : System) (port_name : String) : Run PortBase :=
  match GetPort.loop port_name self.output_ports 0 with
  | some i => self.get_output_port i
  | none =>
    let port_names := GetPort.port_names self.output_ports "it has no output ports"
    Run.throw (.logic_error ("System " ++ self.GetSystemName ++
      " does not have an output port named " ++ port_name ++ " (valid port names: " ++
      String.intercalate ", " port_names ++ ")"))

/-! ## Default bodies of the virtual hooks given in `system.cc` -/

/-- The default body of `System<T>::DoCalcNextUpdateTime`: the events are
left alone and the time is set to infinity. -/
def default_DoCalcNextUpdateTime (_context : Context) (events : CompositeEventCollection)
    (_time : Scalar) : CompositeEventCollection × Scalar :=
  (events, .infinity)

/-- The default body of `System<T>::DoGetPeriodicEvents`: nothing is added. -/
def default_DoGetPeriodicEvents (_context : Context) (events : CompositeEventCollection) :
    CompositeEventCollection :=
  events

/-- The default body of `System<T>::DoGetPerStepEvents`: nothing is added. -/
def default_DoGetPerStepEvents (_context : Context) (events : CompositeEventCollection) :
    CompositeEventCollection :=
  events

/-- The default body of `System<T>::DoGetInitializationEvents`: nothing is
added. -/
def default_DoGetInitializationEvents (_context : Context)
    (events : CompositeEventCollection) : CompositeEventCollection :=
  events

/-- The default body of `System<T>::DoCalcPotentialEnergy`, `T(0)`; the
defaults of the kinetic energy and of the two powers are the same. -/
def default_DoCalcEnergy (_context : Context) : Scalar := .finite 0

/-- The default body of `System<T>::DoCalcTimeDerivatives`, which is only
valid without continuous state and then leaves `derivatives` as it is. -/
def default_DoCalcTimeDerivatives (_context : Context) (derivatives : ContinuousState) :
    ContinuousState :=
  derivatives

/-- The default body of `System<T>::DoGetTargetSystemContext` in the system
with identity `this`: the given context if the target system is this very
system, else a null pointer. -/
def default_DoGetTargetSystemContext (this : SystemId) (target_system : SystemId)
    (context : Context) : Option Context :=
  if target_system = this then some context else none

/-- The value a leaf system allocates for an input port: a vector of the
declared size for a vector-valued port, else an abstract value. -/
def default_DoAllocateInput (input_port : PortBase) : PortValue :=
  match input_port.data_type with
  | .kVectorValued => .vector (List.replicate input_port.size (.finite 0))
  | .kAbstractValued => .abstract { type_name := "int", payload := 0 }

/-! ## Concrete systems and contexts -/

/-- An empty state allocated for the system with the given identity. -/
def empty_State (system_id : SystemId) : State :=
  { system_id := system_id, continuous_state := { system_id := system_id, vector := [] },
    discrete_state := { system_id := system_id, groups := [] }, abstract_state := [] }

/-- A root context at time zero with empty state and no cache slot for the
given identity. -/
def empty_Context (system_id : SystemId) : Context :=
  { system_id := system_id, is_root_context := true, time := .finite 0, true_time := none,
    state := empty_State system_id, cache := [], input_port_values := [] }

/-- A system without ports, state or events, whose `Do*` hooks are the
default bodies of `system.cc` (where the file gives one) and whose pure
virtual dispatchers handle no event: they leave the output buffer as it is
and report success. -/
def default_System (system_id : SystemId) : System where
  system_id := system_id
  scalar_type := .double
  GetSystemType := "drake::systems::System<double>"
  GetSystemName := "sys"
  GetSystemPathname := "::sys"
  get_name := "sys"
  input_ports := []
  output_ports := []
  num_continuous_states := 0
  num_discrete_state_groups := 0
  num_abstract_states := 0
  DoAllocateContext := empty_Context system_id
  DoAllocateCompositeEventCollection :=
    { system_id := system_id, publish_events := [], discrete_update_events := [],
      unrestricted_update_events := [] }
  AllocateDiscreteVariables := { system_id := system_id, groups := [] }
  AllocateTimeDerivatives := { system_id := system_id, vector := [] }
  DispatchPublishHandler := fun _ _ => .Succeeded
  DispatchDiscreteVariableUpdateHandler := fun _ _ discrete_state => (.Succeeded, discrete_state)
  DispatchUnrestrictedUpdateHandler := fun _ _ state => (.Succeeded, state)
  DoCalcTimeDerivatives := default_DoCalcTimeDerivatives
  DoCalcNextUpdateTime := default_DoCalcNextUpdateTime
  DoGetPeriodicEvents := default_DoGetPeriodicEvents
  DoGetPerStepEvents := default_DoGetPerStepEvents
  DoGetInitializationEvents := default_DoGetInitializationEvents
  DoMapPeriodicEventsByTiming := fun _ => []
  FindUniquePeriodicDiscreteUpdatesOrThrow := fun _ _ timing events => .ok (timing, events)
  DoCalcPotentialEnergy := default_DoCalcEnergy
  DoCalcKineticEnergy := default_DoCalcEnergy
  DoCalcConservativePower := default_DoCalcEnergy
  DoCalcNonConservativePower := default_DoCalcEnergy
  constraints_ := []
  external_constraints_ := []
  forced_publish_events_ := []
  forced_discrete_update_events_ := []
  forced_unrestricted_update_events_ := []
  GetDirectFeedthroughs := []
  DoGetTargetSystemContext := default_DoGetTargetSystemContext system_id
  DoAllocateInput := default_DoAllocateInput

/-- A system whose update handlers resize their output buffer: the
unrestricted-update handler appends one continuous state variable and the
discrete-update handler appends one discrete group; both report success. -/
def resizing_System (system_id : SystemId) : System :=
  { default_System system_id with
    DispatchUnrestrictedUpdateHandler := fun _ _ state =>
      (.Succeeded, { state with
        continuous_state :=
          { state.continuous_state with vector := state.continuous_state.vector ++ [.finite 0] } })
    DispatchDiscreteVariableUpdateHandler := fun _ _ discrete_state =>
      (.Succeeded, { discrete_state with groups := discrete_state.groups ++ [[]] }) }

/-! ## The order of initialization events, as the specification words it -/

/-- The kind of event whose handlers a call dispatches, for the three
dispatchers; `none` for every other call.  It is the entry a handler of that
kind writes into a shared log. -/
def Call.handler_kind : Call → Option EventKind
  | .DispatchUnrestrictedUpdateHandler _ _ _ => some .unrestricted_update
  | .DispatchDiscreteVariableUpdateHandler _ _ _ => some .discrete_update
  | .DispatchPublishHandler _ _ => some .publish
  | _ => none

/-- The specification of `ExecuteInitializationEvents`, after the collection
of the initialization events: unrestricted updates (calc then apply), then
discrete updates (calc then apply) against the context to which the
unrestricted update has been applied, then publishes, each only if its
collection has events and each at most once. -/
def spec_ExecuteInitializationEvents (self : System) (context : Context) : List Call :=
  let init_events :=
    self.DoGetInitializationEvents context self.AllocateCompositeEventCollection.Clear
  let unrestricted := init_events.unrestricted_update_events
  let discrete := init_events.discrete_update_events
  let publish := init_events.publish_events
  let state := (self.DispatchUnrestrictedUpdateHandler context unrestricted context.state).2
  let context_after_unrestricted :=
    if EventCollection.HasEvents unrestricted then
      self.DoApplyUnrestrictedUpdate unrestricted state context
    else context
  let discrete_updates :=
    (self.DispatchDiscreteVariableUpdateHandler context_after_unrestricted discrete
      self.AllocateDiscreteVariables).2
  let context_after_discrete :=
    if EventCollection.HasEvents discrete then
      self.DoApplyDiscreteVariableUpdate discrete discrete_updates context_after_unrestricted
    else context_after_unrestricted
  [Call.DoGetInitializationEvents context] ++
  (if EventCollection.HasEvents unrestricted then
    [Call.DispatchUnrestrictedUpdateHandler context unrestricted context.state,
     Call.DoApplyUnrestrictedUpdate unrestricted state context]
   else []) ++
  (if EventCollection.HasEvents discrete then
    [Call.DispatchDiscreteVariableUpdateHandler context_after_unrestricted discrete
      self.AllocateDiscreteVariables,
     Call.DoApplyDiscreteVariableUpdate discrete discrete_updates context_after_unrestricted]
   else []) ++
  (if EventCollection.HasEvents publish then
    [Call.DispatchPublishHandler context_after_discrete publish]
   else [])

/-- A system with one initialization event of each kind, whose handlers all
succeed and change nothing. -/
def one_of_each_System (system_id : SystemId) : System :=
  { default_System system_id with
    DoGetInitializationEvents := fun _ events =>
      { events with
        publish_events := events.publish_events ++ [{ kind := .publish, id := 1 }]
        discrete_update_events :=
          events.discrete_update_events ++ [{ kind := .discrete_update, id := 2 }]
        unrestricted_update_events :=
          events.unrestricted_update_events ++ [{ kind := .unrestricted_update, id := 3 }] } }

/-- The same system with an unrestricted-update handler that reports
failure. -/
def failing_unrestricted_System (system_id : SystemId) : System :=
  { one_of_each_System system_id with
    DispatchUnrestrictedUpdateHandler := fun _ _ state => (.Failed "no", state) }

/-- The run `x` follows the call sequence `l` towards the value `a`: the
calls it makes are an initial part of `l`, and if it does not raise it makes
all of them and returns `a`. -/
def Run.follows {α : Type} (x : Run α) (l : List Call) (a : α) : Prop :=
  x.calls <+: l ∧ (x.raises = false → x.calls = l ∧ x.result = .ok a)

/-- The timing `t` is a key of the map whose event list contains at least one
discrete-update event. -/
def carries_discrete_update (periodic_events_map : List (PeriodicEventData × List Event))
    (t : PeriodicEventData) : Prop :=
  ∃ events, (t, events) ∈ periodic_events_map ∧
    ∃ event ∈ events, event.is_discrete_update = true

/-- A system with the given map from periodic timing to events. -/
def periodic_System (system_id : SystemId)
    (periodic_events_map : List (PeriodicEventData × List Event)) : System :=
  { default_System system_id with DoMapPeriodicEventsByTiming := fun _ => periodic_events_map }

/-- A system with one discrete-state group, no other state, and the given map
from periodic timing to events. -/
def difference_System (system_id : SystemId)
    (periodic_events_map : List (PeriodicEventData × List Event)) : System :=
  { periodic_System system_id periodic_events_map with num_discrete_state_groups := 1 }

/-- A converter that supports every conversion and keeps everything but the
scalar type. -/
def convert_all (self : System) (target : ScalarType) : Option System :=
  some { self with scalar_type := target }

/-- A converter that supports no conversion out of `AutoDiffXd`. -/
def convert_no_way_back (self : System) (target : ScalarType) : Option System :=
  if self.scalar_type = ScalarType.AutoDiffXd then none
  else some { self with scalar_type := target }

/-- A context created for the system with identity 8 in which every standing
cache entry holds an up-to-date value. -/
def foreign_Context : Context :=
  { empty_Context 8 with
    cache := [
      { value := .scalar (.finite 1), is_out_of_date := false },
      { value := .scalar (.finite 2), is_out_of_date := false },
      { value := .scalar (.finite 3), is_out_of_date := false },
      { value := .scalar (.finite 4), is_out_of_date := false },
      { value := .continuous_state { system_id := 8, vector := [] }, is_out_of_date := false },
      { value := .discrete_values { system_id := 8, groups := [[.finite 5]] },
        is_out_of_date := false }] }

/-- The port at index `k` of `ports` is `p`, it has no deprecation marker,
and no port at another index is without one: `p` is the only non-deprecated
port. -/
def sole_non_deprecated (ports : List PortBase) (k : Nat) (p : PortBase) : Prop :=
  ports[k]? = some p ∧ p.deprecation = none ∧
    ∀ j q, ports[j]? = some q → q.deprecation = none → j = k

/-- The number of ports without a deprecation marker. -/
def num_non_deprecated (ports : List PortBase) : Nat :=
  ports.countP (fun port_base => decide (port_base.deprecation = none))

/-- A port with the given index, name and deprecation marker. -/
def vector_port (index : Nat) (name : String) (deprecation : Option String) : PortBase :=
  { index := index, name := name, deprecation := deprecation, data_type := .kVectorValued,
    size := 1 }

/-- The port at index `k` of `ports` is `p`, it has the given name, and no
port at a lower index has that name. -/
def first_named (ports : List PortBase) (port_name : String) (k : Nat) (p : PortBase) : Prop :=
  ports[k]? = some p ∧ p.name = port_name ∧
    ∀ j q, j < k → ports[j]? = some q → q.name ≠ port_name

/-! ## Constraints -/

/-- The conversion `static_cast<int>` of a container size, on 32 bits in
two's complement. -/
def static_cast_int (n : Nat) : Int :=
  if n % 2 ^ 32 < 2 ^ 31 then ((n % 2 ^ 32 : Nat) : Int)
  else ((n % 2 ^ 32 : Nat) : Int) - 2 ^ 32

/-- The member `System<T>::num_constraints`. -/
def System.num_constraints (self : System) : Int :=
  static_cast_int self.constraints_.length

/-- The member `System<T>::get_constraint`.  The element access
`constraints_[constraint_index]` is unchecked: out of bounds it is undefined
behaviour. -/
def System.get_constraint (self : System) (constraint_index : Int) :
    Except Exception SystemConstraint :=
  if constraint_index < 0 ∨ constraint_index ≥ self.num_constraints then
    .error (.out_of_range ("System " ++ self.get_name ++ ": Constraint index " ++
      toString constraint_index ++ " is out of range. There are only " ++
      toString self.num_constraints ++ " constraints."))
  else
    match self.constraints_[constraint_index.toNat]? with
    | some constraint => .ok constraint
    | none => .error (.undefined_behavior "constraints_[constraint_index]")

/-- The member `System<T>::AddConstraint`.  The system after the call is
returned next to the outcome; the pointer `constraint` is never null here. -/
def System.AddConstraint (self : System) (constraint : SystemConstraint) :
    System × Except Exception Int :=
  if constraint.get_system ≠ self.system_id then
    (self, .error (.assertion_failed "&constraint->get_system() == this"))
  else if ¬ self.external_constraints_.isEmpty then
    (self, .error (.logic_error ("System " ++ self.GetSystemName ++
      " cannot add an internal constraint (named " ++ constraint.description ++
      ") after an external constraint (named " ++
      (self.external_constraints_.head?.map (fun c => c.description)).getD "" ++
      ") has already been added")))
  else
    let constraint := { constraint with system_id := some self.system_id }
    let self := { self with constraints_ := self.constraints_ ++ [constraint] }
    (self, .ok (static_cast_int (self.constraints_.length - 1)))

/-- Modelled from the spec: the constructor of `SystemConstraint<T>` from a
system, a residual rule, bounds and a description (declared outside this
file): the "(bounds, residual-computation rule, description) triple". -/
def SystemConstraint.make (system : SystemId) (calc_ : Context → List Scalar)
    (bounds : SystemConstraintBounds) (description : String) : SystemConstraint :=
  { get_system := system, system_id := none, calc_ := calc_, bounds := bounds,
    description := description }

/-- Modelled from the spec: the constructor of a disabled `SystemConstraint<T>`
from a system and a description (declared outside this file): a placeholder
without residual and without bounds. -/
def SystemConstraint.make_disabled (system : SystemId) (description : String) :
    SystemConstraint :=
  { get_system := system, system_id := none, calc_ := fun _ => [],
    bounds := { lower := [], upper := [] }, description := description }

/-- The member `System<T>::AddExternalConstraint`; the system after the call
is returned next to the index. -/
def System.AddExternalConstraint (self : System) (constraint : ExternalSystemConstraint) :
    System × Int :=
  let calc_ := constraint.get_calc self.scalar_type
  let self :=
    match calc_ with
    | some calc_ =>
      { self with constraints_ := self.constraints_ ++
          [SystemConstraint.make self.system_id calc_ constraint.bounds constraint.description] }
    | none =>
      { self with constraints_ := self.constraints_ ++
          [SystemConstraint.make_disabled self.system_id
            (constraint.description ++ " (disabled for this scalar type)")] }
  let self := { self with external_constraints_ := self.external_constraints_ ++ [constraint] }
  (self, static_cast_int (self.constraints_.length - 1))

/-- A constraint with no residual, constructed for the system with the given
identity. -/
def trivial_constraint (system : SystemId) (description : String) : SystemConstraint :=
  SystemConstraint.make system (fun _ => []) { lower := [], upper := [] } description

/-- An external constraint with a residual rule for `double` only. -/
def double_only_constraint (description : String) : ExternalSystemConstraint :=
  { description := description, bounds := { lower := [], upper := [] },
    get_calc := fun T => if T = ScalarType.double then some (fun _ => []) else none }

/-! ## Direct feedthrough -/

/-- The member `System<T>::HasAnyDirectFeedthrough`. -/
def System.HasAnyDirectFeedthrough (self : System) : Bool :=
  decide (self.GetDirectFeedthroughs.length > 0)

/-- The loop of both overloads of `HasDirectFeedthrough` over a range of
pairs: it returns true at the first pair whose output is `output_port`, and
false when it runs to the end. -/
def HasDirectFeedthrough.loop (output_port : Int) : List (Int × Int) → Bool
  | [] => false
  | pair :: rest =>
    if pair.2 = output_port then true else HasDirectFeedthrough.loop output_port rest

/-- The member `System<T>::HasDirectFeedthrough(int output_port)`. -/
def System.HasDirectFeedthrough_output (self : System) (output_port : Int) : Bool :=
  let pairs := self.GetDirectFeedthroughs
  HasDirectFeedthrough.loop output_port pairs

/-- The range `std::multimap::equal_range(key)`: the pairs with that key. -/
def equal_range (pairs : List (Int × Int)) (key : Int) : List (Int × Int) :=
  pairs.filter (fun pair => decide (pair.1 = key))

/-- The member `System<T>::HasDirectFeedthrough(int input_port, int
output_port)`. -/
def System.HasDirectFeedthrough (self : System) (input_port output_port : Int) : Bool :=
  let pairs := self.GetDirectFeedthroughs
  let range := equal_range pairs input_port
  HasDirectFeedthrough.loop output_port range

/-! ## Forced events -/

/-- The getter `get_forced_publish_events()`. -/
def System.get_forced_publish_events (self : System) : EventCollection :=
  self.forced_publish_events_

/-- The getter `get_forced_discrete_update_events()`. -/
def System.get_forced_discrete_update_events (self : System) : EventCollection :=
  self.forced_discrete_update_events_

/-- The getter `get_forced_unrestricted_update_events()`. -/
def System.get_forced_unrestricted_update_events (self : System) : EventCollection :=
  self.forced_unrestricted_update_events_

/-- The member `System<T>::ForcedPublish`. -/
def System.ForcedPublish (self : System) (context : Context) : Run Unit := do
  let status ← self.Publish context self.get_forced_publish_events
  status.ThrowOnFailure "ForcedPublish"

/-- The member `System<T>::CalcForcedDiscreteVariableUpdate`; the output
`discrete_state` is returned. -/
def System.CalcForcedDiscreteVariableUpdate (self : System) (context : Context)
    (discrete_state : DiscreteValues) : Run DiscreteValues := do
  let (status, discrete_state) ← self.CalcDiscreteVariableUpdate context
    self.get_forced_discrete_update_events discrete_state
  status.ThrowOnFailure "CalcForcedDiscreteVariableUpdate"
  return discrete_state

/-- The member `System<T>::CalcForcedUnrestrictedUpdate`; the output `state`
is returned. -/
def System.CalcForcedUnrestrictedUpdate (self : System) (context : Context) (state : State) :
    Run State := do
  let (status, state) ← self.CalcUnrestrictedUpdate context
    self.get_forced_unrestricted_update_events state
  status.ThrowOnFailure "CalcForcedUnrestrictedUpdate"
  return state

/-- A system whose forced handlers all report failure and change nothing. -/
def failing_forced_System (system_id : SystemId) : System :=
  { default_System system_id with
    DispatchPublishHandler := fun _ _ => .Failed "no"
    DispatchDiscreteVariableUpdateHandler := fun _ _ discrete_state =>
      (.Failed "no", discrete_state)
    DispatchUnrestrictedUpdateHandler := fun _ _ state => (.Failed "no", state) }

/-- The collection without events allocated for the system with the given
identity. -/
def empty_events (system_id : SystemId) : CompositeEventCollection :=
  { system_id := system_id, publish_events := [], discrete_update_events := [],
    unrestricted_update_events := [] }

/-- A collection for the system with the given identity that holds one event
of each kind from an earlier query. -/
def stale_events (system_id : SystemId) : CompositeEventCollection :=
  { system_id := system_id, publish_events := [{ kind := .publish, id := 1 }],
    discrete_update_events := [{ kind := .discrete_update, id := 2 }],
    unrestricted_update_events := [{ kind := .unrestricted_update, id := 3 }] }

/-- The entry declared with the given index depends on exactly the given
tickets: its declared prerequisites are these and no other. -/
def depends_on_exactly (cache_entries : List CacheEntry) (cache_index : Nat)
    (description : String) (tickets : List DependencyTicket) : Prop :=
  ∃ entry, cache_entries[cache_index]? = some entry ∧ entry.cache_index = cache_index ∧
    entry.description = description ∧
    ∀ ticket, ticket ∈ entry.prerequisites_of_calc ↔ ticket ∈ tickets

/-! ## Navigation in the context tree -/

/-- The text of the error of `GetSubsystemContext`. -/
def GetSubsystemContext.error (self subsystem : System) : Exception :=
  .logic_error ("GetSubsystemContext(): " ++ subsystem.GetSystemType ++ " subsystem '" ++
    subsystem.GetSystemPathname ++ "' is not contained in " ++ self.GetSystemType ++
    " System '" ++ self.GetSystemPathname ++ "'.")

/-- The member `System<T>::GetSubsystemContext`.  The virtual lookup
`DoGetTargetSystemContext` receives the target system by its identity. -/
def System.GetSubsystemContext (self : System) (subsystem : System) (context : Context) :
    Run Context := do
  self.ValidateContext context
  let ret := self.DoGetTargetSystemContext subsystem.system_id context
  match ret with
  | some ret => return ret
  | none => Run.throw (GetSubsystemContext.error self subsystem)

/-- The member `System<T>::GetMutableSubsystemContext`, which calls the const
member and casts the result. -/
def System.GetMutableSubsystemContext (self : System) (subsystem : System)
    (context : Context) : Run Context := do
  let subcontext ← self.GetSubsystemContext subsystem context
  return subcontext

/-- The service a parent gives its children
(`internal::SystemParentServiceInterface`), as far as this file uses it. -/
structure SystemParentServiceInterface where
  GetRootSystemBase : System

/-- The member `System<T>::GetMyContextFromRoot`.  The pointer returned by
`get_parent_service()` (declared outside this file) is the argument
`get_parent_service`, `none` for a null pointer. -/
def System.GetMyContextFromRoot (get_parent_service : Option SystemParentServiceInterface)
    (self : System) (root_context : Context) : Run Context :=
  if ¬ root_context.is_root_context then
    Run.throw (.logic_error "GetMyContextFromRoot(): given context must be a root context.")
  else
    let parent_service := get_parent_service
    match parent_service with
    | none => Run.pure root_context
    | some parent_service =>
      parent_service.GetRootSystemBase.GetSubsystemContext self root_context

/-- A composite system with identity 1 and one child with identity 2: its
lookup finds its own context, and for the child the child context kept in
the tree, which shares the time of the root. -/
def composite_System : System :=
  { default_System 1 with
    GetSystemType := "drake::systems::Diagram<double>"
    GetSystemPathname := "::diagram"
    DoGetTargetSystemContext := fun target_system context =>
      if target_system = 1 then some context
      else if target_system = 2 then
        some { empty_Context 2 with time := context.time, is_root_context := false }
      else none }

/-! ## Fixing input ports from a `double` context -/

/-- Modelled from the spec: `AbstractValue::static_type_info` (declared outside
this file), the type tag of a value. -/
def PortValue.static_type_info : PortValue → String
  | .vector _ => "drake::systems::BasicVector<T>"
  | .abstract value => value.type_name

/-- Modelled from the spec: `InputPort<T>::HasValue` (declared outside this
file): whether the port has a value in the context. -/
def InputPort.HasValue (port : PortBase) (context : Context) : Bool :=
  match context.input_port_values[port.index]? with
  | some (some _) => true
  | _ => false

/-- Modelled from the spec: `InputPort<T>::Eval` of a vector-valued port
(declared outside this file): the value of the port as a vector. -/
def InputPort.Eval (port : PortBase) (context : Context) : Run (List Scalar) :=
  match context.input_port_values[port.index]? with
  | some (some (.vector value)) => Run.pure value
  | some (some (.abstract _)) =>
    Run.throw (.logic_error ("InputPort::Eval(): port " ++ port.name ++
      " does not hold a vector."))
  | _ => Run.throw (.logic_error ("InputPort::Eval(): port " ++ port.name ++ " has no value."))

/-- Modelled from the spec: `InputPort<T>::Eval<AbstractValue>` (declared
outside this file): the value of the port, whatever its kind. -/
def InputPort.Eval_AbstractValue (port : PortBase) (context : Context) : Run PortValue :=
  match context.input_port_values[port.index]? with
  | some (some value) => Run.pure value
  | _ => Run.throw (.logic_error ("InputPort::Eval(): port " ++ port.name ++ " has no value."))

/-- The member `System<T>::AllocateInputVector`. -/
def System.AllocateInputVector (self : System) (input_port : PortBase) :
    Run (List Scalar) := do
  (if input_port.data_type ≠ PortDataType.kVectorValued then
    Run.throw (.logic_error "input_port.get_data_type() == kVectorValued")
  else pure ())
  let self_input_port_base ←
    self.GetInputPortBaseOrThrow "AllocateInputVector" input_port.index false
  (if input_port ≠ self_input_port_base then
    Run.throw (.logic_error "&input_port == &self_input_port_base")
  else pure ())
  let value := self.DoAllocateInput input_port
  match value with
  | .vector value => return value
  | .abstract _ => Run.throw (.logic_error "get_value<BasicVector<T>>(): wrong value type.")

/-- The member `System<T>::AllocateInputAbstract` (its `DRAKE_ASSERT` is
compiled out of release builds). -/
def System.AllocateInputAbstract (self : System) (input_port : PortBase) : PortValue :=
  self.DoAllocateInput input_port

/-- Modelled from the spec: `SystemBase::ThrowInputPortHasWrongType` (declared
outside this file), the error raised for a value of the wrong type. -/
def ThrowInputPortHasWrongType (path_name : String) (port_index : Nat) (port_name : String)
    (expected_type actual_type : String) : Exception :=
  .logic_error ("FixInputPortTypeCheck(): expected value of type " ++ expected_type ++
    " for input port '" ++ port_name ++ "' (index " ++ toString port_index ++
    ") but the actual type was " ++ actual_type ++ ". (System " ++ path_name ++ ")")

/-- The member `System<T>::MakeFixInputPortTypeChecker`, applied to the value
`actual` that is being fixed. -/
def System.MakeFixInputPortTypeChecker (self : System) (port_index : Nat)
    (actual : PortValue) : Run Unit := do
  let port ← self.GetInputPortBaseOrThrow "MakeFixInputPortTypeChecker" port_index false
  let port_name := port.name
  let path_name := self.GetSystemPathname
  match port.data_type with
  | .kAbstractValued =>
    let expected_type := (self.AllocateInputAbstract port).static_type_info
    if actual.static_type_info ≠ expected_type then
      Run.throw (ThrowInputPortHasWrongType path_name port_index port_name expected_type
        actual.static_type_info)
    else pure ()
  | .kVectorValued =>
    let model_vector ← self.AllocateInputVector port
    let expected_size := model_vector.length
    match actual with
    | .abstract _ =>
      Run.throw (ThrowInputPortHasWrongType path_name port_index port_name
        "drake::Value<drake::systems::BasicVector<T>>" actual.static_type_info)
    | .vector actual_vector =>
      if actual_vector.length ≠ expected_size then
        Run.throw (ThrowInputPortHasWrongType path_name port_index port_name
          ("drake::systems::BasicVector<T> with size=" ++ toString expected_size)
          ("drake::systems::BasicVector<T> with size=" ++ toString actual_vector.length))
      else pure ()

/-- Modelled from the spec: `InputPort<T>::FixValue` (declared outside this
file) gives the port a fixed value in the context, after the identity check
of the context and the type check of `MakeFixInputPortTypeChecker`; the
updated context is returned. -/
def System.FixValue (self : System) (input_port : PortBase) (context : Context)
    (value : PortValue) : Run Context := do
  self.ValidateContext context
  self.MakeFixInputPortTypeChecker input_port.index value
  if input_port.index < context.input_port_values.length then
    return { context with
      input_port_values := context.input_port_values.set input_port.index (some value) }
  else Run.throw (.assertion_failed "0 <= index && index < num_input_ports()")

/-- The inner loop of `FixInputPortsFrom`, run from index `j` over the
elements of `our_vec` from that index on: the converted elements.  The
explicit conversion `T(double)` of the scalar type `T` of this system, which
is declared outside this file, is the parameter `T`.  The access
`other_vec[j]` is unchecked. -/
def FixInputPortsFrom.inner_loop (T : Scalar → Scalar) (other_vec : List Scalar) :
    List Scalar → Nat → Run (List Scalar)
  | [], _ => Run.pure []
  | _ :: rest, j =>
    match other_vec[j]? with
    | none => Run.throw (.undefined_behavior "other_vec[j]")
    | some other_value => do
      let rest ← FixInputPortsFrom.inner_loop T other_vec rest (j + 1)
      return T other_value :: rest

/-- The body of the loop of `FixInputPortsFrom` for the port of index `i`;
the target context after it is returned. -/
def FixInputPortsFrom.body (T : Scalar → Scalar) (self other_system : System)
    (other_context : Context) (i : Nat) (input_port_base : PortBase)
    (target_context : Context) : Run Context := do
  let other_port_base ← other_system.GetInputPortBaseOrThrow "FixInputPortsFrom" i false
  let input_port := input_port_base
  let other_port := other_port_base
  if ¬ InputPort.HasValue other_port other_context then
    return target_context
  else
    match input_port.data_type with
    | .kVectorValued => do
      let other_vec ← InputPort.Eval other_port other_context
      let our_vec ← self.AllocateInputVector input_port
      let our_vec ← FixInputPortsFrom.inner_loop T other_vec our_vec 0
      self.FixValue input_port target_context (.vector our_vec)
    | .kAbstractValued => do
      let other_value ← InputPort.Eval_AbstractValue other_port other_context
      self.FixValue input_port target_context other_value

/-- The loop of `FixInputPortsFrom`, run from index `i` over the input ports
from that index on. -/
def FixInputPortsFrom.loop (T : Scalar → Scalar) (self other_system : System)
    (other_context : Context) : List PortBase → Nat → Context → Run Context
  | [], _, target_context => Run.pure target_context
  | input_port_base :: rest, i, target_context => do
    let target_context ←
      FixInputPortsFrom.body T self other_system other_context i input_port_base target_context
    FixInputPortsFrom.loop T self other_system other_context rest (i + 1) target_context

/-- The member `System<T>::FixInputPortsFrom`; the target context after the
call is returned.  The parameter `T` is the explicit conversion `T(double)`
of the scalar type of this system. -/
def System.FixInputPortsFrom (T : Scalar → Scalar) (self other_system : System)
    (other_context : Context) (target_context : Context) : Run Context := do
  self.ValidateContext target_context
  other_system.ValidateContext other_context
  FixInputPortsFrom.loop T self other_system other_context self.input_ports 0 target_context

/-- A system with a vector-valued input port of size 2, an abstract-valued
input port and a vector-valued input port of size 1. -/
def transfer_System (system_id : SystemId) : System :=
  { default_System system_id with
    input_ports := [
      { index := 0, name := "u0", deprecation := none, data_type := .kVectorValued, size := 2 },
      { index := 1, name := "u1", deprecation := none, data_type := .kAbstractValued, size := 0 },
      { index := 2, name := "u2", deprecation := none, data_type := .kVectorValued, size := 1 }] }

/-- A context of the system 2 in which the first two input ports have a value
and the third has none. -/
def transfer_source_Context : Context :=
  { empty_Context 2 with
    input_port_values := [some (.vector [.finite 1, .finite 2]),
      some (.abstract { type_name := "int", payload := 5 }), none] }

/-- A context of the system 1 in which only the third input port has a
value. -/
def transfer_target_Context : Context :=
  { empty_Context 1 with input_port_values := [none, none, some (.vector [.finite 7])] }

/-- What `FixInputPortsFrom` does to the slot of input port `p` of index `i`:
`before` and `after` are the slot of the target context before and after. -/
def FixInputPortsFrom.port_fixed (T : Scalar → Scalar) (self : System) (other_context : Context) (i : Nat)
    (p : PortBase) (before after : Option (Option PortValue)) : Prop :=
  ((∀ value, other_context.input_port_values[i]? ≠ some (some value)) → after = before) ∧
  (∀ other_vec, other_context.input_port_values[i]? = some (some (.vector other_vec)) →
    p.data_type = PortDataType.kVectorValued →
    ∃ our_vec, self.DoAllocateInput p = .vector our_vec ∧ our_vec.length ≤ other_vec.length ∧
      after = some (some (.vector
        ((other_vec.take our_vec.length).map T)))) ∧
  (∀ value, other_context.input_port_values[i]? = some (some value) →
    p.data_type = PortDataType.kAbstractValued → after = some (some value))

/-- The value of input port `i` in the source context, if any, fits the input
port `p` of this system: a vector for a vector-valued port, at least as long
as the vector the system allocates for the port, and a value of the type the
system allocates for an abstract-valued port. -/
def FixInputPortsFrom.compatible (self : System) (other_context : Context) (i : Nat)
    (p : PortBase) : Prop :=
  ∀ value, other_context.input_port_values[i]? = some (some value) →
    (p.data_type = PortDataType.kVectorValued →
      ∃ other_vec our_vec, value = .vector other_vec ∧
        self.DoAllocateInput p = .vector our_vec ∧ our_vec.length ≤ other_vec.length) ∧
    (p.data_type = PortDataType.kAbstractValued →
      value.static_type_info = (self.DoAllocateInput p).static_type_info)

/-! ## Change notification of the cache -/

/-- Whether a cache entry declares one of the `affected` tickets among its
prerequisites. -/
def CacheEntry.depends_on (entry : CacheEntry) (affected : List DependencyTicket) : Bool :=
  entry.prerequisites_of_calc.any (fun ticket => affected.contains ticket)

/-- The loop of `NoteValueChange` over the slots of a cache from index `i`
on. -/
def NoteValueChange.loop (cache_entries : List CacheEntry) (affected : List DependencyTicket) :
    List CacheEntryValue → Nat → List CacheEntryValue
  | [], _ => []
  | cache_value :: rest, i =>
    let out_of_date :=
      match cache_entries[i]? with
      | some entry => entry.depends_on affected
      | none => false
    (if out_of_date then { cache_value with is_out_of_date := true } else cache_value) ::
      NoteValueChange.loop cache_entries affected rest (i + 1)

/-- Modelled from the spec: the bookkeeping of the cache on a mutation of the
context (declared outside this file).  "Any context mutation that affects
ticket X must bump X's counter before the next read", and "a cache entry's
memoized value is valid if and only if none of its declared dependencies have
changed since the value was computed": the slot of every entry that declares
one of the tickets `affected` by the mutation becomes out of date, and the
other slots are kept as they are. -/
def NoteValueChange (cache_entries : List CacheEntry) (affected : List DependencyTicket)
    (cache : List CacheEntryValue) : List CacheEntryValue :=
  NoteValueChange.loop cache_entries affected cache 0

/-- The cache after a sequence of mutations, each given by the tickets it
affects. -/
def NoteValueChanges (cache_entries : List CacheEntry) :
    List (List DependencyTicket) → List CacheEntryValue → List CacheEntryValue
  | [], cache => cache
  | affected :: rest, cache =>
    NoteValueChanges cache_entries rest (NoteValueChange cache_entries affected cache)

/-- Cache correctness of the evaluation `Eval` of the standing cache entry of
index `cache_index`, whose rule is `Calc` (the call `DoCalc description` in
the sequence of calls) and whose declared dependency set is `D`.
First, on every context created for this system that has a slot for the
entry, the evaluation returns: when the slot is out of date it invokes the
rule exactly once and returns what `Calc` computes, and when the slot is up
to date (and holds a scalar) it returns the memoized value without invoking
the rule and leaves the context as it is.
Second, whenever an evaluation returns `value` and leaves the context
`after`: it invoked the rule at most once, and if it did, `value` is what
`Calc` computes; on every context `next` of the same system that has the
cache of `after` followed by mutations none of which affects a ticket of `D`,
the evaluation returns the same `value` without invoking the rule and leaves
`next` as it is; on every context `next` that has the cache of `after`
followed by mutations one of which affects a ticket of `D`, the evaluation
invokes the rule exactly once and returns what `Calc` computes on `next`, and
the evaluation after that returns this value again without invoking the
rule. -/
def cache_correct (self : System) (Eval : Context → Run (Scalar × Context))
    (Calc : Context → Run Scalar) (cache_index : Nat) (description : String)
    (D : List DependencyTicket) : Prop :=
  (∀ (context : Context) (cache_value : CacheEntryValue),
    context.system_id = self.system_id →
    context.cache[cache_index]? = some cache_value →
    (cache_value.is_out_of_date = true →
      ∃ (value : Scalar) (after : Context),
        Eval context =
          ⟨[.CacheEntryEval cache_index context, .DoCalc description context],
            .ok (value, after)⟩ ∧
        (Calc context).result = .ok value) ∧
    (cache_value.is_out_of_date = false →
      ∀ value : Scalar, cache_value.value = .scalar value →
        Eval context = ⟨[.CacheEntryEval cache_index context], .ok (value, context)⟩)) ∧
  ∀ (context : Context) (value : Scalar) (after : Context),
    (Eval context).result = .ok (value, after) →
    ((Eval context).calls = [.CacheEntryEval cache_index context] ∨
      ((Eval context).calls =
          [.CacheEntryEval cache_index context, .DoCalc description context] ∧
        (Calc context).result = .ok value)) ∧
    (∀ (mutations : List (List DependencyTicket)) (next : Context),
      next.system_id = after.system_id →
      next.cache = NoteValueChanges self.constructed.cache_entries mutations after.cache →
      (∀ affected ∈ mutations, ∀ ticket ∈ affected, ticket ∉ D) →
      Eval next = ⟨[.CacheEntryEval cache_index next], .ok (value, next)⟩) ∧
    (∀ (mutations : List (List DependencyTicket)) (next : Context),
      next.system_id = after.system_id →
      next.cache = NoteValueChanges self.constructed.cache_entries mutations after.cache →
      (∃ affected ∈ mutations, ∃ ticket ∈ affected, ticket ∈ D) →
      ∃ (value2 : Scalar) (after2 : Context),
        Eval next =
          ⟨[.CacheEntryEval cache_index next, .DoCalc description next],
            .ok (value2, after2)⟩ ∧
        (Calc next).result = .ok value2 ∧
        Eval after2 = ⟨[.CacheEntryEval cache_index after2], .ok (value2, after2)⟩)

/-- The run of the evaluation of a scalar-valued standing cache entry in
closed form: `cache_index` is the index of the entry, `description` the name
of its rule in the sequence of calls and `rule` the value the rule computes. -/
def scalar_entry_run (self : System) (cache_index : Nat) (description : String)
    (rule : Context → Scalar) (context : Context) : Run (Scalar × Context) :=
  if context.system_id = self.system_id then
    match context.cache[cache_index]? with
    | none =>
      ⟨[.CacheEntryEval cache_index context],
        .error (.logic_error "Eval(): the context has no value for this cache entry.")⟩
    | some cache_value =>
      if cache_value.is_out_of_date then
        ⟨[.CacheEntryEval cache_index context, .DoCalc description context],
          .ok (rule context, { context with
            cache := context.cache.set cache_index
              { cache_value with value := .scalar (rule context), is_out_of_date := false } })⟩
      else
        match cache_value.value with
        | .scalar value => ⟨[.CacheEntryEval cache_index context], .ok (value, context)⟩
        | _ =>
          ⟨[.CacheEntryEval cache_index context], .error (.logic_error "Eval(): wrong value type.")⟩
  else
    ⟨[], .error (.logic_error ("A function call on a " ++ self.GetSystemType ++
      " system named '" ++ self.GetSystemPathname ++
      "' was passed the Context of a different system."))⟩

/-- A context of the system 1 with a slot for each of the six standing cache
entries, all out of date, as a newly allocated context has them. -/
def fresh_cache_Context : Context :=
  { empty_Context 1 with
    cache := [
      { value := .scalar (.finite 0), is_out_of_date := true },
      { value := .scalar (.finite 0), is_out_of_date := true },
      { value := .scalar (.finite 0), is_out_of_date := true },
      { value := .scalar (.finite 0), is_out_of_date := true },
      { value := .continuous_state (empty_State 1).continuous_state, is_out_of_date := true },
      { value := .discrete_values (empty_State 1).discrete_state, is_out_of_date := true }] }

/-! ## Error messages -/

/-- The text `part` occurs in the message. -/
def message_includes (message part : String) : Prop :=
  ∃ before after : String, message = before ++ part ++ after

/-- A system that changes the shape of the state in its update handlers,
whose `DoCalcNextUpdateTime` returns without setting the time. -/
def silent_resizing_System (system_id : SystemId) : System :=
  { resizing_System system_id with
    DoCalcNextUpdateTime := fun _ events time => (events, time) }

/-- A scalar conversion that supports no conversion at all. -/
def convert_nothing (_self : System) (_target : ScalarType) : Option System := none

/-- A system with one periodic discrete-update event, of period 1 and offset
0, whose handler succeeds and changes nothing. -/
def unique_periodic_System (system_id : SystemId) : System :=
  { default_System system_id with
    FindUniquePeriodicDiscreteUpdatesOrThrow := fun _ _ _ events =>
      .ok (some { period_sec := 1, offset_sec := 0 },
        events ++ [{ kind := .discrete_update, id := 1 }]) }

/-- The context as a sequence of calls leaves it.  The member functions of
this file write the context only through `DoApplyUnrestrictedUpdate` and
`DoApplyDiscreteVariableUpdate`; every other call leaves it as it is. -/
def System.context_after (self : System) (context : Context) : List Call → Context
  | [] => context
  | .DoApplyUnrestrictedUpdate events state _ :: rest =>
    self.context_after (self.DoApplyUnrestrictedUpdate events state context) rest
  | .DoApplyDiscreteVariableUpdate events discrete_state _ :: rest =>
    self.context_after (self.DoApplyDiscreteVariableUpdate events discrete_state context) rest
  | _ :: rest => self.context_after context rest

/-- A system with one initialization event of each kind whose discrete-update
handler reports failure; the other handlers succeed and change nothing. -/
def failing_discrete_System (system_id : SystemId) : System :=
  { one_of_each_System system_id with
    DispatchDiscreteVariableUpdateHandler := fun _ _ discrete_state =>
      (.Failed "no", discrete_state) }

/-! ## Checking the constraints -/

/-- The C++ `operator>=` on scalars: false when either side is NaN. -/
def Scalar.ge : Scalar → Scalar → Bool
  | .nan, _ => false
  | _, .nan => false
  | .infinity, _ => true
  | _, .neg_infinity => true
  | .neg_infinity, _ => false
  | _, .infinity => false
  | .finite a, .finite b => decide (a ≥ b)

/-- The constant `scalar_predicate<T>::is_bool`: whether `boolean<T>` is
`bool`, which it is for every scalar type but the symbolic one. -/
def scalar_predicate.is_bool : ScalarType → Bool
  | .Expression => false
  | _ => true

/-- The loop of `CheckSystemConstraintsSatisfied` over the constraints that
remain, `result` being the value accumulated so far.  The member
`SystemConstraint<T>::CheckSatisfied`, which is declared outside this file,
is the parameter `CheckSatisfied`; a value of `boolean<T>` is represented by
its truth value. -/
def CheckSystemConstraintsSatisfied.loop (T : ScalarType)
    (CheckSatisfied : SystemConstraint → Context → Scalar → Bool) (context : Context)
    (tol : Scalar) : List SystemConstraint → Bool → Bool
  | [], result => result
  | constraint :: rest, result =>
    let result := result && CheckSatisfied constraint context tol
    if scalar_predicate.is_bool T && !result then result
    else CheckSystemConstraintsSatisfied.loop T CheckSatisfied context tol rest result

/-- The member `System<T>::CheckSystemConstraintsSatisfied`. -/
def System.CheckSystemConstraintsSatisfied
    (CheckSatisfied : SystemConstraint → Context → Scalar → Bool) (self : System)
    (context : Context) (tol : Scalar) : Run Bool := do
  self.ValidateContext context
  (if ¬ tol.ge (.finite 0) then Run.throw (.assertion_failed "tol >= 0.0") else pure ())
  let result := true
  return CheckSystemConstraintsSatisfied.loop self.scalar_type CheckSatisfied context tol
    self.constraints_ result

/-- The specification of `CheckSystemConstraintsSatisfied`: the conjunction of
`CheckSatisfied(context, tol)` over all constraints of the registry. -/
def spec_CheckSystemConstraintsSatisfied
    (CheckSatisfied : SystemConstraint → Context → Scalar → Bool) (self : System)
    (context : Context) (tol : Scalar) : Bool :=
  self.constraints_.all (fun constraint => CheckSatisfied constraint context tol)

/-- A system with three constraints, the second of which is the only one
named `violated`. -/
def constrained_System (system_id : SystemId) : System :=
  { default_System system_id with
    constraints_ := [trivial_constraint system_id "satisfied",
      trivial_constraint system_id "violated", trivial_constraint system_id "satisfied too"] }

/-- A check under which exactly the constraints named `violated` fail. -/
def check_by_name (constraint : SystemConstraint) (_context : Context) (_tol : Scalar) : Bool :=
  constraint.description != "violated"

/-- A context of the system 1 whose discrete state has one group, holding the
value 3. -/
def one_group_Context : Context :=
  { empty_Context 1 with
    state := { empty_State 1 with discrete_state := { system_id := 1, groups := [[.finite 3]] } } }

/-! ## Theorems -/

@[simp] theorem Run.bind_eq {α β : Type} (x : Run α) (f : α → Run β) :
    (x >>= f) = Run.bind x f := rfl

@[simp] theorem Run.pure_eq {α : Type} (a : α) : (Pure.pure a : Run α) = Run.pure a := rfl

theorem ValidateContext_ok (self : System) (context : Context)
    (h : context.system_id = self.system_id) :
    self.ValidateContext context = Run.pure () := by
  simp [System.ValidateContext, h]

theorem ValidateCreatedForThisSystem_ok (self : System) (object_id : SystemId)
    (h : object_id = self.system_id) :
    self.ValidateCreatedForThisSystem object_id = Run.pure () := by
  simp [System.ValidateCreatedForThisSystem, h]

/-- C1: for a context and an output state created for this system,
`CalcUnrestrictedUpdate` raises, and then raises the shape error, exactly
when the dispatched handlers changed the continuous-state size, the number
of discrete groups or the abstract-state size of the output state; otherwise
it returns the very status (and state) the handlers produced. -/
theorem CalcUnrestrictedUpdate_shape_check (self : System) (context : Context)
    (events : EventCollection) (state : State)
    (hc : context.system_id = self.system_id) (hs : state.system_id = self.system_id) :
    let after := self.DispatchUnrestrictedUpdateHandler context events state
    let changed := state.continuous_state.size ≠ after.2.continuous_state.size ∨
      state.discrete_state.num_groups ≠ after.2.discrete_state.num_groups ∨
      state.abstract_state.length ≠ after.2.abstract_state.length
    ((self.CalcUnrestrictedUpdate context events state).result = .error shape_error ↔ changed) ∧
    ((self.CalcUnrestrictedUpdate context events state).raises = true ↔ changed) ∧
    (¬ changed →
      (self.CalcUnrestrictedUpdate context events state).result = .ok (after.1, after.2)) := by
  intro after changed
  have hrun : (self.CalcUnrestrictedUpdate context events state).result =
      if changed then .error shape_error else .ok (after.1, after.2) := by
    simp only [System.CalcUnrestrictedUpdate, ValidateContext_ok self context hc,
      ValidateCreatedForThisSystem_ok self _ hs, Run.bind_eq, Run.pure_eq, Run.bind, Run.pure,
      Run.call]
    by_cases h : changed
    · rw [if_pos h, if_pos h]; rfl
    · rw [if_neg h, if_neg h]
  by_cases h : changed
  · simp [Run.raises, hrun, h]
  · simp [Run.raises, hrun, h]

/-- Witness of C1: a handler that appends a continuous state variable makes
`CalcUnrestrictedUpdate` raise the shape error. -/
theorem CalcUnrestrictedUpdate_shape_check_witness :
    (empty_Context 7).system_id = (resizing_System 7).system_id ∧
    (empty_State 7).system_id = (resizing_System 7).system_id ∧
    ((resizing_System 7).CalcUnrestrictedUpdate (empty_Context 7) [] (empty_State 7)).result =
      .error shape_error :=
  ⟨rfl, rfl,
    (CalcUnrestrictedUpdate_shape_check (resizing_System 7) (empty_Context 7) []
      (empty_State 7) rfl rfl).1.mpr (by decide)⟩

theorem CalcNextUpdateTime_run (self : System) (context : Context)
    (events : CompositeEventCollection)
    (hc : context.system_id = self.system_id) (he : events.system_id = self.system_id) :
    let out := self.DoCalcNextUpdateTime context events.Clear .nan
    let run := self.CalcNextUpdateTime context events
    run.raises = (isnan out.2 || (isfinite out.2 && !out.1.HasEvents)) ∧
    (run.raises = false → run.result = .ok ((match context.true_time with
        | some true_time => if out.2.eq context.time then true_time else out.2
        | none => out.2), out.1)) := by
  intro out run
  simp only [run, out, System.CalcNextUpdateTime, ValidateContext_ok self context hc,
    ValidateCreatedForThisSystem_ok self _ he, Run.bind_eq, Run.pure_eq, Run.bind, Run.pure,
    Run.call]
  generalize self.DoCalcNextUpdateTime context events.Clear .nan = o
  obtain ⟨ev, t⟩ := o
  cases hq : t.eq context.time <;> cases t <;> cases h : ev.HasEvents <;>
    cases context.true_time <;>
    simp [isnan, isfinite, Run.raises, Run.throw, h, hq]

theorem Scalar.infinity_eq (t : Scalar) : Scalar.infinity.eq t = true ↔ t = .infinity := by
  cases t <;> simp [Scalar.eq]

/-- C3 (as amended): for a context and an event collection created for this
system, `CalcNextUpdateTime` raises exactly when the time left by
`DoCalcNextUpdateTime` (called on the cleared collection with the time preset
to NaN) is NaN, or is finite while the collection has no events; an override
that never sets the time raises and an infinite time with an empty collection
is accepted.
With the default `DoCalcNextUpdateTime` the call never raises and returns
+infinity, except that a context carrying a true time whose own time is
+infinity gets its true time back. -/
theorem CalcNextUpdateTime_contract (self : System) (context : Context)
    (events : CompositeEventCollection)
    (hc : context.system_id = self.system_id) (he : events.system_id = self.system_id) :
    let out := self.DoCalcNextUpdateTime context events.Clear .nan
    let run := self.CalcNextUpdateTime context events
    (run.raises = true ↔
      isnan out.2 = true ∨ (isfinite out.2 = true ∧ out.1.HasEvents = false)) ∧
    (out.2 = .nan → run.raises = true) ∧
    ((∀ time, (self.DoCalcNextUpdateTime context events.Clear time).2 = time) →
      run.raises = true) ∧
    (out.2 = .infinity → out.1.HasEvents = false → run.raises = false) ∧
    (self.DoCalcNextUpdateTime = default_DoCalcNextUpdateTime →
      run.raises = false ∧
      run.result = .ok
        ((match context.true_time with
          | some true_time => if context.time = .infinity then true_time else .infinity
          | none => .infinity), events.Clear) ∧
      (context.true_time = none ∨ context.time ≠ .infinity →
        run.result = .ok (.infinity, events.Clear))) := by
  intro out run
  obtain ⟨hraise, hok⟩ := CalcNextUpdateTime_run self context events hc he
  have hraise : run.raises = (isnan out.2 || (isfinite out.2 && !out.1.HasEvents)) := hraise
  have hok : run.raises = false → run.result = .ok ((match context.true_time with
        | some true_time => if out.2.eq context.time then true_time else out.2
        | none => out.2), out.1) := hok
  refine ⟨?_, ?_, ?_, ?_, ?_⟩
  · rw [hraise]; simp
  · intro h; rw [hraise, h]; rfl
  · intro h
    have hnan : out.2 = .nan := h .nan
    rw [hraise, hnan]; rfl
  · intro h _; rw [hraise, h]; rfl
  · intro hd
    have hout : out = (events.Clear, .infinity) := by
      simp only [out, hd, default_DoCalcNextUpdateTime]
    have hno : run.raises = false := by rw [hraise, hout]; rfl
    have hres := hok hno
    rw [hout] at hres
    refine ⟨hno, ?_, ?_⟩
    · rw [hres]
      cases context.true_time with
      | none => rfl
      | some tt =>
        by_cases ht : context.time = .infinity
        · simp [ht, Scalar.eq]
        · have : Scalar.infinity.eq context.time = false := by
            rw [Bool.eq_false_iff]; intro h; exact ht ((Scalar.infinity_eq _).mp h)
          simp [ht, this]
    · intro h
      rw [hres]
      rcases h with h | h
      · rw [h]
      · have : Scalar.infinity.eq context.time = false := by
          rw [Bool.eq_false_iff]; intro h2; exact h ((Scalar.infinity_eq _).mp h2)
        cases context.true_time <;> simp [this]

/-- Witness of C3: with the default hook and no true time the call returns
+infinity. -/
theorem CalcNextUpdateTime_contract_witness :
    (empty_Context 7).system_id = (default_System 7).system_id ∧
    (CompositeEventCollection.mk 7 [] [] []).system_id = (default_System 7).system_id ∧
    ((default_System 7).CalcNextUpdateTime (empty_Context 7) ⟨7, [], [], []⟩).result =
      .ok (.infinity, ⟨7, [], [], []⟩) :=
  ⟨rfl, rfl,
    ((CalcNextUpdateTime_contract (default_System 7) (empty_Context 7) ⟨7, [], [], []⟩
      rfl rfl).2.2.2.2 rfl).2.2 (Or.inl rfl)⟩

/-- C3, the claim as stated fails: with the default `DoCalcNextUpdateTime`,
a context whose time is +infinity and whose true time is zero gets zero, not
+infinity. -/
theorem CalcNextUpdateTime_default_not_infinity :
    (default_System 7).DoCalcNextUpdateTime = default_DoCalcNextUpdateTime ∧
    Context.system_id { empty_Context 7 with time := .infinity, true_time := some (.finite 0) } =
      (default_System 7).system_id ∧
    (CompositeEventCollection.mk 7 [] [] []).system_id = (default_System 7).system_id ∧
    ((default_System 7).CalcNextUpdateTime
        { empty_Context 7 with time := .infinity, true_time := some (.finite 0) }
        ⟨7, [], [], []⟩).result = .ok (.finite 0, ⟨7, [], [], []⟩) ∧
    Scalar.finite 0 ≠ Scalar.infinity :=
  ⟨rfl, rfl, rfl, by decide, by decide⟩

/-- C7, evaluated on the code: a discrete-update handler that appends a group
to the output buffer goes undetected; `CalcDiscreteVariableUpdate` returns
the handler status together with the resized buffer instead of raising the
shape error. -/
theorem CalcDiscreteVariableUpdate_resize_not_detected :
    ((resizing_System 7).CalcDiscreteVariableUpdate (empty_Context 7) []
        { system_id := 7, groups := [] }).result =
      .ok (.Succeeded, { system_id := 7, groups := [[]] }) ∧
    DiscreteValues.num_groups { system_id := 7, groups := [[]] } ≠
      DiscreteValues.num_groups { system_id := 7, groups := [] } := by
  decide

theorem Run.follows_pure {α : Type} (a : α) : (Run.pure a).follows [] a := by
  simp [Run.follows, Run.pure]

theorem Run.follows_throw {α : Type} (e : Exception) (l : List Call) (a : α) :
    (Run.throw e : Run α).follows l a := by
  simp [Run.follows, Run.throw, Run.raises]

theorem Run.follows_call {α : Type} (c : Call) (a : α) : (Run.call c a).follows [c] a := by
  simp [Run.follows, Run.call]

theorem Run.follows_bind {α β : Type} {x : Run α} {f : α → Run β} {l m : List Call} {a : α}
    {b : β} (hx : x.follows l a) (hf : (f a).follows m b) :
    (Run.bind x f).follows (l ++ m) b := by
  obtain ⟨hx1, hx2⟩ := hx
  obtain ⟨hf1, hf2⟩ := hf
  unfold Run.bind
  cases hr : x.result with
  | error e =>
    refine ⟨?_, ?_⟩
    · exact hx1.trans (List.prefix_append l m)
    · intro h; simp [Run.raises] at h
  | ok a2 =>
    have hno : x.raises = false := by simp [Run.raises, hr]
    obtain ⟨hc, hres⟩ := hx2 hno
    have ha : a2 = a := by rw [hr] at hres; injection hres
    subst ha
    refine ⟨?_, ?_⟩
    · show x.calls ++ (f a2).calls <+: l ++ m
      rw [hc]
      exact (List.prefix_append_right_inj l).mpr hf1
    · intro h
      have h2 : (f a2).raises = false := by
        simpa [Run.raises] using h
      obtain ⟨hc2, hres2⟩ := hf2 h2
      exact ⟨by show x.calls ++ (f a2).calls = l ++ m; rw [hc, hc2], hres2⟩

theorem Run.follows_ite {α : Type} (c : Prop) [Decidable c] {x y : Run α} {l l2 : List Call}
    {a b : α} (hx : x.follows l a) (hy : y.follows l2 b) :
    (if c then x else y).follows (if c then l else l2) (if c then a else b) := by
  by_cases h : c
  · simpa [h] using hx
  · simpa [h] using hy

theorem ValidateContext_follows (self : System) (context : Context) :
    (self.ValidateContext context).follows [] () := by
  unfold System.ValidateContext
  split
  · exact Run.follows_pure ()
  · exact Run.follows_throw _ _ _

theorem ValidateCreatedForThisSystem_follows (self : System) (object_id : SystemId) :
    (self.ValidateCreatedForThisSystem object_id).follows [] () := by
  unfold System.ValidateCreatedForThisSystem
  split
  · exact Run.follows_pure ()
  · exact Run.follows_throw _ _ _

theorem ThrowOnFailure_follows (status : EventStatus) (function_name : String) :
    (status.ThrowOnFailure function_name).follows [] () := by
  unfold EventStatus.ThrowOnFailure
  split
  · exact Run.follows_pure ()
  · exact Run.follows_throw _ _ _

theorem GetInitializationEvents_follows (self : System) (context : Context)
    (events : CompositeEventCollection) :
    (self.GetInitializationEvents context events).follows
      [Call.DoGetInitializationEvents context]
      (self.DoGetInitializationEvents context events.Clear) := by
  simp only [System.GetInitializationEvents, Run.bind_eq]
  exact Run.follows_bind (ValidateContext_follows self context)
    (Run.follows_bind (ValidateCreatedForThisSystem_follows self _) (Run.follows_call _ _))

theorem CalcUnrestrictedUpdate_follows (self : System) (context : Context)
    (events : EventCollection) (state : State) :
    (self.CalcUnrestrictedUpdate context events state).follows
      [Call.DispatchUnrestrictedUpdateHandler context events state]
      (self.DispatchUnrestrictedUpdateHandler context events state) := by
  simp only [System.CalcUnrestrictedUpdate, Run.bind_eq, Run.pure_eq]
  refine Run.follows_bind (ValidateContext_follows self context)
    (Run.follows_bind (ValidateCreatedForThisSystem_follows self _)
      (Run.follows_bind (m := []) (Run.follows_call _ _) ?_))
  split
  · exact Run.follows_throw _ _ _
  · exact Run.follows_pure _

theorem ApplyUnrestrictedUpdate_follows (self : System) (events : EventCollection)
    (state : State) (context : Context) :
    (self.ApplyUnrestrictedUpdate events state context).follows
      [Call.DoApplyUnrestrictedUpdate events state context]
      (self.DoApplyUnrestrictedUpdate events state context) := by
  simp only [System.ApplyUnrestrictedUpdate, Run.bind_eq]
  exact Run.follows_bind (ValidateContext_follows self context)
    (Run.follows_bind (ValidateCreatedForThisSystem_follows self _) (Run.follows_call _ _))

theorem CalcDiscreteVariableUpdate_follows (self : System) (context : Context)
    (events : EventCollection) (discrete_state : DiscreteValues) :
    (self.CalcDiscreteVariableUpdate context events discrete_state).follows
      [Call.DispatchDiscreteVariableUpdateHandler context events discrete_state]
      (self.DispatchDiscreteVariableUpdateHandler context events discrete_state) := by
  simp only [System.CalcDiscreteVariableUpdate, Run.bind_eq]
  exact Run.follows_bind (ValidateContext_follows self context)
    (Run.follows_bind (ValidateCreatedForThisSystem_follows self _) (Run.follows_call _ _))

theorem ApplyDiscreteVariableUpdate_follows (self : System) (events : EventCollection)
    (discrete_state : DiscreteValues) (context : Context) :
    (self.ApplyDiscreteVariableUpdate events discrete_state context).follows
      [Call.DoApplyDiscreteVariableUpdate events discrete_state context]
      (self.DoApplyDiscreteVariableUpdate events discrete_state context) := by
  simp only [System.ApplyDiscreteVariableUpdate, Run.bind_eq]
  exact Run.follows_bind (ValidateContext_follows self context)
    (Run.follows_bind (ValidateCreatedForThisSystem_follows self _) (Run.follows_call _ _))

theorem Publish_follows (self : System) (context : Context) (events : EventCollection) :
    (self.Publish context events).follows [Call.DispatchPublishHandler context events]
      (self.DispatchPublishHandler context events) := by
  simp only [System.Publish, Run.bind_eq]
  exact Run.follows_bind (ValidateContext_follows self context) (Run.follows_call _ _)

/-- `ExecuteInitializationEvents` follows the prescribed call sequence. -/
theorem ExecuteInitializationEvents_follows (self : System) (context : Context) :
    ∃ final, (self.ExecuteInitializationEvents context).follows
      (spec_ExecuteInitializationEvents self context) final := by
  have h := Run.follows_bind
    (GetInitializationEvents_follows self context self.AllocateCompositeEventCollection)
    (f := fun init_events =>
          (if EventCollection.HasEvents init_events.unrestricted_update_events = true then
                (self.CalcUnrestrictedUpdate context init_events.unrestricted_update_events context.state).bind
                  fun __discr =>
                  (__discr.1.ThrowOnFailure "ExecuteInitializationEvents").bind fun x =>
                    self.ApplyUnrestrictedUpdate init_events.unrestricted_update_events __discr.2 context
              else Run.pure context).bind
            fun context =>
            (if EventCollection.HasEvents init_events.discrete_update_events = true then
                  (self.CalcDiscreteVariableUpdate context init_events.discrete_update_events
                        self.AllocateDiscreteVariables).bind
                    fun __discr =>
                    (__discr.1.ThrowOnFailure "ExecuteInitializationEvents").bind fun x =>
                      self.ApplyDiscreteVariableUpdate init_events.discrete_update_events __discr.2 context
                else Run.pure context).bind
              fun context =>
              (if EventCollection.HasEvents init_events.publish_events = true then
                    (self.Publish context init_events.publish_events).bind fun status =>
                      status.ThrowOnFailure "ExecuteInitializationEvents"
                  else Run.pure ()).bind
                fun x => Run.pure context)
    (Run.follows_bind
      (Run.follows_ite _
        (Run.follows_bind (CalcUnrestrictedUpdate_follows self context _ context.state)
          (Run.follows_bind (ThrowOnFailure_follows _ _)
            (ApplyUnrestrictedUpdate_follows self _ _ context)))
        (Run.follows_pure context))
      (Run.follows_bind
        (Run.follows_ite _
          (Run.follows_bind (CalcDiscreteVariableUpdate_follows self _ _ _)
            (Run.follows_bind (ThrowOnFailure_follows _ _)
              (ApplyDiscreteVariableUpdate_follows self _ _ _)))
          (Run.follows_pure _))
        (Run.follows_bind
          (Run.follows_ite _
            (Run.follows_bind (Publish_follows self _ _) (ThrowOnFailure_follows _ _))
            (Run.follows_pure ()))
          (Run.follows_pure _))))
  simp only [List.append_assoc, List.append_nil, List.nil_append, List.singleton_append] at h
  simp only [System.ExecuteInitializationEvents, Run.bind_eq, Run.pure_eq,
    spec_ExecuteInitializationEvents, List.append_assoc, List.append_nil, List.nil_append,
    List.singleton_append]
  exact ⟨_, h⟩
theorem spec_ExecuteInitializationEvents_log (self : System) (context : Context) :
    let init_events :=
      self.DoGetInitializationEvents context self.AllocateCompositeEventCollection.Clear
    (spec_ExecuteInitializationEvents self context).filterMap Call.handler_kind =
      (if EventCollection.HasEvents init_events.unrestricted_update_events then
        [EventKind.unrestricted_update] else []) ++
      (if EventCollection.HasEvents init_events.discrete_update_events then
        [EventKind.discrete_update] else []) ++
      (if EventCollection.HasEvents init_events.publish_events then
        [EventKind.publish] else []) := by
  intro init_events
  simp only [spec_ExecuteInitializationEvents, List.filterMap_append]
  split_ifs <;> rfl

/-- The calls of `ExecuteInitializationEvents` and the prescribed sequence. -/
theorem ExecuteInitializationEvents_order_base (self : System) (context : Context) :
    let run := self.ExecuteInitializationEvents context
    let init_events :=
      self.DoGetInitializationEvents context self.AllocateCompositeEventCollection.Clear
    let kinds_with_events :=
      (if EventCollection.HasEvents init_events.unrestricted_update_events then
        [EventKind.unrestricted_update] else []) ++
      (if EventCollection.HasEvents init_events.discrete_update_events then
        [EventKind.discrete_update] else []) ++
      (if EventCollection.HasEvents init_events.publish_events then
        [EventKind.publish] else [])
    run.calls <+: spec_ExecuteInitializationEvents self context ∧
    (run.raises = false → run.calls = spec_ExecuteInitializationEvents self context) ∧
    run.calls.filterMap Call.handler_kind <+: kinds_with_events ∧
    (run.raises = false → run.calls.filterMap Call.handler_kind = kinds_with_events) ∧
    (run.raises = false →
      EventCollection.HasEvents init_events.unrestricted_update_events = true →
      EventCollection.HasEvents init_events.discrete_update_events = true →
      EventCollection.HasEvents init_events.publish_events = true →
      run.calls.filterMap Call.handler_kind =
        [EventKind.unrestricted_update, EventKind.discrete_update, EventKind.publish]) := by
  intro run init_events kinds_with_events
  obtain ⟨final, hpre, hall⟩ := ExecuteInitializationEvents_follows self context
  have hlog : (spec_ExecuteInitializationEvents self context).filterMap Call.handler_kind =
      kinds_with_events := spec_ExecuteInitializationEvents_log self context
  have hcalls : run.raises = false → run.calls = spec_ExecuteInitializationEvents self context :=
    fun h => (hall h).1
  refine ⟨hpre, hcalls, ?_, ?_, ?_⟩
  · rw [← hlog]
    exact List.IsPrefix.filterMap Call.handler_kind hpre
  · intro h
    rw [hcalls h, hlog]
  · intro h hu hd hp
    rw [hcalls h, hlog]
    simp only [kinds_with_events]
    rw [if_pos hu, if_pos hd, if_pos hp]
    rfl

/-- C2, the claim as stated fails: when the unrestricted-update handler
reports failure, the discrete-update and publish collections have events but
none of their handlers is dispatched, so the calls made are not the
prescribed sequence. -/
theorem ExecuteInitializationEvents_order_cut_short :
    let self := failing_unrestricted_System 7
    let run := self.ExecuteInitializationEvents (empty_Context 7)
    let init_events := self.DoGetInitializationEvents (empty_Context 7)
      self.AllocateCompositeEventCollection.Clear
    (empty_Context 7).system_id = self.system_id ∧
    EventCollection.HasEvents init_events.unrestricted_update_events = true ∧
    EventCollection.HasEvents init_events.discrete_update_events = true ∧
    EventCollection.HasEvents init_events.publish_events = true ∧
    run.calls.filterMap Call.handler_kind = [EventKind.unrestricted_update] ∧
    run.calls ≠ spec_ExecuteInitializationEvents self (empty_Context 7) := by
  decide

theorem events_loop_eq (timing : PeriodicEventData) (saved_attr : Option PeriodicEventData)
    (events : List Event) :
    GetUniquePeriodicDiscreteUpdateAttribute.events_loop timing saved_attr events =
      if events.any Event.is_discrete_update then
        (if saved_attr.isSome then none else some (some timing))
      else some saved_attr := by
  induction events with
  | nil => simp [GetUniquePeriodicDiscreteUpdateAttribute.events_loop]
  | cons e rest ih =>
    simp only [GetUniquePeriodicDiscreteUpdateAttribute.events_loop, List.any_cons]
    by_cases he : e.is_discrete_update = true
    · simp [he]
    · simp only [he, Bool.false_eq_true, if_false, Bool.false_or]
      exact ih

theorem map_loop_some (saved : PeriodicEventData)
    (m : List (PeriodicEventData × List Event)) :
    GetUniquePeriodicDiscreteUpdateAttribute.map_loop (some saved) m =
      if m.any (fun p => p.2.any Event.is_discrete_update) then none else some saved := by
  induction m with
  | nil => simp [GetUniquePeriodicDiscreteUpdateAttribute.map_loop]
  | cons p rest ih =>
    simp only [GetUniquePeriodicDiscreteUpdateAttribute.map_loop, events_loop_eq, List.any_cons]
    by_cases hp : p.2.any Event.is_discrete_update = true
    · simp [hp]
    · simp only [hp, Bool.false_eq_true, if_false, Bool.false_or]
      exact ih

theorem map_loop_none (m : List (PeriodicEventData × List Event)) :
    GetUniquePeriodicDiscreteUpdateAttribute.map_loop none m =
      match (m.filter (fun p => p.2.any Event.is_discrete_update)).map Prod.fst with
      | [t] => some t
      | _ => none := by
  induction m with
  | nil => simp [GetUniquePeriodicDiscreteUpdateAttribute.map_loop]
  | cons p rest ih =>
    simp only [GetUniquePeriodicDiscreteUpdateAttribute.map_loop, events_loop_eq]
    by_cases hp : p.2.any Event.is_discrete_update = true
    · simp only [hp, if_true, Option.isSome_none, Bool.false_eq_true, if_false, map_loop_some,
        List.filter_cons_of_pos, List.map_cons]
      by_cases hr : rest.any (fun p => p.2.any Event.is_discrete_update) = true
      · simp only [hr, if_true]
        obtain ⟨q, hq, hq2⟩ := List.any_eq_true.mp hr
        have : q ∈ rest.filter (fun p => p.2.any Event.is_discrete_update) :=
          List.mem_filter.mpr ⟨hq, hq2⟩
        cases hf : rest.filter (fun p => p.2.any Event.is_discrete_update) with
        | nil => rw [hf] at this; cases this
        | cons a l => simp
      · simp only [hr, Bool.false_eq_true, if_false]
        have : rest.filter (fun p => p.2.any Event.is_discrete_update) = [] := by
          rw [List.filter_eq_nil_iff]
          intro a ha h
          exact hr (List.any_eq_true.mpr ⟨a, ha, h⟩)
        simp [this]
    · simp only [hp, Bool.false_eq_true, if_false]
      rw [ih]
      simp [hp]

theorem mem_discrete_timings (m : List (PeriodicEventData × List Event))
    (t : PeriodicEventData) :
    t ∈ (m.filter (fun p => p.2.any Event.is_discrete_update)).map Prod.fst ↔
      carries_discrete_update m t := by
  simp only [carries_discrete_update, List.mem_map, List.mem_filter, List.any_eq_true]
  constructor
  · rintro ⟨⟨t2, events⟩, ⟨hmem, hany⟩, rfl⟩
    exact ⟨events, hmem, hany⟩
  · rintro ⟨events, hmem, hany⟩
    exact ⟨(t, events), ⟨hmem, hany⟩, rfl⟩

theorem map_loop_unique (m : List (PeriodicEventData × List Event))
    (hmap : (m.map Prod.fst).Nodup) :
    (∀ t, GetUniquePeriodicDiscreteUpdateAttribute.map_loop none m = some t ↔
      (carries_discrete_update m t ∧ ∀ t2, carries_discrete_update m t2 → t2 = t)) ∧
    (GetUniquePeriodicDiscreteUpdateAttribute.map_loop none m = none ↔
      ((∀ t, ¬ carries_discrete_update m t) ∨
        ∃ t1 t2, t1 ≠ t2 ∧ carries_discrete_update m t1 ∧ carries_discrete_update m t2)) := by
  have hnodup : ((m.filter (fun p => p.2.any Event.is_discrete_update)).map Prod.fst).Nodup :=
    hmap.sublist ((List.filter_sublist m).map Prod.fst)
  have hmem := mem_discrete_timings m
  rw [map_loop_none]
  generalize (m.filter (fun p => p.2.any Event.is_discrete_update)).map Prod.fst = D
    at hnodup hmem
  match D, hnodup, hmem with
  | [], _, hmem =>
    have hnone : ∀ t, ¬ carries_discrete_update m t := fun t h => by
      have := (hmem t).mpr h
      cases this
    refine ⟨fun t => ⟨fun h => ?_, fun h => ?_⟩, ⟨fun _ => Or.inl hnone, fun _ => rfl⟩⟩
    · cases h
    · exact absurd h.1 (hnone t)
  | [a], _, hmem =>
    have ha : carries_discrete_update m a := (hmem a).mp (List.mem_singleton.mpr rfl)
    have honly : ∀ t, carries_discrete_update m t → t = a := fun t h =>
      List.mem_singleton.mp ((hmem t).mpr h)
    refine ⟨fun t => ⟨fun h => ?_, fun h => ?_⟩, ⟨fun h => ?_, fun h => ?_⟩⟩
    · injection h with h
      subst h
      exact ⟨ha, honly⟩
    · rw [honly t h.1]
    · cases h
    · rcases h with h | ⟨t1, t2, hne, h1, h2⟩
      · exact absurd ha (h a)
      · exact absurd ((honly t1 h1).trans (honly t2 h2).symm) hne
  | a :: b :: rest, hnodup, hmem =>
    have ha : carries_discrete_update m a := (hmem a).mp (by simp)
    have hb : carries_discrete_update m b := (hmem b).mp (by simp)
    have hab : a ≠ b := by
      intro h
      rw [List.nodup_cons] at hnodup
      exact hnodup.1 (by simp [h])
    refine ⟨fun t => ⟨fun h => ?_, fun h => ?_⟩, ⟨fun _ => Or.inr ⟨a, b, hab, ha, hb⟩,
      fun _ => rfl⟩⟩
    · cases h
    · exact absurd ((h.2 a ha).trans (h.2 b hb).symm) hab

/-- C4: the map returned by `MapPeriodicEventsByTiming` having each timing as
a key once, `GetUniquePeriodicDiscreteUpdateAttribute` returns the timing `t`
exactly when `t` is the only key whose event list contains a discrete-update
event, and returns none exactly when no key has one or two distinct keys
do. -/
theorem GetUniquePeriodicDiscreteUpdateAttribute_unique (self : System)
    (hmap : ((self.MapPeriodicEventsByTiming none).map Prod.fst).Nodup) :
    let periodic_events_map := self.MapPeriodicEventsByTiming none
    (∀ t, self.GetUniquePeriodicDiscreteUpdateAttribute = some t ↔
      (carries_discrete_update periodic_events_map t ∧
        ∀ t2, carries_discrete_update periodic_events_map t2 → t2 = t)) ∧
    (self.GetUniquePeriodicDiscreteUpdateAttribute = none ↔
      ((∀ t, ¬ carries_discrete_update periodic_events_map t) ∨
        ∃ t1 t2, t1 ≠ t2 ∧ carries_discrete_update periodic_events_map t1 ∧
          carries_discrete_update periodic_events_map t2)) :=
  map_loop_unique (self.MapPeriodicEventsByTiming none) hmap

/-- Witness of C4: a timing with only a publish event is ignored, and two
discrete-update events sharing the other timing leave it unique. -/
theorem GetUniquePeriodicDiscreteUpdateAttribute_unique_witness :
    ((System.MapPeriodicEventsByTiming (periodic_System 7
      [(⟨1, 0⟩, [⟨.publish, 1⟩]),
       (⟨2, 0⟩, [⟨.publish, 2⟩, ⟨.discrete_update, 3⟩, ⟨.discrete_update, 4⟩])])
      none).map Prod.fst).Nodup ∧
    System.GetUniquePeriodicDiscreteUpdateAttribute (periodic_System 7
      [(⟨1, 0⟩, [⟨.publish, 1⟩]),
       (⟨2, 0⟩, [⟨.publish, 2⟩, ⟨.discrete_update, 3⟩, ⟨.discrete_update, 4⟩])]) =
      some ⟨2, 0⟩ :=
  ⟨by decide,
    ((GetUniquePeriodicDiscreteUpdateAttribute_unique (periodic_System 7
      [(⟨1, 0⟩, [⟨.publish, 1⟩]),
       (⟨2, 0⟩, [⟨.publish, 2⟩, ⟨.discrete_update, 3⟩, ⟨.discrete_update, 4⟩])])
      (by decide)).1 ⟨2, 0⟩).mpr
      ⟨⟨[⟨.publish, 2⟩, ⟨.discrete_update, 3⟩, ⟨.discrete_update, 4⟩], by decide,
          ⟨.discrete_update, 3⟩, by decide, rfl⟩, by
        rintro t2 ⟨events, hmem, e, he, hd⟩
        simp only [periodic_System, System.MapPeriodicEventsByTiming, List.mem_cons,
          Prod.mk.injEq, List.mem_singleton, List.not_mem_nil, or_false] at hmem
        rcases hmem with ⟨rfl, rfl⟩ | ⟨rfl, rfl⟩
        · simp only [List.mem_singleton] at he
          subst he
          exact absurd hd (by decide)
        · rfl⟩⟩

theorem map_loop_two_timings (m : List (PeriodicEventData × List Event))
    (t1 t2 : PeriodicEventData) (hne : t1 ≠ t2) (h1 : carries_discrete_update m t1)
    (h2 : carries_discrete_update m t2) :
    GetUniquePeriodicDiscreteUpdateAttribute.map_loop none m = none := by
  have hm1 := (mem_discrete_timings m t1).mpr h1
  have hm2 := (mem_discrete_timings m t2).mpr h2
  rw [map_loop_none]
  generalize (m.filter (fun p => p.2.any Event.is_discrete_update)).map Prod.fst = D
    at hm1 hm2
  match D, hm1, hm2 with
  | [], hm1, _ => cases hm1
  | [a], hm1, hm2 =>
    exact absurd ((List.mem_singleton.mp hm1).trans (List.mem_singleton.mp hm2).symm) hne
  | _ :: _ :: _, _, _ => rfl

/-- C5: `IsDifferenceEquationSystem` returns true exactly when the system has
no continuous state, no abstract state, one discrete-state group, and a
unique periodic discrete-update timing whose offset is zero; when it returns
true and a period output is supplied, the output is that timing's period; a
system with discrete-update events at two different periodic timings yields
false. -/
theorem IsDifferenceEquationSystem_iff (self : System) :
    (∀ time_period, (self.IsDifferenceEquationSystem time_period).1 = true ↔
      (self.num_continuous_states = 0 ∧ self.num_abstract_states = 0 ∧
        self.num_discrete_state_groups = 1 ∧
        ∃ periodic_data, self.GetUniquePeriodicDiscreteUpdateAttribute = some periodic_data ∧
          periodic_data.offset_sec = 0)) ∧
    (∀ value periodic_data,
      self.GetUniquePeriodicDiscreteUpdateAttribute = some periodic_data →
      (self.IsDifferenceEquationSystem (some value)).1 = true →
      (self.IsDifferenceEquationSystem (some value)).2 = some periodic_data.period_sec) ∧
    (∀ time_period t1 t2, t1 ≠ t2 →
      carries_discrete_update (self.MapPeriodicEventsByTiming none) t1 →
      carries_discrete_update (self.MapPeriodicEventsByTiming none) t2 →
      (self.IsDifferenceEquationSystem time_period).1 = false) := by
  refine ⟨fun time_period => ?_, fun value periodic_data hu => ?_,
    fun time_period t1 t2 hne h1 h2 => ?_⟩
  · unfold System.IsDifferenceEquationSystem
    by_cases h1 : self.num_continuous_states ≠ 0 ∨ self.num_abstract_states ≠ 0
    · rw [if_pos h1]
      simp only [Bool.false_eq_true, false_iff, not_and]
      intro hc ha
      rcases h1 with h1 | h1
      · exact absurd hc h1
      · exact absurd ha h1
    · rw [if_neg h1]
      simp only [not_or, not_not] at h1
      by_cases h2 : self.num_discrete_state_groups ≠ 1
      · rw [if_pos h2]
        simp only [Bool.false_eq_true, false_iff, not_and]
        intro _ _ hd
        exact absurd hd h2
      · rw [if_neg h2]
        simp only [not_not] at h2
        cases hu : self.GetUniquePeriodicDiscreteUpdateAttribute with
        | none => simp
        | some pd =>
          by_cases h3 : pd.offset_sec ≠ 0
          · simp [h1.1, h1.2, h2, h3]
          · simp only [not_not] at h3
            cases time_period <;> simp [h1.1, h1.2, h2, h3]
  · unfold System.IsDifferenceEquationSystem
    rw [hu]
    by_cases h1 : self.num_continuous_states ≠ 0 ∨ self.num_abstract_states ≠ 0
    · rw [if_pos h1]; intro h; cases h
    · rw [if_neg h1]
      by_cases h2 : self.num_discrete_state_groups ≠ 1
      · rw [if_pos h2]; intro h; cases h
      · rw [if_neg h2]
        by_cases h3 : periodic_data.offset_sec ≠ 0
        · simp [h3]
        · simp [h3]
  · have hnone : self.GetUniquePeriodicDiscreteUpdateAttribute = none :=
      map_loop_two_timings _ t1 t2 hne h1 h2
    unfold System.IsDifferenceEquationSystem
    rw [hnone]
    by_cases h1 : self.num_continuous_states ≠ 0 ∨ self.num_abstract_states ≠ 0
    · rw [if_pos h1]
    · rw [if_neg h1]
      by_cases h2 : self.num_discrete_state_groups ≠ 1
      · rw [if_pos h2]
      · rw [if_neg h2]

/-- Witness of C5: one discrete group updated with period 3 and offset 0. -/
theorem IsDifferenceEquationSystem_iff_witness :
    System.GetUniquePeriodicDiscreteUpdateAttribute
      (difference_System 7 [(⟨3, 0⟩, [⟨.discrete_update, 1⟩])]) = some ⟨3, 0⟩ ∧
    System.IsDifferenceEquationSystem
      (difference_System 7 [(⟨3, 0⟩, [⟨.discrete_update, 1⟩])]) (some 0) = (true, some 3) :=
  ⟨by decide, Prod.ext (by decide)
    ((IsDifferenceEquationSystem_iff
      (difference_System 7 [(⟨3, 0⟩, [⟨.discrete_update, 1⟩])])).2.1 0 ⟨3, 0⟩
      (by decide) (by decide))⟩

theorem Clone_run (ToScalarTypeMaybe : System → ScalarType → Option System) (self : System) :
    let T := self.scalar_type
    let U := Clone.U T
    System.Clone ToScalarTypeMaybe self =
      match ToScalarTypeMaybe self U with
      | none => ⟨[.ToScalarTypeMaybe T U], .error (Clone.error self)⟩
      | some intermediate =>
        match ToScalarTypeMaybe intermediate T with
        | none => ⟨[.ToScalarTypeMaybe T U, .ToScalarTypeMaybe U T], .error (Clone.error self)⟩
        | some result => ⟨[.ToScalarTypeMaybe T U, .ToScalarTypeMaybe U T], .ok result⟩ := by
  intro T U
  simp only [System.Clone, Run.bind_eq, Run.pure_eq, Run.bind, Run.pure, Run.call, Run.throw]
  cases h1 : ToScalarTypeMaybe self (Clone.U self.scalar_type) with
  | none => simp [T, U, h1]
  | some mid =>
    cases h2 : ToScalarTypeMaybe mid self.scalar_type with
    | none => simp [T, U, h1, h2]
    | some r => simp [T, U, h1, h2]

theorem Clone.U_ne (T : ScalarType) : Clone.U T ≠ T := by
  cases T <;> decide

/-- C6: `Clone` converts `T -> U -> T` through `U = AutoDiffXd` for
`T = double` and `U = double` otherwise, and never asks for a conversion from
a scalar type to itself; it returns a system exactly when both conversions
yield one, and then the result of the second; when the first conversion
yields none the second is not attempted; whenever it raises, it raises the
logic error whose message names the type and the pathname of the system. -/
theorem Clone_round_trip (ToScalarTypeMaybe : System → ScalarType → Option System)
    (self : System) :
    let T := self.scalar_type
    let U := Clone.U T
    let run := System.Clone ToScalarTypeMaybe self
    (T = ScalarType.double → U = ScalarType.AutoDiffXd) ∧
    (T ≠ ScalarType.double → U = ScalarType.double) ∧
    (∀ source target, Call.ToScalarTypeMaybe source target ∈ run.calls → source ≠ target) ∧
    (∀ result, run.result = .ok result ↔
      ∃ intermediate, ToScalarTypeMaybe self U = some intermediate ∧
        ToScalarTypeMaybe intermediate T = some result) ∧
    (ToScalarTypeMaybe self U = none → run.calls = [Call.ToScalarTypeMaybe T U]) ∧
    (run.raises = true ↔
      (ToScalarTypeMaybe self U = none ∨
        ∃ intermediate, ToScalarTypeMaybe self U = some intermediate ∧
          ToScalarTypeMaybe intermediate T = none)) ∧
    (run.raises = true → run.result = .error (Clone.error self)) ∧
    (∃ before after,
      (Clone.error self).what = before ++ self.GetSystemType ++ after) ∧
    (∃ before after,
      (Clone.error self).what = before ++ self.GetSystemPathname ++ after) := by
  intro T U run
  have hrun : run = _ := Clone_run ToScalarTypeMaybe self
  have hne : U ≠ T := Clone.U_ne T
  refine ⟨fun h => by simp [U, Clone.U, h], fun h => by simp [U, Clone.U, h], ?_, ?_, ?_, ?_, ?_,
    ⟨"System::Clone(): ", " system '" ++ self.GetSystemPathname ++ "' does not support Cloning",
      by simp [Clone.error, Exception.what, String.append_assoc]⟩,
    ⟨"System::Clone(): " ++ self.GetSystemType ++ " system '", "' does not support Cloning",
      by simp [Clone.error, Exception.what, String.append_assoc]⟩⟩
  · intro source target hmem
    have hsub : ∀ c ∈ run.calls, c = Call.ToScalarTypeMaybe T U ∨ c = Call.ToScalarTypeMaybe U T := by
      rw [hrun]
      intro c hc
      cases h1 : ToScalarTypeMaybe self U with
      | none => simp only [h1] at hc; simp at hc; exact Or.inl hc
      | some mid =>
        simp only [h1] at hc
        cases h2 : ToScalarTypeMaybe mid T <;> simp only [h2] at hc <;> simpa using hc
    rcases hsub _ hmem with h | h
    · injection h with h1 h2
      rw [h1, h2]; exact hne.symm
    · injection h with h1 h2
      rw [h1, h2]; exact hne
  · intro result
    rw [hrun]
    cases h1 : ToScalarTypeMaybe self U with
    | none => simp
    | some mid =>
      cases h2 : ToScalarTypeMaybe mid T with
      | none => simp [h2]
      | some r => simp [h2]
  · intro h1
    rw [hrun]
    simp only [h1]
  · rw [hrun]
    cases h1 : ToScalarTypeMaybe self U with
    | none => simp [Run.raises]
    | some mid =>
      cases h2 : ToScalarTypeMaybe mid T with
      | none => simp [Run.raises, h2]
      | some r => simp [Run.raises, h2]
  · rw [hrun]
    cases h1 : ToScalarTypeMaybe self U with
    | none => simp
    | some mid =>
      cases h2 : ToScalarTypeMaybe mid T with
      | none => simp [h2]
      | some r => simp [h2, Run.raises]

/-- Witness of C6: a system whose second leg is unsupported. -/
theorem Clone_round_trip_witness :
    convert_no_way_back (default_System 7) (Clone.U (default_System 7).scalar_type) =
      some { default_System 7 with scalar_type := .AutoDiffXd } ∧
    (System.Clone convert_no_way_back (default_System 7)).raises = true ∧
    (System.Clone convert_no_way_back (default_System 7)).result =
      .error (Clone.error (default_System 7)) :=
  ⟨rfl, by decide,
    (Clone_round_trip convert_no_way_back (default_System 7)).2.2.2.2.2.2.1 (by decide)⟩

/-- C8, evaluated on the code: handed the context of another system in which
the cached values are up to date, the four energy and power evaluations raise
before any cache entry is consulted, but `EvalUniquePeriodicDiscreteUpdate`,
which does not validate the context, consults the cache entry and returns the
foreign cached value without raising. -/
theorem EvalUniquePeriodicDiscreteUpdate_not_validated :
    foreign_Context.system_id ≠ (default_System 7).system_id ∧
    (((default_System 7).EvalPotentialEnergy foreign_Context).raises = true ∧
      ((default_System 7).EvalPotentialEnergy foreign_Context).calls = []) ∧
    (((default_System 7).EvalKineticEnergy foreign_Context).raises = true ∧
      ((default_System 7).EvalKineticEnergy foreign_Context).calls = []) ∧
    (((default_System 7).EvalConservativePower foreign_Context).raises = true ∧
      ((default_System 7).EvalConservativePower foreign_Context).calls = []) ∧
    (((default_System 7).EvalNonConservativePower foreign_Context).raises = true ∧
      ((default_System 7).EvalNonConservativePower foreign_Context).calls = []) ∧
    ((default_System 7).EvalUniquePeriodicDiscreteUpdate foreign_Context).result =
      .ok ({ system_id := 8, groups := [[.finite 5]] }, foreign_Context) ∧
    ((default_System 7).EvalUniquePeriodicDiscreteUpdate foreign_Context).calls =
      [Call.CacheEntryEval 5 foreign_Context] := by
  decide

theorem GetSolePort.loop_counts (ports : List PortBase) :
    ∀ (i n : Nat) (idx : Option Nat),
      (GetSolePort.loop ports i n idx).1 = n + num_non_deprecated ports ∧
      (num_non_deprecated ports = 0 → (GetSolePort.loop ports i n idx).2 = idx) ∧
      (0 < num_non_deprecated ports → ∃ k p,
        (GetSolePort.loop ports i n idx).2 = some (i + k) ∧ ports[k]? = some p ∧
        p.deprecation = none) := by
  induction ports with
  | nil =>
    intro i n idx
    simp [GetSolePort.loop, num_non_deprecated]
  | cons x rest ih =>
    intro i n idx
    by_cases hx : x.deprecation = none
    · have hcount : num_non_deprecated (x :: rest) = num_non_deprecated rest + 1 := by
        simp [num_non_deprecated, hx]
      obtain ⟨h1, h2, h3⟩ := ih (i + 1) (n + 1) (some i)
      simp only [GetSolePort.loop, hx, if_true]
      refine ⟨by rw [h1, hcount]; omega, fun h => by rw [hcount] at h; omega, fun _ => ?_⟩
      by_cases hr : num_non_deprecated rest = 0
      · exact ⟨0, x, by rw [h2 hr]; rfl, by simp, hx⟩
      · obtain ⟨k, p, hk, hp, hd⟩ := h3 (Nat.pos_of_ne_zero hr)
        exact ⟨k + 1, p, by rw [hk]; congr 1; omega, by simpa using hp, hd⟩
    · have hcount : num_non_deprecated (x :: rest) = num_non_deprecated rest := by
        simp [num_non_deprecated, hx]
      obtain ⟨h1, h2, h3⟩ := ih (i + 1) n idx
      simp only [GetSolePort.loop, hx, if_false]
      refine ⟨by rw [h1, hcount], fun h => h2 (by rw [← hcount]; exact h), fun h => ?_⟩
      obtain ⟨k, p, hk, hp, hd⟩ := h3 (by rw [← hcount]; exact h)
      exact ⟨k + 1, p, by rw [hk]; congr 1; omega, by simpa using hp, hd⟩

theorem num_non_deprecated_eq_zero (ports : List PortBase)
    (h : num_non_deprecated ports = 0) (j : Nat) (q : PortBase) (hq : ports[j]? = some q) :
    q.deprecation ≠ none := by
  intro hd
  have hmem : q ∈ ports := List.getElem?_mem hq
  have : 0 < num_non_deprecated ports :=
    List.countP_pos_iff.mpr ⟨q, hmem, by simpa using hd⟩
  omega

theorem num_non_deprecated_eq_one (ports : List PortBase) :
    ∀ (k : Nat) (p : PortBase), ports[k]? = some p → p.deprecation = none →
      (num_non_deprecated ports = 1 ↔
        ∀ j q, ports[j]? = some q → q.deprecation = none → j = k) := by
  induction ports with
  | nil => intro k p hp; simp at hp
  | cons x rest ih =>
    intro k p hp hd
    by_cases hx : x.deprecation = none
    · have hcount : num_non_deprecated (x :: rest) = num_non_deprecated rest + 1 := by
        simp [num_non_deprecated, hx]
      rw [hcount]
      constructor
      · intro h1
        have h0 : num_non_deprecated rest = 0 := by omega
        have hzero : ∀ j q, (x :: rest)[j]? = some q → q.deprecation = none → j = 0 := by
          intro j q hq hqd
          cases j with
          | zero => rfl
          | succ j =>
            exact absurd hqd (num_non_deprecated_eq_zero rest h0 j q (by simpa using hq))
        intro j q hq hqd
        rw [hzero j q hq hqd, hzero k p hp hd]
      · intro hall
        have hk : k = 0 := (hall 0 x (by simp) hx).symm
        have h0 : num_non_deprecated rest = 0 := by
          by_contra hne
          obtain ⟨q, hmem, hq⟩ := List.countP_pos_iff.mp (Nat.pos_of_ne_zero hne)
          obtain ⟨j, hj⟩ := List.getElem?_of_mem hmem
          have := hall (j + 1) q (by simpa using hj) (by simpa using hq)
          omega
        omega
    · have hcount : num_non_deprecated (x :: rest) = num_non_deprecated rest := by
        simp [num_non_deprecated, hx]
      rw [hcount]
      cases k with
      | zero =>
        simp only [List.getElem?_cons_zero, Option.some.injEq] at hp
        exact absurd hd (hp ▸ hx)
      | succ k =>
        have hp2 : rest[k]? = some p := by simpa using hp
        rw [ih k p hp2 hd]
        constructor
        · intro hall j q hq hqd
          cases j with
          | zero =>
            simp only [List.getElem?_cons_zero, Option.some.injEq] at hq
            exact absurd hqd (hq ▸ hx)
          | succ j =>
            have := hall j q (by simpa using hq) hqd
            omega
        · intro hall j q hq hqd
          have := hall (j + 1) q (by simpa using hq) hqd
          omega

theorem GetSolePort.loop_sole (ports : List PortBase) :
    (∀ k p, (GetSolePort.loop ports 0 0 none = (1, some k) ∧ ports[k]? = some p) ↔
      sole_non_deprecated ports k p) ∧
    (∀ k, GetSolePort.loop ports 0 0 none = (1, some k) → ∃ p, ports[k]? = some p) ∧
    ((∃ k, GetSolePort.loop ports 0 0 none = (1, some k)) ↔ num_non_deprecated ports = 1) := by
  obtain ⟨h1, h2, h3⟩ := GetSolePort.loop_counts ports 0 0 none
  simp only [Nat.zero_add] at h1 h3
  have key : ∀ k, GetSolePort.loop ports 0 0 none = (1, some k) →
      ∃ p, ports[k]? = some p ∧ p.deprecation = none ∧ num_non_deprecated ports = 1 := by
    intro k hk
    have hc : num_non_deprecated ports = 1 := by rw [← h1, hk]
    obtain ⟨k2, p, hk2, hp, hd⟩ := h3 (by omega)
    rw [hk] at hk2
    have : k = k2 := by simpa using hk2
    subst this
    exact ⟨p, hp, hd, hc⟩
  have back : num_non_deprecated ports = 1 →
      ∃ k p, GetSolePort.loop ports 0 0 none = (1, some k) ∧ ports[k]? = some p ∧
        p.deprecation = none := by
    intro hc
    obtain ⟨k, p, hk, hp, hd⟩ := h3 (by omega)
    exact ⟨k, p, Prod.ext (by rw [h1, hc]) hk, hp, hd⟩
  refine ⟨fun k p => ⟨?_, ?_⟩, fun k hk => ?_, ⟨?_, ?_⟩⟩
  · rintro ⟨hk, hp⟩
    obtain ⟨p2, hp2, hd, hc⟩ := key k hk
    have : p2 = p := by rw [hp2] at hp; exact Option.some.inj hp
    subst this
    exact ⟨hp, hd, (num_non_deprecated_eq_one ports k p2 hp hd).mp hc⟩
  · rintro ⟨hp, hd, hall⟩
    have hc := (num_non_deprecated_eq_one ports k p hp hd).mpr hall
    obtain ⟨k2, p2, hk2, hp2, hd2⟩ := back hc
    have : k2 = k := hall k2 p2 hp2 hd2
    subst this
    exact ⟨hk2, hp⟩
  · obtain ⟨p, hp, _, _⟩ := key k hk
    exact ⟨p, hp⟩
  · rintro ⟨k, hk⟩
    obtain ⟨_, _, _, hc⟩ := key k hk
    exact hc
  · intro hc
    obtain ⟨k, _, hk, _, _⟩ := back hc
    exact ⟨k, hk⟩

theorem GetSoleInputPort_run (self : System) :
    (∀ p, self.GetSoleInputPort.result = .ok p ↔
      ∃ k, GetSolePort.loop self.input_ports 0 0 none = (1, some k) ∧
        self.input_ports[k]? = some p) ∧
    (self.GetSoleInputPort.raises = false ↔
      ∃ k, GetSolePort.loop self.input_ports 0 0 none = (1, some k)) := by
  obtain ⟨_, hget, _⟩ := GetSolePort.loop_sole self.input_ports
  unfold System.GetSoleInputPort
  by_cases h0 : self.num_input_ports = 0
  · have hnil : self.input_ports = [] := List.length_eq_zero.mp h0
    rw [if_pos h0]
    simp [Run.throw, Run.raises, hnil, GetSolePort.loop]
  · rw [if_neg h0]
    rcases hl : GetSolePort.loop self.input_ports 0 0 none with ⟨n, idx⟩
    rcases n with _ | _ | n
    · simp [Run.throw, Run.raises]
    · cases idx with
      | none => simp [Run.throw, Run.raises]
      | some k =>
        obtain ⟨p2, hp2⟩ := hget k hl
        simp [System.get_input_port, System.GetInputPortBaseOrThrow, hp2, Run.pure, Run.raises]
    · simp [Run.throw, Run.raises]

theorem GetSoleOutputPort_run (self : System) :
    (∀ p, self.GetSoleOutputPort.result = .ok p ↔
      ∃ k, GetSolePort.loop self.output_ports 0 0 none = (1, some k) ∧
        self.output_ports[k]? = some p) ∧
    (self.GetSoleOutputPort.raises = false ↔
      ∃ k, GetSolePort.loop self.output_ports 0 0 none = (1, some k)) := by
  obtain ⟨_, hget, _⟩ := GetSolePort.loop_sole self.output_ports
  unfold System.GetSoleOutputPort
  by_cases h0 : self.num_output_ports = 0
  · have hnil : self.output_ports = [] := List.length_eq_zero.mp h0
    rw [if_pos h0]
    simp [Run.throw, Run.raises, hnil, GetSolePort.loop]
  · rw [if_neg h0]
    rcases hl : GetSolePort.loop self.output_ports 0 0 none with ⟨n, idx⟩
    rcases n with _ | _ | n
    · simp [Run.throw, Run.raises]
    · cases idx with
      | none => simp [Run.throw, Run.raises]
      | some k =>
        obtain ⟨p2, hp2⟩ := hget k hl
        simp [System.get_output_port, System.GetOutputPortBaseOrThrow, hp2, Run.pure, Run.raises]
    · simp [Run.throw, Run.raises]

theorem Run.raises_eq_true_iff {α : Type} (x : Run α) : x.raises = true ↔ ¬ x.raises = false := by
  cases x.raises <;> simp

/-- C9: `GetSoleInputPort` returns the port `p` exactly when `p` is the only
declared input port without a deprecation marker, wherever the deprecated
ports are; it raises exactly when the number of non-deprecated input ports
is zero or at least two.  `GetSoleOutputPort` does the same over the output
ports. -/
theorem GetSolePort_sole (self : System) :
    (∀ p, self.GetSoleInputPort.result = .ok p ↔
      ∃ k, sole_non_deprecated self.input_ports k p) ∧
    (self.GetSoleInputPort.raises = true ↔
      (num_non_deprecated self.input_ports = 0 ∨ 2 ≤ num_non_deprecated self.input_ports)) ∧
    (∀ p, self.GetSoleOutputPort.result = .ok p ↔
      ∃ k, sole_non_deprecated self.output_ports k p) ∧
    (self.GetSoleOutputPort.raises = true ↔
      (num_non_deprecated self.output_ports = 0 ∨
        2 ≤ num_non_deprecated self.output_ports)) := by
  obtain ⟨hi1, hi2⟩ := GetSoleInputPort_run self
  obtain ⟨ho1, ho2⟩ := GetSoleOutputPort_run self
  obtain ⟨hsi, _, hci⟩ := GetSolePort.loop_sole self.input_ports
  obtain ⟨hso, _, hco⟩ := GetSolePort.loop_sole self.output_ports
  refine ⟨fun p => ?_, ?_, fun p => ?_, ?_⟩
  · rw [hi1 p]
    exact exists_congr (fun k => hsi k p)
  · rw [Run.raises_eq_true_iff, hi2, hci]
    omega
  · rw [ho1 p]
    exact exists_congr (fun k => hso k p)
  · rw [Run.raises_eq_true_iff, ho2, hco]
    omega

theorem GetPort.loop_finds (port_name : String) (ports : List PortBase) :
    ∀ i : Nat,
      (∀ r, GetPort.loop port_name ports i = some r ↔
        ∃ k p, r = i + k ∧ first_named ports port_name k p) ∧
      (GetPort.loop port_name ports i = none ↔ ∀ p ∈ ports, p.name ≠ port_name) := by
  induction ports with
  | nil =>
    intro i
    simp [GetPort.loop, first_named]
  | cons x rest ih =>
    intro i
    obtain ⟨ih1, ih2⟩ := ih (i + 1)
    by_cases hx : port_name = x.name
    · simp only [GetPort.loop, hx, if_true]
      refine ⟨fun r => ⟨fun h => ?_, ?_⟩, ?_⟩
      · injection h with h
        exact ⟨0, x, by omega, by simp, rfl, fun j q hj => absurd hj (Nat.not_lt_zero j)⟩
      · rintro ⟨k, p, rfl, hp, hn, hfirst⟩
        cases k with
        | zero => rfl
        | succ k => exact absurd rfl (hfirst 0 x (Nat.succ_pos k) (by simp))
      · simp
    · simp only [GetPort.loop, hx, if_false]
      have hx2 : x.name ≠ port_name := fun h => hx h.symm
      refine ⟨fun r => ?_, ?_⟩
      · rw [ih1 r]
        constructor
        · rintro ⟨k, p, rfl, hp, hn, hfirst⟩
          refine ⟨k + 1, p, by omega, by simpa using hp, hn, ?_⟩
          intro j q hj hq
          cases j with
          | zero =>
            simp only [List.getElem?_cons_zero, Option.some.injEq] at hq
            exact hq ▸ hx2
          | succ j => exact hfirst j q (by omega) (by simpa using hq)
        · rintro ⟨k, p, rfl, hp, hn, hfirst⟩
          cases k with
          | zero =>
            simp only [List.getElem?_cons_zero, Option.some.injEq] at hp
            exact absurd hn (hp ▸ hx2)
          | succ k =>
            refine ⟨k, p, by omega, by simpa using hp, hn, ?_⟩
            intro j q hj hq
            exact hfirst (j + 1) q (by omega) (by simpa using hq)
      · rw [ih2]
        simp [hx2]

theorem first_named_index (ports : List PortBase) (port_name : String) (k k2 : Nat)
    (p p2 : PortBase) (h : first_named ports port_name k p)
    (h2 : first_named ports port_name k2 p2) : k = k2 := by
  rcases Nat.lt_trichotomy k k2 with hlt | heq | hgt
  · exact absurd h.2.1 (h2.2.2 k p hlt h.1)
  · exact heq
  · exact absurd h2.2.1 (h.2.2 k2 p2 hgt h2.1)

theorem GetInputPort_run (self : System) (port_name : String) :
    (∀ p, (self.GetInputPort port_name).result = .ok p ↔
      ∃ k, first_named self.input_ports port_name k p) ∧
    ((self.GetInputPort port_name).raises = true ↔
      ∀ p ∈ self.input_ports, p.name ≠ port_name) := by
  obtain ⟨h1, h2⟩ := GetPort.loop_finds port_name self.input_ports 0
  unfold System.GetInputPort
  cases hl : GetPort.loop port_name self.input_ports 0 with
  | none =>
    have hall := h2.mp hl
    refine ⟨fun p => ?_, ?_⟩
    · simp only [Run.throw]
      constructor
      · intro h; cases h
      · rintro ⟨k, hp, hn, _⟩
        exact absurd hn (hall p (List.getElem?_mem hp))
    · simp only [Run.throw, Run.raises, true_iff]
      exact hall
  | some r =>
    obtain ⟨k, p2, hr, hf⟩ := (h1 r).mp hl
    have hr2 : r = k := by omega
    subst hr2
    have hp2 := hf.1
    refine ⟨fun p => ?_, ?_⟩
    · simp only [System.get_input_port, System.GetInputPortBaseOrThrow, hp2, Run.pure_eq, Run.pure]
      constructor
      · intro h
        injection h with h
        subst h
        exact ⟨r, hf⟩
      · rintro ⟨k2, hf2⟩
        have := first_named_index _ _ _ _ _ _ hf hf2
        subst this
        have : some p2 = some p := hf.1.symm.trans hf2.1
        rw [Option.some.inj this]
    · simp only [System.get_input_port, System.GetInputPortBaseOrThrow, hp2]
      constructor
      · intro h
        simp [Run.raises, Run.pure] at h
      · intro hall
        exact absurd hf.2.1 (hall p2 (List.getElem?_mem hp2))

theorem GetOutputPort_run (self : System) (port_name : String) :
    (∀ p, (self.GetOutputPort port_name).result = .ok p ↔
      ∃ k, first_named self.output_ports port_name k p) ∧
    ((self.GetOutputPort port_name).raises = true ↔
      ∀ p ∈ self.output_ports, p.name ≠ port_name) := by
  obtain ⟨h1, h2⟩ := GetPort.loop_finds port_name self.output_ports 0
  unfold System.GetOutputPort
  cases hl : GetPort.loop port_name self.output_ports 0 with
  | none =>
    have hall := h2.mp hl
    refine ⟨fun p => ?_, ?_⟩
    · simp only [Run.throw]
      constructor
      · intro h; cases h
      · rintro ⟨k, hp, hn, _⟩
        exact absurd hn (hall p (List.getElem?_mem hp))
    · simp only [Run.throw, Run.raises, true_iff]
      exact hall
  | some r =>
    obtain ⟨k, p2, hr, hf⟩ := (h1 r).mp hl
    have hr2 : r = k := by omega
    subst hr2
    have hp2 := hf.1
    refine ⟨fun p => ?_, ?_⟩
    · simp only [System.get_output_port, System.GetOutputPortBaseOrThrow, hp2, Run.pure_eq, Run.pure]
      constructor
      · intro h
        injection h with h
        subst h
        exact ⟨r, hf⟩
      · rintro ⟨k2, hf2⟩
        have := first_named_index _ _ _ _ _ _ hf hf2
        subst this
        have : some p2 = some p := hf.1.symm.trans hf2.1
        rw [Option.some.inj this]
    · simp only [System.get_output_port, System.GetOutputPortBaseOrThrow, hp2]
      constructor
      · intro h
        simp [Run.raises, Run.pure] at h
      · intro hall
        exact absurd hf.2.1 (hall p2 (List.getElem?_mem hp2))

/-- C10: `GetInputPort(name)` returns the port `p` exactly when `p` is the
declared input port of lowest index whose name is the given one, deprecated
or not, and raises exactly when no declared input port has that name;
`GetOutputPort(name)` does the same over the output ports. -/
theorem GetPort_first_named (self : System) (port_name : String) :
    (∀ p, (self.GetInputPort port_name).result = .ok p ↔
      ∃ k, first_named self.input_ports port_name k p) ∧
    ((self.GetInputPort port_name).raises = true ↔
      ∀ p ∈ self.input_ports, p.name ≠ port_name) ∧
    (∀ p, (self.GetOutputPort port_name).result = .ok p ↔
      ∃ k, first_named self.output_ports port_name k p) ∧
    ((self.GetOutputPort port_name).raises = true ↔
      ∀ p ∈ self.output_ports, p.name ≠ port_name) :=
  ⟨(GetInputPort_run self port_name).1, (GetInputPort_run self port_name).2,
    (GetOutputPort_run self port_name).1, (GetOutputPort_run self port_name).2⟩

theorem static_cast_int_le (n : Nat) : static_cast_int n ≤ (n : Int) := by
  unfold static_cast_int
  have h1 : n % 2 ^ 32 ≤ n := Nat.mod_le n _
  split <;> omega

/-- C11: for a constraint constructed for this system, `AddConstraint` raises
exactly when an external constraint has already been added; whenever it
raises, the system (its constraint list, its external-constraint list and
`num_constraints`) is left unchanged; when there is no external constraint
it appends the constraint, stamped with the identity of the system, and
leaves the external constraints alone. -/
theorem AddConstraint_internal (self : System) (constraint : SystemConstraint)
    (hsys : constraint.get_system = self.system_id) :
    ((∃ e, (self.AddConstraint constraint).2 = .error e) ↔ self.external_constraints_ ≠ []) ∧
    ((∃ e, (self.AddConstraint constraint).2 = .error e) →
      (self.AddConstraint constraint).1 = self ∧
      (self.AddConstraint constraint).1.constraints_ = self.constraints_ ∧
      (self.AddConstraint constraint).1.external_constraints_ = self.external_constraints_ ∧
      (self.AddConstraint constraint).1.num_constraints = self.num_constraints) ∧
    (self.external_constraints_ = [] →
      (self.AddConstraint constraint).1.constraints_ =
        self.constraints_ ++ [{ constraint with system_id := some self.system_id }] ∧
      (self.AddConstraint constraint).1.external_constraints_ = [] ∧
      (self.AddConstraint constraint).2 = .ok (static_cast_int self.constraints_.length)) := by
  unfold System.AddConstraint
  rw [if_neg (not_not.mpr hsys)]
  by_cases hext : self.external_constraints_ = []
  · simp [hext]
  · have : ¬ self.external_constraints_.isEmpty = true := by
      simpa [List.isEmpty_iff] using hext
    simp [this, hext]

/-- Witness of C11: an internal constraint is refused once an external one
has been added. -/
theorem AddConstraint_internal_witness :
    (trivial_constraint 7 "c").get_system =
      ((default_System 7).AddExternalConstraint (double_only_constraint "e")).1.system_id ∧
    ∃ e, (System.AddConstraint ((default_System 7).AddExternalConstraint
      (double_only_constraint "e")).1 (trivial_constraint 7 "c")).2 = .error e :=
  ⟨rfl, ((AddConstraint_internal ((default_System 7).AddExternalConstraint
    (double_only_constraint "e")).1 (trivial_constraint 7 "c") rfl).1).mpr
      (by simp [System.AddExternalConstraint])⟩

/-- C13: `get_constraint(i)` raises the out-of-range error exactly when
`i < 0` or `i >= num_constraints()`; otherwise it returns the constraint at
position `i` of the registry, and the unchecked element access is never out
of bounds. -/
theorem get_constraint_range (self : System) (constraint_index : Int) :
    ((∃ what, self.get_constraint constraint_index = .error (.out_of_range what)) ↔
      (constraint_index < 0 ∨ constraint_index ≥ self.num_constraints)) ∧
    ((∃ e, self.get_constraint constraint_index = .error e) ↔
      (constraint_index < 0 ∨ constraint_index ≥ self.num_constraints)) ∧
    (¬ (constraint_index < 0 ∨ constraint_index ≥ self.num_constraints) →
      ∃ constraint, self.constraints_[constraint_index.toNat]? = some constraint ∧
        self.get_constraint constraint_index = .ok constraint) ∧
    (∀ what, self.get_constraint constraint_index ≠ .error (.undefined_behavior what)) := by
  have hin : ¬ (constraint_index < 0 ∨ constraint_index ≥ self.num_constraints) →
      ∃ constraint, self.constraints_[constraint_index.toNat]? = some constraint := by
    intro h
    have hle := static_cast_int_le self.constraints_.length
    have hlt : constraint_index.toNat < self.constraints_.length := by
      unfold System.num_constraints at h
      omega
    exact ⟨self.constraints_[constraint_index.toNat], List.getElem?_eq_getElem hlt⟩
  unfold System.get_constraint
  by_cases h : constraint_index < 0 ∨ constraint_index ≥ self.num_constraints
  · simp only [if_pos h]
    simp [h]
  · obtain ⟨c, hc⟩ := hin h
    simp only [if_neg h, hc]
    simp [h]

theorem HasDirectFeedthrough.loop_eq_true (output_port : Int) (pairs : List (Int × Int)) :
    HasDirectFeedthrough.loop output_port pairs = true ↔
      ∃ pair ∈ pairs, pair.2 = output_port := by
  induction pairs with
  | nil => simp [HasDirectFeedthrough.loop]
  | cons pair rest ih =>
    simp only [HasDirectFeedthrough.loop, List.mem_cons, exists_eq_or_imp]
    by_cases h : pair.2 = output_port
    · simp [h]
    · simp [h, ih]

/-- C14: with `R` the relation returned by `GetDirectFeedthroughs`,
`HasDirectFeedthrough(input, output)` is true exactly when the pair is in
`R`; `HasDirectFeedthrough(output)` exactly when some pair of `R` has that
output, that is when `HasDirectFeedthrough(i, output)` holds for some input
`i`; `HasAnyDirectFeedthrough()` exactly when `R` is not empty, that is when
`HasDirectFeedthrough(output)` holds for some output. -/
theorem HasDirectFeedthrough_relation (self : System) :
    (∀ input_port output_port, self.HasDirectFeedthrough input_port output_port = true ↔
      (input_port, output_port) ∈ self.GetDirectFeedthroughs) ∧
    (∀ output_port, self.HasDirectFeedthrough_output output_port = true ↔
      ∃ input_port, (input_port, output_port) ∈ self.GetDirectFeedthroughs) ∧
    (∀ output_port, self.HasDirectFeedthrough_output output_port = true ↔
      ∃ input_port, self.HasDirectFeedthrough input_port output_port = true) ∧
    (self.HasAnyDirectFeedthrough = true ↔ self.GetDirectFeedthroughs ≠ []) ∧
    (self.HasAnyDirectFeedthrough = true ↔
      ∃ output_port, self.HasDirectFeedthrough_output output_port = true) := by
  have h2 : ∀ input_port output_port,
      self.HasDirectFeedthrough input_port output_port = true ↔
        (input_port, output_port) ∈ self.GetDirectFeedthroughs := by
    intro input_port output_port
    simp only [System.HasDirectFeedthrough, HasDirectFeedthrough.loop_eq_true, equal_range,
      List.mem_filter, decide_eq_true_eq]
    constructor
    · rintro ⟨⟨a, b⟩, ⟨hmem, ha⟩, hb⟩
      simp only at ha hb
      rw [← ha, ← hb]
      exact hmem
    · intro h
      exact ⟨(input_port, output_port), ⟨h, rfl⟩, rfl⟩
  have h1 : ∀ output_port, self.HasDirectFeedthrough_output output_port = true ↔
      ∃ input_port, (input_port, output_port) ∈ self.GetDirectFeedthroughs := by
    intro output_port
    simp only [System.HasDirectFeedthrough_output, HasDirectFeedthrough.loop_eq_true]
    constructor
    · rintro ⟨⟨a, b⟩, hmem, hb⟩
      simp only at hb
      exact ⟨a, hb ▸ hmem⟩
    · rintro ⟨a, hmem⟩
      exact ⟨(a, output_port), hmem, rfl⟩
  have h0 : self.HasAnyDirectFeedthrough = true ↔ self.GetDirectFeedthroughs ≠ [] := by
    simp [System.HasAnyDirectFeedthrough, List.length_pos]
  refine ⟨h2, h1, ?_, h0, ?_⟩
  · intro output_port
    rw [h1]
    exact exists_congr (fun i => (h2 i output_port).symm)
  · rw [h0]
    constructor
    · intro hne
      cases hp : self.GetDirectFeedthroughs with
      | nil => exact absurd hp hne
      | cons pair rest =>
        exact ⟨pair.2, (h1 pair.2).mpr ⟨pair.1, by rw [hp]; simp⟩⟩
    · rintro ⟨output_port, h⟩
      obtain ⟨i, hmem⟩ := (h1 output_port).mp h
      intro hnil
      rw [hnil] at hmem
      cases hmem

/-- Fire or throw: a run of a status followed by `ThrowOnFailure` raises
exactly when the run raises or returns a failure status, and otherwise
returns what the run returned. -/
theorem fire_or_throw {α β : Type} (x : Run (EventStatus × α)) (function_name : String)
    (f : α → β) :
    let forced : Run β := Run.bind x (fun r =>
      Run.bind (r.1.ThrowOnFailure function_name) (fun _ => Run.pure (f r.2)))
    (forced.raises = true ↔
      (x.raises = true ∨ ∃ message a, x.result = .ok (.Failed message, a))) ∧
    (∀ a, x.result = .ok (.Succeeded, a) → forced.result = .ok (f a)) ∧
    forced.calls = x.calls := by
  intro forced
  simp only [forced, Run.bind, Run.raises, EventStatus.ThrowOnFailure]
  rcases x with ⟨calls, result⟩
  cases result with
  | error e => simp
  | ok r =>
    obtain ⟨status, a⟩ := r
    cases status <;> simp [Run.pure, Run.throw]

theorem fire_or_throw_status (x : Run EventStatus) (function_name : String) :
    let forced : Run Unit := Run.bind x (fun status => status.ThrowOnFailure function_name)
    (forced.raises = true ↔ (x.raises = true ∨ ∃ message, x.result = .ok (.Failed message))) ∧
    (x.result = .ok .Succeeded → forced.result = .ok ()) := by
  intro forced
  simp only [forced, Run.bind, Run.raises, EventStatus.ThrowOnFailure]
  rcases x with ⟨calls, result⟩
  cases result with
  | error e => simp
  | ok status => cases status <;> simp [Run.pure, Run.throw]

theorem Publish_run (self : System) (context : Context) (events : EventCollection) :
    ((self.Publish context events).raises = true ↔ context.system_id ≠ self.system_id) ∧
    (context.system_id = self.system_id →
      (self.Publish context events).result = .ok (self.DispatchPublishHandler context events)) := by
  simp only [System.Publish, System.ValidateContext, Run.bind_eq, Run.bind, Run.call, Run.raises]
  by_cases h : context.system_id = self.system_id
  · simp [h, Run.pure]
  · simp [h, Run.throw]

theorem CalcDiscreteVariableUpdate_run (self : System) (context : Context)
    (events : EventCollection) (discrete_state : DiscreteValues) :
    ((self.CalcDiscreteVariableUpdate context events discrete_state).raises = true ↔
      (context.system_id ≠ self.system_id ∨ discrete_state.system_id ≠ self.system_id)) ∧
    (context.system_id = self.system_id → discrete_state.system_id = self.system_id →
      (self.CalcDiscreteVariableUpdate context events discrete_state).result =
        .ok (self.DispatchDiscreteVariableUpdateHandler context events discrete_state)) := by
  simp only [System.CalcDiscreteVariableUpdate, System.ValidateContext,
    System.ValidateCreatedForThisSystem, Run.bind_eq, Run.bind, Run.call, Run.raises]
  by_cases h : context.system_id = self.system_id
  · by_cases h2 : discrete_state.system_id = self.system_id
    · simp [h, h2, Run.pure]
    · simp [h, h2, Run.pure, Run.throw]
  · simp [h, Run.throw]

theorem CalcUnrestrictedUpdate_run (self : System) (context : Context)
    (events : EventCollection) (state : State) :
    let after := self.DispatchUnrestrictedUpdateHandler context events state
    let changed := state.continuous_state.size ≠ after.2.continuous_state.size ∨
      state.discrete_state.num_groups ≠ after.2.discrete_state.num_groups ∨
      state.abstract_state.length ≠ after.2.abstract_state.length
    ((self.CalcUnrestrictedUpdate context events state).raises = true ↔
      (context.system_id ≠ self.system_id ∨ state.system_id ≠ self.system_id ∨ changed)) ∧
    (context.system_id = self.system_id → state.system_id = self.system_id → ¬ changed →
      (self.CalcUnrestrictedUpdate context events state).result = .ok after) := by
  intro after changed
  by_cases h : context.system_id = self.system_id
  · by_cases h2 : state.system_id = self.system_id
    · simp only [System.CalcUnrestrictedUpdate, ValidateContext_ok self context h,
        ValidateCreatedForThisSystem_ok self _ h2, Run.bind_eq, Run.pure_eq, Run.bind, Run.pure,
        Run.call, Run.raises]
      by_cases hc : changed
      · have hc2 := hc
        simp only [changed, after] at hc2
        rw [if_pos hc2]
        simp [Run.throw, hc]
      · have hc2 := hc
        simp only [changed, after] at hc2
        rw [if_neg hc2]
        simp [h, h2, hc]
    · simp [System.CalcUnrestrictedUpdate, System.ValidateContext,
        System.ValidateCreatedForThisSystem, Run.bind, Run.call, Run.raises, h, h2, Run.pure,
        Run.throw]
  · simp [System.CalcUnrestrictedUpdate, System.ValidateContext,
      System.ValidateCreatedForThisSystem, Run.bind, Run.call, Run.raises, h, Run.throw]

/-- C16: each forced variant raises exactly when the non-forced call on the
forced event collection raises or returns a failure status; when that call
returns success the forced variant returns normally with the output buffer
as the non-forced call left it.  The non-forced calls raise only on a failed
validation (and, for the unrestricted update, on a changed state shape),
whatever the status: a failure status is returned as it is. -/
theorem forced_fire_or_throw (self : System) (context : Context)
    (discrete_state : DiscreteValues) (state : State) :
    let publish := self.Publish context self.get_forced_publish_events
    let discrete := self.CalcDiscreteVariableUpdate context
      self.get_forced_discrete_update_events discrete_state
    let unrestricted := self.CalcUnrestrictedUpdate context
      self.get_forced_unrestricted_update_events state
    let after := self.DispatchUnrestrictedUpdateHandler context
      self.get_forced_unrestricted_update_events state
    let changed := state.continuous_state.size ≠ after.2.continuous_state.size ∨
      state.discrete_state.num_groups ≠ after.2.discrete_state.num_groups ∨
      state.abstract_state.length ≠ after.2.abstract_state.length
    ((self.ForcedPublish context).raises = true ↔
      (publish.raises = true ∨ ∃ message, publish.result = .ok (.Failed message))) ∧
    (publish.result = .ok .Succeeded → (self.ForcedPublish context).result = .ok ()) ∧
    ((self.CalcForcedDiscreteVariableUpdate context discrete_state).raises = true ↔
      (discrete.raises = true ∨
        ∃ message buffer, discrete.result = .ok (.Failed message, buffer))) ∧
    (∀ buffer, discrete.result = .ok (.Succeeded, buffer) →
      (self.CalcForcedDiscreteVariableUpdate context discrete_state).result = .ok buffer) ∧
    ((self.CalcForcedUnrestrictedUpdate context state).raises = true ↔
      (unrestricted.raises = true ∨
        ∃ message buffer, unrestricted.result = .ok (.Failed message, buffer))) ∧
    (∀ buffer, unrestricted.result = .ok (.Succeeded, buffer) →
      (self.CalcForcedUnrestrictedUpdate context state).result = .ok buffer) ∧
    (publish.raises = true ↔ context.system_id ≠ self.system_id) ∧
    (context.system_id = self.system_id → publish.result =
      .ok (self.DispatchPublishHandler context self.get_forced_publish_events)) ∧
    (discrete.raises = true ↔
      (context.system_id ≠ self.system_id ∨ discrete_state.system_id ≠ self.system_id)) ∧
    (context.system_id = self.system_id → discrete_state.system_id = self.system_id →
      discrete.result = .ok (self.DispatchDiscreteVariableUpdateHandler context
        self.get_forced_discrete_update_events discrete_state)) ∧
    (unrestricted.raises = true ↔
      (context.system_id ≠ self.system_id ∨ state.system_id ≠ self.system_id ∨ changed)) ∧
    (context.system_id = self.system_id → state.system_id = self.system_id → ¬ changed →
      unrestricted.result = .ok after) := by
  intro publish discrete unrestricted after changed
  have hd := fire_or_throw discrete "CalcForcedDiscreteVariableUpdate" id
  have hu := fire_or_throw unrestricted "CalcForcedUnrestrictedUpdate" id
  have hp := Publish_run self context self.get_forced_publish_events
  have hdr := CalcDiscreteVariableUpdate_run self context self.get_forced_discrete_update_events
    discrete_state
  have hur := CalcUnrestrictedUpdate_run self context self.get_forced_unrestricted_update_events
    state
  have hf := fire_or_throw_status publish "ForcedPublish"
  exact ⟨hf.1, hf.2, hd.1, hd.2.1, hu.1, hu.2.1, hp.1, hp.2, hdr.1, hdr.2, hur.1, hur.2⟩

/-- Witness of C16: with handlers that report failure the non-forced calls
return the failure status and the forced variants raise. -/
theorem forced_fire_or_throw_witness :
    (System.Publish (failing_forced_System 7) (empty_Context 7)
      (failing_forced_System 7).get_forced_publish_events).result = .ok (.Failed "no") ∧
    (System.ForcedPublish (failing_forced_System 7) (empty_Context 7)).raises = true :=
  ⟨by decide,
    (forced_fire_or_throw (failing_forced_System 7) (empty_Context 7)
      { system_id := 7, groups := [] } (empty_State 7)).1.mpr (Or.inr ⟨"no", by decide⟩)⟩

theorem Clear_eq_empty_events (events : CompositeEventCollection) :
    events.Clear = empty_events events.system_id := rfl

/-- C19: for a valid context and two event collections created for this
system, whatever they held before, `GetPeriodicEvents`, `GetPerStepEvents`,
`GetInitializationEvents` and `CalcNextUpdateTime` behave alike on both; the
three getters return what the `Do*` hook produces from the empty collection,
and so does `CalcNextUpdateTime` whenever it returns; with the default hooks
the resulting collection is empty. -/
theorem events_cleared_first (self : System) (context : Context)
    (events other : CompositeEventCollection)
    (hc : context.system_id = self.system_id)
    (he : events.system_id = self.system_id) (ho : other.system_id = self.system_id) :
    let empty := empty_events self.system_id
    (self.GetPeriodicEvents context events = self.GetPeriodicEvents context other ∧
      self.GetPerStepEvents context events = self.GetPerStepEvents context other ∧
      self.GetInitializationEvents context events =
        self.GetInitializationEvents context other ∧
      self.CalcNextUpdateTime context events = self.CalcNextUpdateTime context other) ∧
    ((self.GetPeriodicEvents context events).result =
        .ok (self.DoGetPeriodicEvents context empty) ∧
      (self.GetPerStepEvents context events).result =
        .ok (self.DoGetPerStepEvents context empty) ∧
      (self.GetInitializationEvents context events).result =
        .ok (self.DoGetInitializationEvents context empty) ∧
      (∀ time result, (self.CalcNextUpdateTime context events).result = .ok (time, result) →
        result = (self.DoCalcNextUpdateTime context empty .nan).1)) ∧
    (self.DoGetPeriodicEvents = default_DoGetPeriodicEvents →
      (self.GetPeriodicEvents context events).result = .ok empty) ∧
    (self.DoGetPerStepEvents = default_DoGetPerStepEvents →
      (self.GetPerStepEvents context events).result = .ok empty) ∧
    (self.DoGetInitializationEvents = default_DoGetInitializationEvents →
      (self.GetInitializationEvents context events).result = .ok empty) ∧
    (self.DoCalcNextUpdateTime = default_DoCalcNextUpdateTime →
      ∃ time, (self.CalcNextUpdateTime context events).result = .ok (time, empty)) ∧
    CompositeEventCollection.HasEvents empty = false := by
  intro empty
  have hce : events.Clear = empty := by rw [Clear_eq_empty_events, he]
  have hco : other.Clear = empty := by rw [Clear_eq_empty_events, ho]
  have hvc := ValidateContext_ok self context hc
  have hve := ValidateCreatedForThisSystem_ok self _ he
  have hvo := ValidateCreatedForThisSystem_ok self _ ho
  have hP : (self.GetPeriodicEvents context events).result =
      .ok (self.DoGetPeriodicEvents context empty) := by
    simp only [System.GetPeriodicEvents, hvc, hve, hce, Run.bind_eq, Run.bind, Run.pure, Run.call]
  have hS : (self.GetPerStepEvents context events).result =
      .ok (self.DoGetPerStepEvents context empty) := by
    simp only [System.GetPerStepEvents, hvc, hve, hce, Run.bind_eq, Run.bind, Run.pure, Run.call]
  have hI : (self.GetInitializationEvents context events).result =
      .ok (self.DoGetInitializationEvents context empty) := by
    simp only [System.GetInitializationEvents, hvc, hve, hce, Run.bind_eq, Run.bind, Run.pure,
      Run.call]
  obtain ⟨hraise, hok⟩ := CalcNextUpdateTime_run self context events hc he
  rw [hce] at hraise hok
  refine ⟨⟨?_, ?_, ?_, ?_⟩, ⟨hP, hS, hI, ?_⟩, ?_, ?_, ?_, ?_, rfl⟩
  · simp only [System.GetPeriodicEvents, hvc, hve, hvo, hce, hco]
  · simp only [System.GetPerStepEvents, hvc, hve, hvo, hce, hco]
  · simp only [System.GetInitializationEvents, hvc, hve, hvo, hce, hco]
  · simp only [System.CalcNextUpdateTime, hvc, hve, hvo, hce, hco]
  · intro time result hres
    have hno : (self.CalcNextUpdateTime context events).raises = false := by
      simp [Run.raises, hres]
    have := hok hno
    rw [hres] at this
    injection this with this
    exact (Prod.mk.inj this).2
  · intro hd; rw [hP, hd]; rfl
  · intro hd; rw [hS, hd]; rfl
  · intro hd; rw [hI, hd]; rfl
  · intro hd
    have hout : self.DoCalcNextUpdateTime context empty .nan = (empty, .infinity) := by
      rw [hd]; rfl
    rw [hout] at hraise hok
    exact ⟨_, hok (by rw [hraise]; rfl)⟩

/-- Witness of C19: a collection holding stale events comes back empty from
a system with the default hooks. -/
theorem events_cleared_first_witness :
    (empty_Context 7).system_id = (default_System 7).system_id ∧
    (stale_events 7).system_id = (default_System 7).system_id ∧
    CompositeEventCollection.HasEvents (stale_events 7) = true ∧
    ((default_System 7).GetPeriodicEvents (empty_Context 7) (stale_events 7)).result =
      .ok (empty_events 7) :=
  ⟨rfl, rfl, by decide,
    (events_cleared_first (default_System 7) (empty_Context 7) (stale_events 7)
      (empty_events 7) rfl rfl rfl).2.2.1 rfl⟩

/-- C20: the constructor of every system declares six cache entries: potential
energy, kinetic energy and conservative power, each depending on exactly
accuracy, all state and all parameters, hence on neither the time ticket nor
any input-port ticket; non-conservative power, time derivatives and the
unique periodic discrete update, each depending on exactly all sources. -/
theorem constructor_cache_entries (self : System) :
    let constructed := self.constructed
    let energy_prereqs : List DependencyTicket := [.accuracy, .all_state, .all_parameters]
    constructed.cache_entries.length = 6 ∧
    depends_on_exactly constructed.cache_entries constructed.potential_energy_cache_index_
      "potential energy" energy_prereqs ∧
    depends_on_exactly constructed.cache_entries constructed.kinetic_energy_cache_index_
      "kinetic energy" energy_prereqs ∧
    depends_on_exactly constructed.cache_entries constructed.conservative_power_cache_index_
      "conservative power" energy_prereqs ∧
    DependencyTicket.time ∉ energy_prereqs ∧
    (∀ index, DependencyTicket.input_port index ∉ energy_prereqs) ∧
    DependencyTicket.all_input_ports ∉ energy_prereqs ∧
    DependencyTicket.all_sources ∉ energy_prereqs ∧
    depends_on_exactly constructed.cache_entries constructed.nonconservative_power_cache_index_
      "non-conservative power" [.all_sources] ∧
    depends_on_exactly constructed.cache_entries constructed.time_derivatives_cache_index_
      "time derivatives" [.all_sources] ∧
    depends_on_exactly constructed.cache_entries
      constructed.unique_periodic_discrete_update_cache_index_
      "unique periodic discrete variable update" [.all_sources] := by
  intro constructed energy_prereqs
  refine ⟨rfl, ⟨_, rfl, rfl, rfl, fun _ => Iff.rfl⟩, ⟨_, rfl, rfl, rfl, fun _ => Iff.rfl⟩,
    ⟨_, rfl, rfl, rfl, fun _ => Iff.rfl⟩, by decide, fun index => by simp [energy_prereqs],
    by decide, by decide, ⟨_, rfl, rfl, rfl, fun _ => Iff.rfl⟩,
    ⟨_, rfl, rfl, rfl, fun _ => Iff.rfl⟩, ⟨_, rfl, rfl, rfl, fun _ => Iff.rfl⟩⟩

theorem GetSubsystemContext_run (self subsystem : System) (context : Context)
    (hc : context.system_id = self.system_id) :
    self.GetSubsystemContext subsystem context =
      match self.DoGetTargetSystemContext subsystem.system_id context with
      | some ret => ⟨[], .ok ret⟩
      | none => ⟨[], .error (GetSubsystemContext.error self subsystem)⟩ := by
  simp only [System.GetSubsystemContext, ValidateContext_ok self context hc, Run.bind_eq,
    Run.pure_eq, Run.bind, Run.pure, Run.throw]
  cases self.DoGetTargetSystemContext subsystem.system_id context <;> simp

/-- C18: for a context created for this system, `GetSubsystemContext` returns
the context found by the lookup `DoGetTargetSystemContext` when it finds one
and raises exactly when it finds none; with the default lookup it returns
the given context exactly when the subsystem is this very system and raises
for every other subsystem, the message naming the types and pathnames of both
systems.  `GetMutableSubsystemContext` returns the same. -/
theorem GetSubsystemContext_lookup (self subsystem : System) (context : Context)
    (hc : context.system_id = self.system_id) :
    let run := self.GetSubsystemContext subsystem context
    (∀ ret, self.DoGetTargetSystemContext subsystem.system_id context = some ret →
      run.result = .ok ret) ∧
    (run.raises = true ↔ self.DoGetTargetSystemContext subsystem.system_id context = none) ∧
    (self.DoGetTargetSystemContext = default_DoGetTargetSystemContext self.system_id →
      (subsystem.system_id = self.system_id → run.result = .ok context) ∧
      (run.raises = false ↔ subsystem.system_id = self.system_id) ∧
      (subsystem.system_id ≠ self.system_id →
        run.result = .error (GetSubsystemContext.error self subsystem))) ∧
    (∃ a b c d e, (GetSubsystemContext.error self subsystem).what =
      a ++ subsystem.GetSystemType ++ b ++ subsystem.GetSystemPathname ++ c ++
        self.GetSystemType ++ d ++ self.GetSystemPathname ++ e) ∧
    self.GetMutableSubsystemContext subsystem context = run := by
  intro run
  have hrun : run = _ := GetSubsystemContext_run self subsystem context hc
  refine ⟨?_, ?_, ?_, ?_, ?_⟩
  · intro ret hret
    rw [hrun, hret]
  · rw [hrun]
    cases self.DoGetTargetSystemContext subsystem.system_id context <;> simp [Run.raises]
  · intro hd
    rw [hrun, hd]
    by_cases hs : subsystem.system_id = self.system_id
    · simp [default_DoGetTargetSystemContext, hs, Run.raises]
    · simp [default_DoGetTargetSystemContext, hs, Run.raises]
  · exact ⟨"GetSubsystemContext(): ", " subsystem '", "' is not contained in ", " System '",
      "'.", by simp [GetSubsystemContext.error, Exception.what, String.append_assoc]⟩
  · simp only [System.GetMutableSubsystemContext, Run.bind_eq, Run.pure_eq, Run.bind, Run.pure]
    show _ = self.GetSubsystemContext subsystem context
    rcases self.GetSubsystemContext subsystem context with ⟨calls, result⟩
    cases result <;> simp

/-- Witness of C18: a system with the default lookup asked for another
system. -/
theorem GetSubsystemContext_lookup_witness :
    (empty_Context 7).system_id = (default_System 7).system_id ∧
    ((default_System 7).GetSubsystemContext (default_System 8) (empty_Context 7)).result =
      .error (GetSubsystemContext.error (default_System 7) (default_System 8)) :=
  ⟨rfl, (GetSubsystemContext_lookup (default_System 7) (default_System 8) (empty_Context 7)
    rfl).2.2.1 rfl |>.2.2 (by decide)⟩

/-- C17: `GetMyContextFromRoot` raises when the given context is not a root
context.  On a root context, a system with a parent gets exactly what
`GetSubsystemContext(S, c)` of its root system gives, and a system without
parent gets the context `c` itself, which is also what its own
`GetSubsystemContext(S, c)` gives when `c` was created for it and its lookup
finds its own context in `c`. -/
theorem GetMyContextFromRoot_consistent (self : System) (root_context : Context) :
    (root_context.is_root_context = false →
      ∀ get_parent_service,
        (System.GetMyContextFromRoot get_parent_service self root_context).result = .error
          (.logic_error "GetMyContextFromRoot(): given context must be a root context.")) ∧
    (root_context.is_root_context = true →
      ∀ parent_service : SystemParentServiceInterface,
        System.GetMyContextFromRoot (some parent_service) self root_context =
          parent_service.GetRootSystemBase.GetSubsystemContext self root_context) ∧
    (root_context.is_root_context = true →
      (System.GetMyContextFromRoot none self root_context).result = .ok root_context) ∧
    (root_context.is_root_context = true →
      root_context.system_id = self.system_id →
      self.DoGetTargetSystemContext self.system_id root_context = some root_context →
      System.GetMyContextFromRoot none self root_context =
        self.GetSubsystemContext self root_context) := by
  refine ⟨?_, ?_, ?_, ?_⟩
  · intro h ps
    simp [System.GetMyContextFromRoot, h, Run.throw]
  · intro h ps
    simp [System.GetMyContextFromRoot, h]
  · intro h
    simp [System.GetMyContextFromRoot, h, Run.pure]
  · intro h hc hl
    rw [GetSubsystemContext_run self self root_context hc, hl]
    simp [System.GetMyContextFromRoot, h, Run.pure]

/-- Witness of C17: the child of a composite system gets from the root
context the child context that the lookup of the root finds. -/
theorem GetMyContextFromRoot_consistent_witness :
    (empty_Context 1).is_root_context = true ∧
    (System.GetMyContextFromRoot (some { GetRootSystemBase := composite_System })
      (default_System 2) (empty_Context 1)).result =
      .ok { empty_Context 2 with is_root_context := false } ∧
    (composite_System.GetSubsystemContext (default_System 2) (empty_Context 1)).result =
      .ok { empty_Context 2 with is_root_context := false } :=
  ⟨rfl,
    (GetMyContextFromRoot_consistent (default_System 2) (empty_Context 1)).2.1 rfl
      { GetRootSystemBase := composite_System } ▸ (by decide),
    by decide⟩

theorem Run.bind_result_ok {α β : Type} (x : Run α) (f : α → Run β) (b : β) :
    (Run.bind x f).result = .ok b ↔ ∃ a, x.result = .ok a ∧ (f a).result = .ok b := by
  unfold Run.bind
  cases h : x.result <;> simp

theorem FixInputPortsFrom.inner_loop_run (T : Scalar → Scalar) (other_vec : List Scalar) :
    ∀ (our_vec : List Scalar) (j : Nat),
      FixInputPortsFrom.inner_loop T other_vec our_vec j =
        if our_vec.length ≤ (other_vec.drop j).length then
          Run.pure (((other_vec.drop j).take our_vec.length).map T)
        else Run.throw (.undefined_behavior "other_vec[j]")
  | [], j => by simp [FixInputPortsFrom.inner_loop]
  | _ :: rest, j => by
    unfold FixInputPortsFrom.inner_loop
    cases h : other_vec[j]? with
    | none =>
      have hj : other_vec.length ≤ j := by
        rcases Nat.lt_or_ge j other_vec.length with hlt | hge
        · rw [List.getElem?_eq_getElem hlt] at h
          cases h
        · exact hge
      have : other_vec.length - j = 0 := by omega
      simp [this]
    | some other_value =>
      have hj : j < other_vec.length := by
        rcases Nat.lt_or_ge j other_vec.length with hlt | hge
        · exact hlt
        · rw [List.getElem?_eq_none hge] at h
          cases h
      have hd : other_vec.drop j = other_value :: other_vec.drop (j + 1) := by
        rw [List.drop_eq_getElem_cons hj]
        rw [List.getElem?_eq_getElem hj] at h
        cases h
        rfl
      simp only [Run.bind_eq, Run.pure_eq, FixInputPortsFrom.inner_loop_run T other_vec rest (j + 1), hd,
        List.length_cons, Nat.add_le_add_iff_right]
      by_cases hl : rest.length ≤ (other_vec.drop (j + 1)).length
      · rw [if_pos hl, if_pos hl]
        simp [Run.bind, Run.pure]
      · rw [if_neg hl, if_neg hl]
        simp [Run.bind, Run.throw]
@[simp] theorem Run.pure_result {α : Type} (a : α) : (Run.pure a).result = .ok a := rfl

@[simp] theorem Run.throw_result {α : Type} (e : Exception) :
    (Run.throw e : Run α).result = .error e := rfl

theorem GetInputPortBaseOrThrow_ok_iff (self : System) (func : String) (port_index : Nat)
    (warn : Bool) (port : PortBase) :
    (self.GetInputPortBaseOrThrow func port_index warn).result = .ok port ↔
      self.input_ports[port_index]? = some port := by
  unfold System.GetInputPortBaseOrThrow
  cases self.input_ports[port_index]? <;> simp [Run.pure_eq]

theorem ValidateContext_ok_iff (self : System) (context : Context) :
    (self.ValidateContext context).result = .ok () ↔ context.system_id = self.system_id := by
  unfold System.ValidateContext
  by_cases h : context.system_id = self.system_id <;> simp [h]

theorem AllocateInputVector_ok_iff (self : System) (input_port : PortBase)
    (value : List Scalar) :
    (self.AllocateInputVector input_port).result = .ok value ↔
      input_port.data_type = PortDataType.kVectorValued ∧
      self.input_ports[input_port.index]? = some input_port ∧
      self.DoAllocateInput input_port = .vector value := by
  simp only [System.AllocateInputVector, Run.bind_eq, Run.pure_eq, Run.bind_result_ok,
    GetInputPortBaseOrThrow_ok_iff]
  constructor
  · rintro ⟨_, h1, q, hq, _, h2, h3⟩
    by_cases hv : input_port.data_type = PortDataType.kVectorValued
    · by_cases he : input_port = q
      · subst he
        refine ⟨hv, hq, ?_⟩
        cases hd : self.DoAllocateInput input_port with
        | vector w => simpa [hd] using h3
        | abstract w => simp [hd] at h3
      · simp [he] at h2
    · simp [hv] at h1
  · rintro ⟨hv, hq, hd⟩
    exact ⟨(), by simp [hv], input_port, hq, (), by simp, by simp [hd]⟩

theorem MakeFixInputPortTypeChecker_ok_iff (self : System) (port_index : Nat)
    (actual : PortValue) :
    (self.MakeFixInputPortTypeChecker port_index actual).result = .ok () ↔
      ∃ port, self.input_ports[port_index]? = some port ∧
        ((port.data_type = PortDataType.kAbstractValued ∧
            actual.static_type_info = (self.DoAllocateInput port).static_type_info) ∨
         (∃ model_vector actual_vector,
            (self.AllocateInputVector port).result = .ok model_vector ∧
            actual = .vector actual_vector ∧ actual_vector.length = model_vector.length)) := by
  simp only [System.MakeFixInputPortTypeChecker, Run.bind_eq, Run.pure_eq, Run.bind_result_ok,
    GetInputPortBaseOrThrow_ok_iff]
  constructor
  · rintro ⟨port, hp, h⟩
    refine ⟨port, hp, ?_⟩
    cases hd : port.data_type with
    | kAbstractValued =>
      left
      simp only [hd] at h
      refine ⟨rfl, ?_⟩
      by_contra hne
      simp [System.AllocateInputAbstract, hne] at h
    | kVectorValued =>
      right
      simp only [hd, Run.bind_result_ok] at h
      obtain ⟨model_vector, hm, h⟩ := h
      cases actual with
      | abstract w => simp at h
      | vector actual_vector =>
        refine ⟨model_vector, actual_vector, hm, rfl, ?_⟩
        by_contra hne
        simp [hne] at h
  · rintro ⟨port, hp, h⟩
    refine ⟨port, hp, ?_⟩
    rcases h with ⟨hd, ht⟩ | ⟨model_vector, actual_vector, hm, ha, hl⟩
    · simp [hd, System.AllocateInputAbstract, ht]
    · have hd := ((AllocateInputVector_ok_iff self port model_vector).1 hm).1
      simp only [hd, Run.bind_result_ok]
      exact ⟨model_vector, hm, by simp [ha, hl]⟩

theorem FixValue_ok_iff (self : System) (input_port : PortBase) (context : Context)
    (value : PortValue) (fixed : Context) :
    (self.FixValue input_port context value).result = .ok fixed ↔
      context.system_id = self.system_id ∧
      (self.MakeFixInputPortTypeChecker input_port.index value).result = .ok () ∧
      input_port.index < context.input_port_values.length ∧
      fixed = { context with
        input_port_values := context.input_port_values.set input_port.index (some value) } := by
  simp only [System.FixValue, Run.bind_eq, Run.pure_eq, Run.bind_result_ok]
  constructor
  · rintro ⟨_, hc, _, hm, h⟩
    replace hc := (ValidateContext_ok_iff self context).1 hc
    by_cases hi : input_port.index < context.input_port_values.length
    · simp only [hi, if_true, Run.pure_result, Except.ok.injEq] at h
      exact ⟨hc, hm, hi, h.symm⟩
    · simp [hi] at h
  · rintro ⟨hc, hm, hi, hf⟩
    exact ⟨(), (ValidateContext_ok_iff self context).2 hc, (), hm, by simp [hi, hf]⟩
theorem FixValue_slots (self : System) (p : PortBase) (context fixed : Context)
    (value : PortValue) (h : (self.FixValue p context value).result = .ok fixed) :
    (∀ m, m ≠ p.index → fixed.input_port_values[m]? = context.input_port_values[m]?) ∧
    fixed.input_port_values[p.index]? = some (some value) := by
  obtain ⟨_, _, hi, hf⟩ := (FixValue_ok_iff self p context value fixed).1 h
  subst hf
  constructor
  · intro m hm
    simp [List.getElem?_set, Ne.symm hm]
  · simp [List.getElem?_set, hi]

theorem FixInputPortsFrom.body_ok (T : Scalar → Scalar) (self other_system : System) (other_context : Context)
    (i : Nat) (p : PortBase) (target fixed : Context) (hp : p.index = i)
    (hq : ∀ q, other_system.input_ports[i]? = some q → q.index = i)
    (h : (FixInputPortsFrom.body T self other_system other_context i p target).result =
      .ok fixed) :
    (∀ m, m ≠ i → fixed.input_port_values[m]? = target.input_port_values[m]?) ∧
    FixInputPortsFrom.port_fixed T self other_context i p target.input_port_values[i]?
      fixed.input_port_values[i]? := by
  simp only [FixInputPortsFrom.body, Run.bind_eq, Run.pure_eq, Run.bind_result_ok,
    GetInputPortBaseOrThrow_ok_iff] at h
  obtain ⟨q, hq1, h⟩ := h
  have hqi := hq q hq1
  unfold FixInputPortsFrom.port_fixed
  by_cases hv : InputPort.HasValue q other_context = true
  · simp only [hv, not_true_eq_false, if_false] at h
    simp only [InputPort.HasValue, hqi] at hv
    cases hs : other_context.input_port_values[i]? with
    | none => simp [hs] at hv
    | some slot =>
      cases slot with
      | none => simp [hs] at hv
      | some value =>
        cases hd : p.data_type with
        | kVectorValued =>
          simp only [hd, Run.bind_result_ok] at h
          obtain ⟨other_vec, he, our_vec, ha, conv, hc, hf⟩ := h
          have he2 : value = .vector other_vec := by
            simp only [InputPort.Eval, hqi, hs] at he
            cases value with
            | vector w => simpa using he
            | abstract w => simp at he
          subst he2
          rw [FixInputPortsFrom.inner_loop_run] at hc
          have hal := ((AllocateInputVector_ok_iff self p our_vec).1 ha).2.2
          by_cases hl : our_vec.length ≤ (other_vec.drop 0).length
          · rw [if_pos hl] at hc
            simp only [Run.pure_result, Except.ok.injEq, List.drop_zero] at hc
            subst hc
            have hfs := FixValue_slots self p target fixed _ hf
            rw [hp] at hfs
            refine ⟨hfs.1, ?_, ?_, ?_⟩
            · intro hno
              exact absurd rfl (hno _)
            · intro w hw _
              simp only [Option.some.injEq, PortValue.vector.injEq] at hw
              subst hw
              exact ⟨our_vec, hal, by simpa using hl, hfs.2⟩
            · intro w _ hw
              cases hw
          · rw [if_neg hl] at hc
            simp at hc
        | kAbstractValued =>
          simp only [hd, Run.bind_result_ok] at h
          obtain ⟨other_value, he, hf⟩ := h
          have he2 : other_value = value := by
            simp only [InputPort.Eval_AbstractValue, hqi, hs] at he
            simpa using he.symm
          subst he2
          have hfs := FixValue_slots self p target fixed _ hf
          rw [hp] at hfs
          refine ⟨hfs.1, ?_, ?_, ?_⟩
          · intro hno
            exact absurd rfl (hno _)
          · intro w _ hw
            cases hw
          · intro w hw _
            simp only [Option.some.injEq] at hw
            subst hw
            exact hfs.2
  · have hv2 : InputPort.HasValue q other_context = false := by simpa using hv
    simp only [hv2, Bool.false_eq_true, not_false_eq_true, if_true, Run.pure_result,
      Except.ok.injEq] at h
    subst h
    simp only [InputPort.HasValue, hqi] at hv
    refine ⟨fun _ _ => rfl, fun _ => rfl, ?_, ?_⟩
    · intro w hw
      simp [hw] at hv
    · intro w hw
      simp [hw] at hv
theorem FixInputPortsFrom.body_total (T : Scalar → Scalar) (self other_system : System) (other_context : Context)
    (i : Nat) (p q : PortBase) (target : Context) (hp : p.index = i)
    (hsp : self.input_ports[i]? = some p) (hoq : other_system.input_ports[i]? = some q)
    (hq : q.index = i) (hc : target.system_id = self.system_id)
    (hi : i < target.input_port_values.length)
    (hv : FixInputPortsFrom.compatible self other_context i p) :
    ∃ fixed, (FixInputPortsFrom.body T self other_system other_context i p target).result =
        .ok fixed ∧ fixed.system_id = self.system_id ∧
      fixed.input_port_values.length = target.input_port_values.length := by
  have hfix : ∀ value, (self.MakeFixInputPortTypeChecker p.index value).result = .ok () →
      ∃ fixed, (self.FixValue p target value).result = .ok fixed ∧
        fixed.system_id = self.system_id ∧
        fixed.input_port_values.length = target.input_port_values.length := by
    intro value hm
    refine ⟨_, (FixValue_ok_iff self p target value _).2 ⟨hc, hm, by rw [hp]; exact hi, rfl⟩,
      hc, by simp⟩
  simp only [FixInputPortsFrom.body, Run.bind_eq, Run.pure_eq, Run.bind_result_ok,
    GetInputPortBaseOrThrow_ok_iff]
  by_cases hh : InputPort.HasValue q other_context = true
  · simp only [InputPort.HasValue, hq] at hh
    cases hs : other_context.input_port_values[i]? with
    | none => simp [hs] at hh
    | some slot =>
      cases slot with
      | none => simp [hs] at hh
      | some value =>
        have hhv : InputPort.HasValue q other_context = true := by
          simp [InputPort.HasValue, hq, hs]
        obtain ⟨hvec, habs⟩ := hv value hs
        cases hd : p.data_type with
        | kVectorValued =>
          obtain ⟨other_vec, our_vec, hval, hal, hle⟩ := hvec hd
          subst hval
          have ha : (self.AllocateInputVector p).result = .ok our_vec :=
            (AllocateInputVector_ok_iff self p our_vec).2 ⟨hd, by rw [hp]; exact hsp, hal⟩
          have hm : (self.MakeFixInputPortTypeChecker p.index (.vector
              ((other_vec.take our_vec.length).map T))).result =
              .ok () := by
            refine (MakeFixInputPortTypeChecker_ok_iff self p.index _).2
              ⟨p, by rw [hp]; exact hsp, Or.inr ⟨our_vec, _, ha, rfl, ?_⟩⟩
            simp [hle]
          obtain ⟨fixed, hf, hf2⟩ := hfix _ hm
          refine ⟨fixed, ⟨q, hoq, ?_⟩, hf2⟩
          simp only [hhv, not_true_eq_false, if_false, Run.bind_result_ok]
          refine ⟨other_vec, by simp [InputPort.Eval, hq, hs], our_vec, ha, _, ?_, hf⟩
          rw [FixInputPortsFrom.inner_loop_run, if_pos (by simpa using hle)]
          simp
        | kAbstractValued =>
          have hm : (self.MakeFixInputPortTypeChecker p.index value).result = .ok () :=
            (MakeFixInputPortTypeChecker_ok_iff self p.index _).2
              ⟨p, by rw [hp]; exact hsp, Or.inl ⟨hd, habs hd⟩⟩
          obtain ⟨fixed, hf, hf2⟩ := hfix _ hm
          refine ⟨fixed, ⟨q, hoq, ?_⟩, hf2⟩
          simp only [hhv, not_true_eq_false, if_false, Run.bind_result_ok]
          exact ⟨value, by simp [InputPort.Eval_AbstractValue, hq, hs], hf⟩
  · have hh2 : InputPort.HasValue q other_context = false := by simpa using hh
    exact ⟨target, ⟨q, hoq, by simp [hh2]⟩, hc, rfl⟩
theorem FixInputPortsFrom.loop_ok (T : Scalar → Scalar) (self other_system : System) (other_context : Context)
    (ho : ∀ (i : Nat) (q : PortBase), other_system.input_ports[i]? = some q → q.index = i) :
    ∀ (ports : List PortBase) (i : Nat) (target fixed : Context),
      (∀ k p, ports[k]? = some p → p.index = i + k) →
      (FixInputPortsFrom.loop T self other_system other_context ports i target).result =
        .ok fixed →
      (∀ m, m < i → fixed.input_port_values[m]? = target.input_port_values[m]?) ∧
      ∀ k p, ports[k]? = some p →
        FixInputPortsFrom.port_fixed T self other_context (i + k) p
          target.input_port_values[i + k]? fixed.input_port_values[i + k]?
  | [], i, target, fixed, _, h => by
    simp only [FixInputPortsFrom.loop, Run.pure_result, Except.ok.injEq] at h
    subst h
    exact ⟨fun _ _ => rfl, fun k p hk => by simp at hk⟩
  | p :: rest, i, target, fixed, hs, h => by
    simp only [FixInputPortsFrom.loop, Run.bind_eq, Run.bind_result_ok] at h
    obtain ⟨middle, hb, hl⟩ := h
    have hp : p.index = i := by simpa using hs 0 p (by simp)
    obtain ⟨hb1, hb2⟩ := FixInputPortsFrom.body_ok T self other_system other_context i p target
      middle hp (ho i) hb
    have hs2 : ∀ k p2, rest[k]? = some p2 → p2.index = i + 1 + k := by
      intro k p2 hk
      have := hs (k + 1) p2 (by simpa using hk)
      omega
    obtain ⟨ih1, ih2⟩ := FixInputPortsFrom.loop_ok T self other_system other_context ho rest
      (i + 1) middle fixed hs2 hl
    constructor
    · intro m hm
      rw [ih1 m (by omega), hb1 m (by omega)]
    · intro k p2 hk
      cases k with
      | zero =>
        simp only [List.getElem?_cons_zero, Option.some.injEq] at hk
        subst hk
        rw [Nat.add_zero, ih1 i (by omega)]
        exact hb2
      | succ k =>
        have hk2 : rest[k]? = some p2 := by simpa using hk
        have := ih2 k p2 hk2
        rw [hb1 (i + 1 + k) (by omega)] at this
        have he : i + (k + 1) = i + 1 + k := by omega
        rw [he]
        exact this

theorem FixInputPortsFrom.loop_total (T : Scalar → Scalar) (self other_system : System) (other_context : Context)
    (ho : ∀ (i : Nat) (q : PortBase), other_system.input_ports[i]? = some q → q.index = i)
    (hn : self.input_ports.length ≤ other_system.input_ports.length) :
    ∀ (ports : List PortBase) (i : Nat) (target : Context),
      (∀ k p, ports[k]? = some p → self.input_ports[i + k]? = some p ∧ p.index = i + k) →
      target.system_id = self.system_id →
      i + ports.length ≤ target.input_port_values.length →
      (∀ k p, ports[k]? = some p →
        FixInputPortsFrom.compatible self other_context (i + k) p) →
      ∃ fixed, (FixInputPortsFrom.loop T self other_system other_context ports i target).result =
        .ok fixed
  | [], i, target, _, _, _, _ => ⟨target, rfl⟩
  | p :: rest, i, target, hs, hc, hl, hv => by
    obtain ⟨hsp, hp⟩ := hs 0 p (by simp)
    rw [Nat.add_zero] at hsp hp
    have hi : i < self.input_ports.length := by
      rcases Nat.lt_or_ge i self.input_ports.length with hlt | hge
      · exact hlt
      · rw [List.getElem?_eq_none hge] at hsp
        cases hsp
    have hio : i < other_system.input_ports.length := by omega
    have hoq : other_system.input_ports[i]? = some (other_system.input_ports[i]) :=
      List.getElem?_eq_getElem hio
    simp only [List.length_cons] at hl
    obtain ⟨middle, hb, hmc, hml⟩ := FixInputPortsFrom.body_total T self other_system
      other_context i p _ target hp hsp hoq (ho i _ hoq) hc (by omega)
      (by simpa using hv 0 p (by simp))
    obtain ⟨fixed, hf⟩ := FixInputPortsFrom.loop_total T self other_system other_context ho hn
      rest (i + 1) middle
      (fun k p2 hk => by
        have := hs (k + 1) p2 (by simpa using hk)
        have he : i + (k + 1) = i + 1 + k := by omega
        rwa [he] at this)
      hmc (by omega)
      (fun k p2 hk => by
        have := hv (k + 1) p2 (by simpa using hk)
        have he : i + (k + 1) = i + 1 + k := by omega
        rwa [he] at this)
    refine ⟨fixed, ?_⟩
    simp only [FixInputPortsFrom.loop, Run.bind_eq, Run.bind_result_ok]
    exact ⟨middle, hb, hf⟩
/-- C15: `FixInputPortsFrom`, for systems whose input ports carry their
position as index.  Whenever the call returns, for every input port `i` of
this system: if port `i` has no value in the source context, the slot of
port `i` in the target context is what it was; if the port is vector-valued
and the source value is the vector `other_vec`, the slot holds the vector
whose `j`-th element is `T (other_vec[j])` for every `j` below the size the
system allocates for the port; if the port is abstract-valued, the slot
holds the source value itself.  The call returns, raising nothing, when both
contexts were created for their systems, the other system has at least as
many input ports, the target context has a slot for every input port, and
every value present in the source context fits its port; a port without a
value in the source context asks for nothing. -/
theorem FixInputPortsFrom_transfers (T : Scalar → Scalar) (self other_system : System)
    (other_context target_context : Context)
    (hs : ∀ (i : Nat) (p : PortBase), self.input_ports[i]? = some p → p.index = i)
    (ho : ∀ (i : Nat) (q : PortBase), other_system.input_ports[i]? = some q → q.index = i) :
    (∀ fixed,
      (self.FixInputPortsFrom T other_system other_context target_context).result =
        .ok fixed →
      ∀ (i : Nat) (p : PortBase), self.input_ports[i]? = some p →
        ((∀ value, other_context.input_port_values[i]? ≠ some (some value)) →
          fixed.input_port_values[i]? = target_context.input_port_values[i]?) ∧
        (∀ other_vec,
          other_context.input_port_values[i]? = some (some (.vector other_vec)) →
          p.data_type = PortDataType.kVectorValued →
          ∃ our_vec, self.DoAllocateInput p = .vector our_vec ∧
            our_vec.length ≤ other_vec.length ∧
            fixed.input_port_values[i]? =
              some (some (.vector ((other_vec.take our_vec.length).map T)))) ∧
        (∀ value, other_context.input_port_values[i]? = some (some value) →
          p.data_type = PortDataType.kAbstractValued →
          fixed.input_port_values[i]? = some (some value))) ∧
    (target_context.system_id = self.system_id →
      other_context.system_id = other_system.system_id →
      self.input_ports.length ≤ other_system.input_ports.length →
      self.input_ports.length ≤ target_context.input_port_values.length →
      (∀ (i : Nat) (p : PortBase) (value : PortValue), self.input_ports[i]? = some p →
        other_context.input_port_values[i]? = some (some value) →
        (p.data_type = PortDataType.kVectorValued →
          ∃ other_vec our_vec, value = .vector other_vec ∧
            self.DoAllocateInput p = .vector our_vec ∧
            our_vec.length ≤ other_vec.length) ∧
        (p.data_type = PortDataType.kAbstractValued →
          value.static_type_info = (self.DoAllocateInput p).static_type_info)) →
      (self.FixInputPortsFrom T other_system other_context target_context).raises =
        false) := by
  constructor
  · intro fixed h i p hp
    simp only [System.FixInputPortsFrom, Run.bind_eq, Run.bind_result_ok] at h
    obtain ⟨_, _, _, _, hl⟩ := h
    have := (FixInputPortsFrom.loop_ok T self other_system other_context ho self.input_ports 0
      target_context fixed (fun k p hk => by simpa using hs k p hk) hl).2 i p hp
    simpa [FixInputPortsFrom.port_fixed] using this
  · intro hc hoc hn hl hv
    obtain ⟨fixed, hf⟩ := FixInputPortsFrom.loop_total T self other_system other_context ho hn
      self.input_ports 0 target_context
      (fun k p hk => by simpa using ⟨hk, hs k p hk⟩) hc (by simpa using hl)
      (fun k p hk value hval => by
        rw [Nat.zero_add] at hval
        exact hv k p value hk hval)
    have hr : (self.FixInputPortsFrom T other_system other_context target_context).result =
        .ok fixed := by
      simp only [System.FixInputPortsFrom, Run.bind_eq, Run.bind_result_ok]
      exact ⟨(), (ValidateContext_ok_iff self target_context).2 hc, (),
        (ValidateContext_ok_iff other_system other_context).2 hoc, hf⟩
    simp [Run.raises, hr]

theorem FixInputPortsFrom_transfers_witness :
    (∀ (i : Nat) (p : PortBase), (transfer_System 1).input_ports[i]? = some p → p.index = i) ∧
    (∀ (i : Nat) (q : PortBase), (transfer_System 2).input_ports[i]? = some q → q.index = i) ∧
    ((transfer_System 1).FixInputPortsFrom id (transfer_System 2) transfer_source_Context
      transfer_target_Context).raises = false := by
  have hs : ∀ (n : SystemId) (i : Nat) (p : PortBase),
      (transfer_System n).input_ports[i]? = some p → p.index = i := by
    intro n i p h
    match i with
    | 0 => simp [transfer_System] at h; subst h; rfl
    | 1 => simp [transfer_System] at h; subst h; rfl
    | 2 => simp [transfer_System] at h; subst h; rfl
    | k + 3 => simp [transfer_System] at h
  refine ⟨hs 1, hs 2, (FixInputPortsFrom_transfers id (transfer_System 1) (transfer_System 2)
    transfer_source_Context transfer_target_Context (hs 1) (hs 2)).2 rfl rfl (by decide)
    (by decide) ?_⟩
  intro i p value hp hval
  match i with
  | 0 =>
    simp [transfer_System] at hp
    simp [transfer_source_Context] at hval
    subst hp hval
    exact ⟨fun _ => ⟨_, _, rfl, rfl, by decide⟩, fun h => by simp at h⟩
  | 1 =>
    simp [transfer_System] at hp
    simp [transfer_source_Context] at hval
    subst hp hval
    exact ⟨fun h => by simp at h, fun _ => rfl⟩
  | 2 => simp [transfer_source_Context] at hval
  | k + 3 => simp [transfer_System] at hp

theorem EvalPotentialEnergy_eq (self : System) (context : Context) :
    self.EvalPotentialEnergy context =
      scalar_entry_run self 0 "potential energy" self.DoCalcPotentialEnergy context := by
  unfold scalar_entry_run System.EvalPotentialEnergy
  by_cases hc : context.system_id = self.system_id
  · rw [if_pos hc]
    simp only [ValidateContext_ok self context hc, Run.bind_eq, Run.pure_eq]
    cases hs : context.cache[0]? with
    | none =>
      simp [Run.bind, Run.pure, System.get_cache_entry, System.constructed, DeclareCacheEntry,
        DeclareCacheEntryWithKnownTicket, CacheEntry.Eval_T, CacheEntry.Eval, Run.call, hs,
        Run.throw]
    | some cache_value =>
      by_cases ho : cache_value.is_out_of_date = true
      · simp [Run.bind, Run.pure, System.get_cache_entry, System.constructed, DeclareCacheEntry,
          DeclareCacheEntryWithKnownTicket, CacheEntry.Eval_T, CacheEntry.Eval, Run.call, hs,
          Run.throw, ho, System.CalcPotentialEnergy, ValidateContext_ok self context hc]
      · cases hv : cache_value.value <;>
        simp [Run.bind, Run.pure, System.get_cache_entry, System.constructed, DeclareCacheEntry,
          DeclareCacheEntryWithKnownTicket, CacheEntry.Eval_T, CacheEntry.Eval, Run.call, hs,
          Run.throw, ho, hv]
  · rw [if_neg hc]
    simp [System.ValidateContext, hc, Run.bind, Run.throw]

theorem EvalKineticEnergy_eq (self : System) (context : Context) :
    self.EvalKineticEnergy context =
      scalar_entry_run self 1 "kinetic energy" self.DoCalcKineticEnergy context := by
  unfold scalar_entry_run System.EvalKineticEnergy
  by_cases hc : context.system_id = self.system_id
  · rw [if_pos hc]
    simp only [ValidateContext_ok self context hc, Run.bind_eq, Run.pure_eq]
    cases hs : context.cache[1]? with
    | none =>
      simp [Run.bind, Run.pure, System.get_cache_entry, System.constructed, DeclareCacheEntry,
        DeclareCacheEntryWithKnownTicket, CacheEntry.Eval_T, CacheEntry.Eval, Run.call, hs,
        Run.throw]
    | some cache_value =>
      by_cases ho : cache_value.is_out_of_date = true
      · simp [Run.bind, Run.pure, System.get_cache_entry, System.constructed, DeclareCacheEntry,
          DeclareCacheEntryWithKnownTicket, CacheEntry.Eval_T, CacheEntry.Eval, Run.call, hs,
          Run.throw, ho, System.CalcKineticEnergy, ValidateContext_ok self context hc]
      · cases hv : cache_value.value <;>
        simp [Run.bind, Run.pure, System.get_cache_entry, System.constructed, DeclareCacheEntry,
          DeclareCacheEntryWithKnownTicket, CacheEntry.Eval_T, CacheEntry.Eval, Run.call, hs,
          Run.throw, ho, hv]
  · rw [if_neg hc]
    simp [System.ValidateContext, hc, Run.bind, Run.throw]

theorem EvalConservativePower_eq (self : System) (context : Context) :
    self.EvalConservativePower context =
      scalar_entry_run self 2 "conservative power" self.DoCalcConservativePower context := by
  unfold scalar_entry_run System.EvalConservativePower
  by_cases hc : context.system_id = self.system_id
  · rw [if_pos hc]
    simp only [ValidateContext_ok self context hc, Run.bind_eq, Run.pure_eq]
    cases hs : context.cache[2]? with
    | none =>
      simp [Run.bind, Run.pure, System.get_cache_entry, System.constructed, DeclareCacheEntry,
        DeclareCacheEntryWithKnownTicket, CacheEntry.Eval_T, CacheEntry.Eval, Run.call, hs,
        Run.throw]
    | some cache_value =>
      by_cases ho : cache_value.is_out_of_date = true
      · simp [Run.bind, Run.pure, System.get_cache_entry, System.constructed, DeclareCacheEntry,
          DeclareCacheEntryWithKnownTicket, CacheEntry.Eval_T, CacheEntry.Eval, Run.call, hs,
          Run.throw, ho, System.CalcConservativePower, ValidateContext_ok self context hc]
      · cases hv : cache_value.value <;>
        simp [Run.bind, Run.pure, System.get_cache_entry, System.constructed, DeclareCacheEntry,
          DeclareCacheEntryWithKnownTicket, CacheEntry.Eval_T, CacheEntry.Eval, Run.call, hs,
          Run.throw, ho, hv]
  · rw [if_neg hc]
    simp [System.ValidateContext, hc, Run.bind, Run.throw]

theorem EvalNonConservativePower_eq (self : System) (context : Context) :
    self.EvalNonConservativePower context =
      scalar_entry_run self 3 "non-conservative power" self.DoCalcNonConservativePower context := by
  unfold scalar_entry_run System.EvalNonConservativePower
  by_cases hc : context.system_id = self.system_id
  · rw [if_pos hc]
    simp only [ValidateContext_ok self context hc, Run.bind_eq, Run.pure_eq]
    cases hs : context.cache[3]? with
    | none =>
      simp [Run.bind, Run.pure, System.get_cache_entry, System.constructed, DeclareCacheEntry,
        DeclareCacheEntryWithKnownTicket, CacheEntry.Eval_T, CacheEntry.Eval, Run.call, hs,
        Run.throw]
    | some cache_value =>
      by_cases ho : cache_value.is_out_of_date = true
      · simp [Run.bind, Run.pure, System.get_cache_entry, System.constructed, DeclareCacheEntry,
          DeclareCacheEntryWithKnownTicket, CacheEntry.Eval_T, CacheEntry.Eval, Run.call, hs,
          Run.throw, ho, System.CalcNonConservativePower, ValidateContext_ok self context hc]
      · cases hv : cache_value.value <;>
        simp [Run.bind, Run.pure, System.get_cache_entry, System.constructed, DeclareCacheEntry,
          DeclareCacheEntryWithKnownTicket, CacheEntry.Eval_T, CacheEntry.Eval, Run.call, hs,
          Run.throw, ho, hv]
  · rw [if_neg hc]
    simp [System.ValidateContext, hc, Run.bind, Run.throw]
theorem CacheEntry.depends_on_eq_true (entry : CacheEntry) (affected : List DependencyTicket) :
    entry.depends_on affected = true ↔
      ∃ ticket ∈ affected, ticket ∈ entry.prerequisites_of_calc := by
  simp only [CacheEntry.depends_on, List.any_eq_true, List.contains_iff_exists_mem_beq,
    beq_iff_eq]
  constructor
  · rintro ⟨t, ht, u, hu, rfl⟩
    exact ⟨t, hu, ht⟩
  · rintro ⟨t, ht, hp⟩
    exact ⟨t, hp, t, ht, rfl⟩

theorem NoteValueChange.loop_getElem (cache_entries : List CacheEntry)
    (affected : List DependencyTicket) :
    ∀ (cache : List CacheEntryValue) (i k : Nat),
      (NoteValueChange.loop cache_entries affected cache i)[k]? =
        (cache[k]?).map (fun cache_value =>
          if (match cache_entries[i + k]? with
              | some entry => entry.depends_on affected
              | none => false) = true
          then { cache_value with is_out_of_date := true } else cache_value)
  | [], i, k => by simp [NoteValueChange.loop]
  | cache_value :: rest, i, 0 => by simp [NoteValueChange.loop]
  | cache_value :: rest, i, k + 1 => by
    have he : i + (k + 1) = i + 1 + k := by omega
    simp only [NoteValueChange.loop, List.getElem?_cons_succ, he]
    exact NoteValueChange.loop_getElem cache_entries affected rest (i + 1) k

theorem NoteValueChange_getElem (cache_entries : List CacheEntry)
    (affected : List DependencyTicket) (cache : List CacheEntryValue) (k : Nat)
    (entry : CacheEntry) (he : cache_entries[k]? = some entry) :
    (NoteValueChange cache_entries affected cache)[k]? =
      (cache[k]?).map (fun cache_value =>
        if entry.depends_on affected = true
        then { cache_value with is_out_of_date := true } else cache_value) := by
  rw [NoteValueChange, NoteValueChange.loop_getElem, Nat.zero_add, he]

theorem NoteValueChanges_kept (cache_entries : List CacheEntry) (k : Nat) (entry : CacheEntry)
    (he : cache_entries[k]? = some entry) :
    ∀ (mutations : List (List DependencyTicket)) (cache : List CacheEntryValue),
      (∀ affected ∈ mutations, ∀ ticket ∈ affected, ticket ∉ entry.prerequisites_of_calc) →
      (NoteValueChanges cache_entries mutations cache)[k]? = cache[k]?
  | [], cache, _ => rfl
  | affected :: rest, cache, h => by
    rw [NoteValueChanges, NoteValueChanges_kept cache_entries k entry he rest _
      (fun a ha => h a (List.mem_cons_of_mem _ ha)),
      NoteValueChange_getElem cache_entries affected cache k entry he]
    have hd : entry.depends_on affected = false := by
      cases hb : entry.depends_on affected with
      | false => rfl
      | true =>
        obtain ⟨t, ht, hp⟩ := (CacheEntry.depends_on_eq_true entry affected).1 hb
        exact absurd hp (h affected (List.mem_cons_self _ _) t ht)
    cases cache[k]? <;> simp [hd]

theorem NoteValueChanges_out_of_date (cache_entries : List CacheEntry) (k : Nat)
    (entry : CacheEntry) (he : cache_entries[k]? = some entry) :
    ∀ (mutations : List (List DependencyTicket)) (cache : List CacheEntryValue)
      (cache_value : CacheEntryValue), cache[k]? = some cache_value →
      (cache_value.is_out_of_date = true ∨
        ∃ affected ∈ mutations, ∃ ticket ∈ affected, ticket ∈ entry.prerequisites_of_calc) →
      ∃ after, (NoteValueChanges cache_entries mutations cache)[k]? = some after ∧
        after.is_out_of_date = true
  | [], cache, cache_value, hs, h => by
    rcases h with h | ⟨a, ha, _⟩
    · exact ⟨cache_value, hs, h⟩
    · simp at ha
  | affected :: rest, cache, cache_value, hs, h => by
    rw [NoteValueChanges]
    have hg := NoteValueChange_getElem cache_entries affected cache k entry he
    rw [hs] at hg
    by_cases hd : entry.depends_on affected = true
    · simp only [hd, if_true, Option.map_some'] at hg
      exact NoteValueChanges_out_of_date cache_entries k entry he rest _ _ hg (Or.inl rfl)
    · simp only [hd, if_false, Option.map_some'] at hg
      refine NoteValueChanges_out_of_date cache_entries k entry he rest _ _ hg ?_
      rcases h with h | ⟨a, ha, t, ht, hp⟩
      · exact Or.inl h
      · rcases List.mem_cons.1 ha with rfl | har
        · exact absurd ((CacheEntry.depends_on_eq_true entry a).2 ⟨t, ht, hp⟩) hd
        · exact Or.inr ⟨a, har, t, ht, hp⟩
theorem scalar_entry_run_valid (self : System) (cache_index : Nat) (description : String)
    (rule : Context → Scalar) (context : Context) (cache_value : CacheEntryValue)
    (value : Scalar) (hc : context.system_id = self.system_id)
    (hs : context.cache[cache_index]? = some cache_value)
    (ho : cache_value.is_out_of_date = false) (hv : cache_value.value = .scalar value) :
    scalar_entry_run self cache_index description rule context =
      ⟨[.CacheEntryEval cache_index context], .ok (value, context)⟩ := by
  simp [scalar_entry_run, hc, hs, ho, hv]

theorem scalar_entry_run_out_of_date (self : System) (cache_index : Nat) (description : String)
    (rule : Context → Scalar) (context : Context) (cache_value : CacheEntryValue)
    (hc : context.system_id = self.system_id)
    (hs : context.cache[cache_index]? = some cache_value)
    (ho : cache_value.is_out_of_date = true) :
    scalar_entry_run self cache_index description rule context =
      ⟨[.CacheEntryEval cache_index context, .DoCalc description context],
        .ok (rule context, { context with
          cache := context.cache.set cache_index
            { cache_value with value := .scalar (rule context), is_out_of_date := false } })⟩ := by
  simp [scalar_entry_run, hc, hs, ho]

theorem scalar_entry_run_ok (self : System) (cache_index : Nat) (description : String)
    (rule : Context → Scalar) (context after : Context) (value : Scalar)
    (h : (scalar_entry_run self cache_index description rule context).result =
      .ok (value, after)) :
    after.system_id = self.system_id ∧
    (∃ cache_value, after.cache[cache_index]? = some cache_value ∧
      cache_value.is_out_of_date = false ∧ cache_value.value = .scalar value) ∧
    ((scalar_entry_run self cache_index description rule context).calls =
        [.CacheEntryEval cache_index context] ∨
      ((scalar_entry_run self cache_index description rule context).calls =
          [.CacheEntryEval cache_index context, .DoCalc description context] ∧
        context.system_id = self.system_id ∧ value = rule context)) := by
  by_cases hc : context.system_id = self.system_id
  · cases hs : context.cache[cache_index]? with
    | none => simp [scalar_entry_run, hc, hs] at h
    | some cache_value =>
      have hlt : cache_index < context.cache.length := by
        rcases Nat.lt_or_ge cache_index context.cache.length with hlt | hge
        · exact hlt
        · rw [List.getElem?_eq_none hge] at hs
          cases hs
      by_cases ho : cache_value.is_out_of_date = true
      · rw [scalar_entry_run_out_of_date self cache_index description rule context cache_value
          hc hs ho] at h ⊢
        simp only [Except.ok.injEq, Prod.mk.injEq] at h
        obtain ⟨hv, ha⟩ := h
        subst ha
        exact ⟨hc,
          ⟨{ cache_value with value := .scalar (rule context), is_out_of_date := false },
            by simp [List.getElem?_set, hlt], rfl, by rw [hv]⟩,
          Or.inr ⟨rfl, hc, hv.symm⟩⟩
      · have ho2 : cache_value.is_out_of_date = false := by simpa using ho
        cases hv : cache_value.value with
        | scalar v =>
          rw [scalar_entry_run_valid self cache_index description rule context cache_value v
            hc hs ho2 hv] at h ⊢
          simp only [Except.ok.injEq, Prod.mk.injEq] at h
          obtain ⟨h1, h2⟩ := h
          subst h1 h2
          exact ⟨hc, ⟨cache_value, hs, ho2, hv⟩, Or.inl rfl⟩
        | continuous_state v => simp [scalar_entry_run, hc, hs, ho2, hv] at h
        | discrete_values v => simp [scalar_entry_run, hc, hs, ho2, hv] at h
  · simp [scalar_entry_run, hc] at h

theorem cache_correct_of_run (self : System) (Eval : Context → Run (Scalar × Context))
    (Calc : Context → Run Scalar) (cache_index : Nat) (description : String)
    (rule : Context → Scalar) (D : List DependencyTicket) (entry : CacheEntry)
    (hE : ∀ context, Eval context = scalar_entry_run self cache_index description rule context)
    (hC : ∀ context, context.system_id = self.system_id →
      (Calc context).result = .ok (rule context))
    (he : self.constructed.cache_entries[cache_index]? = some entry)
    (hD : entry.prerequisites_of_calc = D) :
    cache_correct self Eval Calc cache_index description D := by
  refine ⟨?_, ?_⟩
  · intro context cache_value hc hs
    refine ⟨?_, ?_⟩
    · intro ho
      refine ⟨rule context, { context with
        cache := context.cache.set cache_index
          { cache_value with value := .scalar (rule context), is_out_of_date := false } },
        ?_, hC context hc⟩
      rw [hE]
      exact scalar_entry_run_out_of_date self cache_index description rule context
        cache_value hc hs ho
    · intro ho value hv
      rw [hE]
      exact scalar_entry_run_valid self cache_index description rule context cache_value
        value hc hs ho hv
  intro context value after h
  rw [hE] at h
  obtain ⟨hid, ⟨cache_value, hs, ho, hv⟩, hcalls⟩ :=
    scalar_entry_run_ok self cache_index description rule context after value h
  refine ⟨?_, ?_, ?_⟩
  · rw [hE]
    rcases hcalls with h1 | ⟨h1, hc, hval⟩
    · exact Or.inl h1
    · exact Or.inr ⟨h1, by rw [hval]; exact hC context hc⟩
  · intro mutations next hn hcache hno
    have hs2 : next.cache[cache_index]? = some cache_value := by
      rw [hcache, NoteValueChanges_kept self.constructed.cache_entries cache_index entry he
        mutations after.cache (by rw [hD]; exact hno)]
      exact hs
    rw [hE]
    exact scalar_entry_run_valid self cache_index description rule next cache_value value
      (hn.trans hid) hs2 ho hv
  · intro mutations next hn hcache hsome
    obtain ⟨stale, hs2, ho2⟩ := NoteValueChanges_out_of_date self.constructed.cache_entries
      cache_index entry he mutations after.cache cache_value hs
      (Or.inr (by rw [hD]; exact hsome))
    rw [← hcache] at hs2
    have hlt : cache_index < next.cache.length := by
      rcases Nat.lt_or_ge cache_index next.cache.length with hlt | hge
      · exact hlt
      · rw [List.getElem?_eq_none hge] at hs2
        cases hs2
    refine ⟨rule next, { next with
      cache := next.cache.set cache_index
        { stale with value := .scalar (rule next), is_out_of_date := false } },
      ?_, hC next (hn.trans hid), ?_⟩
    · rw [hE]
      exact scalar_entry_run_out_of_date self cache_index description rule next stale
        (hn.trans hid) hs2 ho2
    · rw [hE]
      exact scalar_entry_run_valid self cache_index description rule _
        { stale with value := .scalar (rule next), is_out_of_date := false } (rule next)
        (hn.trans hid) (by simp [List.getElem?_set, hlt]) rfl rfl
theorem CalcEnergy_result (self : System) (context : Context)
    (hc : context.system_id = self.system_id) :
    (self.CalcPotentialEnergy context).result = .ok (self.DoCalcPotentialEnergy context) ∧
    (self.CalcKineticEnergy context).result = .ok (self.DoCalcKineticEnergy context) ∧
    (self.CalcConservativePower context).result = .ok (self.DoCalcConservativePower context) ∧
    (self.CalcNonConservativePower context).result =
      .ok (self.DoCalcNonConservativePower context) := by
  simp [System.CalcPotentialEnergy, System.CalcKineticEnergy, System.CalcConservativePower,
    System.CalcNonConservativePower, ValidateContext_ok self context hc, Run.bind, Run.pure,
    Run.call]

/-- C21: cache correctness of the four scalar-valued standing cache entries.
For `EvalPotentialEnergy`, `EvalKineticEnergy` and `EvalConservativePower`,
with the dependency set accuracy, all state and all parameters, and for
`EvalNonConservativePower`, with the dependency set all sources.  On every
context created for this system that has a slot for the entry the evaluation
returns: with a slot out of date it invokes the rule exactly once and returns
what the corresponding `Calc` computes, with a slot up to date it returns the
memoized value without invoking the rule.  An evaluation that follows one
that returned, with no mutation of a ticket of the dependency set in
between, returns the identical value without invoking the rule; an evaluation
that follows a mutation of a ticket of the dependency set invokes the rule
exactly once, returns what `Calc` computes, and the evaluation after it does
not invoke the rule. -/
theorem Eval_cache_correct (self : System) :
    cache_correct self self.EvalPotentialEnergy self.CalcPotentialEnergy
      self.constructed.potential_energy_cache_index_ "potential energy"
      [.accuracy, .all_state, .all_parameters] ∧
    cache_correct self self.EvalKineticEnergy self.CalcKineticEnergy
      self.constructed.kinetic_energy_cache_index_ "kinetic energy"
      [.accuracy, .all_state, .all_parameters] ∧
    cache_correct self self.EvalConservativePower self.CalcConservativePower
      self.constructed.conservative_power_cache_index_ "conservative power"
      [.accuracy, .all_state, .all_parameters] ∧
    cache_correct self self.EvalNonConservativePower self.CalcNonConservativePower
      self.constructed.nonconservative_power_cache_index_ "non-conservative power"
      [.all_sources] := by
  refine ⟨?_, ?_, ?_, ?_⟩
  · exact cache_correct_of_run self _ _ 0 _ self.DoCalcPotentialEnergy _ _
      (EvalPotentialEnergy_eq self) (fun c hc => (CalcEnergy_result self c hc).1) rfl rfl
  · exact cache_correct_of_run self _ _ 1 _ self.DoCalcKineticEnergy _ _
      (EvalKineticEnergy_eq self) (fun c hc => (CalcEnergy_result self c hc).2.1) rfl rfl
  · exact cache_correct_of_run self _ _ 2 _ self.DoCalcConservativePower _ _
      (EvalConservativePower_eq self) (fun c hc => (CalcEnergy_result self c hc).2.2.1) rfl rfl
  · exact cache_correct_of_run self _ _ 3 _ self.DoCalcNonConservativePower _ _
      (EvalNonConservativePower_eq self) (fun c hc => (CalcEnergy_result self c hc).2.2.2)
      rfl rfl
theorem Eval_cache_correct_witness :
    ((default_System 1).EvalPotentialEnergy fresh_cache_Context).raises = false ∧
    ((default_System 1).EvalKineticEnergy fresh_cache_Context).raises = false ∧
    ((default_System 1).EvalConservativePower fresh_cache_Context).raises = false ∧
    ((default_System 1).EvalNonConservativePower fresh_cache_Context).raises = false ∧
    ((default_System 1).EvalKineticEnergy fresh_cache_Context).calls =
      [.CacheEntryEval 1 fresh_cache_Context, .DoCalc "kinetic energy" fresh_cache_Context] ∧
    ((default_System 1).EvalPotentialEnergy fresh_cache_Context).result =
      .ok (.finite 0, { fresh_cache_Context with
        cache := fresh_cache_Context.cache.set 0
          { value := .scalar (.finite 0), is_out_of_date := false } }) ∧
    (∀ next : Context, next.system_id = 1 →
      next.cache = NoteValueChanges (default_System 1).constructed.cache_entries
        [[.time, .all_sources]]
        (fresh_cache_Context.cache.set 0
          { value := .scalar (.finite 0), is_out_of_date := false }) →
      (default_System 1).EvalPotentialEnergy next =
        ⟨[.CacheEntryEval 0 next], .ok (.finite 0, next)⟩) ∧
    (∀ next : Context, next.system_id = 1 →
      next.cache = NoteValueChanges (default_System 1).constructed.cache_entries
        [[.time, .all_sources], [.all_state, .all_sources]]
        (fresh_cache_Context.cache.set 0
          { value := .scalar (.finite 0), is_out_of_date := false }) →
      ((default_System 1).EvalPotentialEnergy next).calls =
        [.CacheEntryEval 0 next, .DoCalc "potential energy" next]) := by
  have hall := Eval_cache_correct (default_System 1)
  have hreturns : ∀ (Eval : Context → Run (Scalar × Context)) (calls : List Call),
      (∃ (value : Scalar) (after : Context),
        Eval fresh_cache_Context = ⟨calls, .ok (value, after)⟩ ∧ True) →
      (Eval fresh_cache_Context).raises = false ∧ (Eval fresh_cache_Context).calls = calls := by
    rintro Eval calls ⟨value, after, h, _⟩
    rw [h]
    exact ⟨rfl, rfl⟩
  have h0 := (hall.1.1 fresh_cache_Context _ rfl rfl).1 rfl
  have h1 := (hall.2.1.1 fresh_cache_Context _ rfl rfl).1 rfl
  have h2 := (hall.2.2.1.1 fresh_cache_Context _ rfl rfl).1 rfl
  have h3 := (hall.2.2.2.1 fresh_cache_Context _ rfl rfl).1 rfl
  have h := hall.1.2 fresh_cache_Context (.finite 0)
    { fresh_cache_Context with
      cache := fresh_cache_Context.cache.set 0
        { value := .scalar (.finite 0), is_out_of_date := false } } rfl
  refine ⟨?_, ?_, ?_, ?_, ?_, rfl, ?_, ?_⟩
  · obtain ⟨value, after, hr, _⟩ := h0
    exact (hreturns _ _ ⟨value, after, hr, trivial⟩).1
  · obtain ⟨value, after, hr, _⟩ := h1
    exact (hreturns _ _ ⟨value, after, hr, trivial⟩).1
  · obtain ⟨value, after, hr, _⟩ := h2
    exact (hreturns _ _ ⟨value, after, hr, trivial⟩).1
  · obtain ⟨value, after, hr, _⟩ := h3
    exact (hreturns _ _ ⟨value, after, hr, trivial⟩).1
  · obtain ⟨value, after, hr, _⟩ := h1
    exact (hreturns _ _ ⟨value, after, hr, trivial⟩).2
  · intro next hn hcache
    exact h.2.1 [[.time, .all_sources]] next hn hcache (by decide)
  · intro next hn hcache
    obtain ⟨value2, after2, hrun, _⟩ :=
      h.2.2 [[.time, .all_sources], [.all_state, .all_sources]] next hn hcache (by decide)
    rw [hrun]
    rfl

theorem message_includes_chars (message part : String) (h : message_includes message part)
    (c : Char) (hc : c ∈ part.toList) : c ∈ message.toList := by
  obtain ⟨before, after, rfl⟩ := h
  simp only [String.toList, String.data_append, List.mem_append] at hc ⊢
  exact Or.inl (Or.inr hc)

theorem message_includes_both (head type mid pathname rest : String) :
    message_includes (head ++ type ++ mid ++ pathname ++ rest) type ∧
    message_includes (head ++ type ++ mid ++ pathname ++ rest) pathname :=
  ⟨⟨head, mid ++ pathname ++ rest, by simp only [String.append_assoc]⟩,
    ⟨head ++ type ++ mid, rest, rfl⟩⟩

theorem CalcNextUpdateTime_error (self : System) (context : Context)
    (events : CompositeEventCollection)
    (hc : context.system_id = self.system_id) (he : events.system_id = self.system_id)
    (e : Exception) (h : (self.CalcNextUpdateTime context events).result = .error e) :
    ∃ rest, e = .logic_error ("System::CalcNextUpdateTime(): " ++ self.GetSystemType ++
      " system '" ++ self.GetSystemPathname ++ rest) := by
  simp only [System.CalcNextUpdateTime, ValidateContext_ok self context hc,
    ValidateCreatedForThisSystem_ok self _ he, Run.bind_eq, Run.pure_eq, Run.bind, Run.pure,
    Run.call] at h
  generalize self.DoCalcNextUpdateTime context events.Clear .nan = o at h
  obtain ⟨ev, t⟩ := o
  by_cases hn : isnan t = true
  · simp only [hn, if_true, Run.throw, Except.error.injEq] at h
    refine ⟨"' overrode DoCalcNextUpdateTime() but at time=" ++ (context.time.format ++
      (" it returned with no update time set (or the update time was " ++
      "set to NaN). Return infinity to indicate no next update time.")), ?_⟩
    rw [← h]
    simp only [String.append_assoc]
  · by_cases hf : (isfinite t && !ev.HasEvents) = true
    · simp only [hn, hf, if_true, Bool.false_eq_true, if_false, Run.throw,
        Except.error.injEq] at h
      refine ⟨"' overrode DoCalcNextUpdateTime() but at time=" ++ (context.time.format ++
        (" it returned update time " ++ (t.format ++
        (" with an empty Event collection. Return infinity to indicate no next update time; " ++
        "otherwise at least one Event object must be provided even if it does nothing.")))),
        ?_⟩
      rw [← h]
      simp only [String.append_assoc]
    · simp only [hn, hf, Bool.false_eq_true, if_false] at h
      cases hq : t.eq context.time <;> cases ht : context.true_time <;>
        simp [hq, ht] at h

/-- C23: when no declared input port has the given name, `GetInputPort` raises
the error whose message ends with the names of all declared input ports, in
index order and separated by `", "`, or with the placeholder text
`it has no input ports` when the system has no input port; `GetOutputPort`
does the same over the output ports with the placeholder
`it has no output ports`. -/
theorem GetPort_error_names (self : System) (port_name : String) :
    ((∀ p ∈ self.input_ports, p.name ≠ port_name) →
      (self.GetInputPort port_name).result = .error (.logic_error ("System " ++
        self.GetSystemName ++ " does not have an input port named " ++ port_name ++
        " (valid port names: " ++
        (if self.input_ports = [] then "it has no input ports"
          else String.intercalate ", " (self.input_ports.map (fun p => p.name))) ++ ")"))) ∧
    ((∀ p ∈ self.output_ports, p.name ≠ port_name) →
      (self.GetOutputPort port_name).result = .error (.logic_error ("System " ++
        self.GetSystemName ++ " does not have an output port named " ++ port_name ++
        " (valid port names: " ++
        (if self.output_ports = [] then "it has no output ports"
          else String.intercalate ", " (self.output_ports.map (fun p => p.name))) ++ ")"))) := by
  have hnames : ∀ (ports : List PortBase) (placeholder : String),
      String.intercalate ", " (GetPort.port_names ports placeholder) =
        if ports = [] then placeholder
        else String.intercalate ", " (ports.map (fun p => p.name)) := by
    intro ports placeholder
    cases ports with
    | nil => simp [GetPort.port_names, String.intercalate, String.intercalate.go]
    | cons p rest => simp [GetPort.port_names]
  constructor
  · intro h
    have hl : GetPort.loop port_name self.input_ports 0 = none :=
      (GetPort.loop_finds port_name self.input_ports 0).2.2 h
    simp only [System.GetInputPort, hl, Run.throw, hnames]
  · intro h
    have hl : GetPort.loop port_name self.output_ports 0 = none :=
      (GetPort.loop_finds port_name self.output_ports 0).2.2 h
    simp only [System.GetOutputPort, hl, Run.throw, hnames]

theorem GetPort_error_names_witness :
    (∀ p ∈ (transfer_System 1).input_ports, p.name ≠ "u9") ∧
    (∀ p ∈ (transfer_System 1).output_ports, p.name ≠ "y9") ∧
    ((transfer_System 1).GetInputPort "u9").result = .error (.logic_error
      "System sys does not have an input port named u9 (valid port names: u0, u1, u2)") ∧
    ((transfer_System 1).GetOutputPort "y9").result = .error (.logic_error
      ("System sys does not have an output port named y9 " ++
        "(valid port names: it has no output ports)")) :=
  ⟨by decide, by decide,
    ((GetPort_error_names (transfer_System 1) "u9").1 (by decide)).trans (by decide),
    ((GetPort_error_names (transfer_System 1) "y9").2 (by decide)).trans (by decide)⟩

theorem CalcNextUpdateTime_valid (self : System) (context : Context)
    (events : CompositeEventCollection)
    (h : (self.CalcNextUpdateTime context events).raises = false) :
    context.system_id = self.system_id ∧ events.system_id = self.system_id := by
  by_cases hc : context.system_id = self.system_id
  · by_cases he : events.system_id = self.system_id
    · exact ⟨hc, he⟩
    · simp [System.CalcNextUpdateTime, ValidateContext_ok self context hc,
        System.ValidateCreatedForThisSystem, he, Run.bind, Run.pure, Run.throw,
        Run.raises] at h
  · simp [System.CalcNextUpdateTime, System.ValidateContext, hc, Run.bind, Run.throw,
      Run.raises] at h

/-- C24: when `CalcNextUpdateTime` does not raise, it returns the true time of
the context if the context carries one and the time left by
`DoCalcNextUpdateTime` compares equal to the time of the context, and in
every other case exactly the time left by `DoCalcNextUpdateTime`: so for a
context without a true time, and for a time that differs from the time of the
context. -/
theorem CalcNextUpdateTime_true_time (self : System) (context : Context)
    (events : CompositeEventCollection)
    (h : (self.CalcNextUpdateTime context events).raises = false) :
    let out := self.DoCalcNextUpdateTime context events.Clear .nan
    ∃ time, (self.CalcNextUpdateTime context events).result = .ok (time, out.1) ∧
      (∀ true_time, context.true_time = some true_time → out.2.eq context.time = true →
        time = true_time) ∧
      (¬ (∃ true_time, context.true_time = some true_time ∧ out.2.eq context.time = true) →
        time = out.2) ∧
      (context.true_time = none → time = out.2) ∧
      (out.2.eq context.time = false → time = out.2) := by
  intro out
  obtain ⟨hc, he⟩ := CalcNextUpdateTime_valid self context events h
  have hrun := (CalcNextUpdateTime_run self context events hc he).2 h
  refine ⟨_, hrun, ?_, ?_, ?_, ?_⟩
  · intro true_time ht hq
    simp only [ht]
    rw [if_pos hq]
  · intro hno
    cases ht : context.true_time with
    | none => rfl
    | some true_time =>
      have hq : ¬ out.2.eq context.time = true := fun hq => hno ⟨true_time, ht, hq⟩
      simp only
      rw [if_neg hq]
  · intro ht
    simp only [ht]
  · intro hq
    cases ht : context.true_time with
    | none => rfl
    | some true_time =>
      simp only
      rw [if_neg (by simpa using hq)]

theorem CalcNextUpdateTime_true_time_witness :
    ((default_System 1).CalcNextUpdateTime
      { empty_Context 1 with time := .infinity, true_time := some (.finite 5) }
      (empty_events 1)).raises = false ∧
    ∃ events, ((default_System 1).CalcNextUpdateTime
      { empty_Context 1 with time := .infinity, true_time := some (.finite 5) }
      (empty_events 1)).result = .ok (.finite 5, events) := by
  have h : ((default_System 1).CalcNextUpdateTime
      { empty_Context 1 with time := .infinity, true_time := some (.finite 5) }
      (empty_events 1)).raises = false := rfl
  obtain ⟨time, hres, h1, _⟩ := CalcNextUpdateTime_true_time (default_System 1)
    { empty_Context 1 with time := .infinity, true_time := some (.finite 5) }
    (empty_events 1) h
  have ht : time = .finite 5 := h1 (.finite 5) rfl rfl
  exact ⟨h, _, ht ▸ hres⟩

theorem ExecuteInitializationEvents_unfold (self : System) (context : Context)
    (hc : context.system_id = self.system_id) :
    self.ExecuteInitializationEvents context =
      Run.bind (Run.call (.DoGetInitializationEvents context)
        (self.DoGetInitializationEvents context self.AllocateCompositeEventCollection.Clear))
      (fun init_events =>
        Run.bind
          (if EventCollection.HasEvents init_events.unrestricted_update_events then
            Run.bind (self.CalcUnrestrictedUpdate context
              init_events.unrestricted_update_events context.state) (fun updated =>
              Run.bind (updated.1.ThrowOnFailure "ExecuteInitializationEvents") (fun _ =>
                self.ApplyUnrestrictedUpdate init_events.unrestricted_update_events updated.2
                  context))
          else Run.pure context)
          (fun context =>
            Run.bind
              (if EventCollection.HasEvents init_events.discrete_update_events then
                Run.bind (self.CalcDiscreteVariableUpdate context
                  init_events.discrete_update_events self.AllocateDiscreteVariables)
                  (fun updated =>
                    Run.bind (updated.1.ThrowOnFailure "ExecuteInitializationEvents") (fun _ =>
                      self.ApplyDiscreteVariableUpdate init_events.discrete_update_events
                        updated.2 context))
              else Run.pure context)
              (fun context =>
                Run.bind
                  (if EventCollection.HasEvents init_events.publish_events then
                    Run.bind (self.Publish context init_events.publish_events) (fun status =>
                      status.ThrowOnFailure "ExecuteInitializationEvents")
                  else Run.pure ())
                  (fun _ => Run.pure context)))) := by
  have he : self.AllocateCompositeEventCollection.system_id = self.system_id := rfl
  simp only [System.ExecuteInitializationEvents, System.GetInitializationEvents,
    ValidateContext_ok self context hc, ValidateCreatedForThisSystem_ok self _ he,
    Run.bind_eq, Run.pure_eq]
  rfl
theorem unrestricted_stage_failed (self : System) (context : Context)
    (events : EventCollection) (message : String)
    (hc : context.system_id = self.system_id) (hs : context.state.system_id = self.system_id)
    (hf : (self.DispatchUnrestrictedUpdateHandler context events context.state).1 =
      .Failed message) :
    ∃ e, Run.bind (self.CalcUnrestrictedUpdate context events context.state) (fun updated =>
        Run.bind (updated.1.ThrowOnFailure "ExecuteInitializationEvents") (fun _ =>
          self.ApplyUnrestrictedUpdate events updated.2 context)) =
      ⟨[.DispatchUnrestrictedUpdateHandler context events context.state], .error e⟩ := by
  by_cases hshape : context.state.continuous_state.size ≠
        (self.DispatchUnrestrictedUpdateHandler context events
          context.state).2.continuous_state.size ∨
      context.state.discrete_state.num_groups ≠
        (self.DispatchUnrestrictedUpdateHandler context events
          context.state).2.discrete_state.num_groups ∨
      context.state.abstract_state.length ≠
        (self.DispatchUnrestrictedUpdateHandler context events
          context.state).2.abstract_state.length
  · refine ⟨shape_error, ?_⟩
    simp only [System.CalcUnrestrictedUpdate, ValidateContext_ok self context hc,
      ValidateCreatedForThisSystem_ok self _ hs, Run.bind_eq, Run.pure_eq, Run.bind, Run.pure,
      Run.call, List.nil_append]
    rw [if_pos hshape]
    simp [Run.throw]
  · refine ⟨.logic_error ("ExecuteInitializationEvents" ++
      "(): An event handler failed with message: \"" ++ message ++ "\"."), ?_⟩
    simp only [System.CalcUnrestrictedUpdate, ValidateContext_ok self context hc,
      ValidateCreatedForThisSystem_ok self _ hs, Run.bind_eq, Run.pure_eq, Run.bind, Run.pure,
      Run.call, List.nil_append]
    rw [if_neg hshape]
    simp [hf, EventStatus.ThrowOnFailure, Run.throw]

theorem unrestricted_stage_succeeded (self : System) (context : Context)
    (events : EventCollection)
    (hc : context.system_id = self.system_id) (hs : context.state.system_id = self.system_id)
    (hf : (self.DispatchUnrestrictedUpdateHandler context events context.state).1 =
      .Succeeded)
    (hid : (self.DispatchUnrestrictedUpdateHandler context events context.state).2.system_id =
      self.system_id)
    (hshape : ¬ (context.state.continuous_state.size ≠
        (self.DispatchUnrestrictedUpdateHandler context events
          context.state).2.continuous_state.size ∨
      context.state.discrete_state.num_groups ≠
        (self.DispatchUnrestrictedUpdateHandler context events
          context.state).2.discrete_state.num_groups ∨
      context.state.abstract_state.length ≠
        (self.DispatchUnrestrictedUpdateHandler context events
          context.state).2.abstract_state.length)) :
    Run.bind (self.CalcUnrestrictedUpdate context events context.state) (fun updated =>
        Run.bind (updated.1.ThrowOnFailure "ExecuteInitializationEvents") (fun _ =>
          self.ApplyUnrestrictedUpdate events updated.2 context)) =
      ⟨[.DispatchUnrestrictedUpdateHandler context events context.state,
          .DoApplyUnrestrictedUpdate events
            (self.DispatchUnrestrictedUpdateHandler context events context.state).2 context],
        .ok (self.DoApplyUnrestrictedUpdate events
          (self.DispatchUnrestrictedUpdateHandler context events context.state).2 context)⟩ := by
  simp only [System.CalcUnrestrictedUpdate, ValidateContext_ok self context hc,
    ValidateCreatedForThisSystem_ok self _ hs, Run.bind_eq, Run.pure_eq, Run.bind, Run.pure,
    Run.call, List.nil_append]
  rw [if_neg hshape]
  simp [hf, EventStatus.ThrowOnFailure, Run.pure, System.ApplyUnrestrictedUpdate,
    ValidateContext_ok self context hc, ValidateCreatedForThisSystem_ok self _ hid, Run.bind,
    Run.call]

theorem discrete_stage_failed (self : System) (context : Context)
    (events : EventCollection) (message : String)
    (hc : context.system_id = self.system_id)
    (hd : self.AllocateDiscreteVariables.system_id = self.system_id)
    (hf : (self.DispatchDiscreteVariableUpdateHandler context events
      self.AllocateDiscreteVariables).1 = .Failed message) :
    ∃ e, Run.bind (self.CalcDiscreteVariableUpdate context events
        self.AllocateDiscreteVariables) (fun updated =>
        Run.bind (updated.1.ThrowOnFailure "ExecuteInitializationEvents") (fun _ =>
          self.ApplyDiscreteVariableUpdate events updated.2 context)) =
      ⟨[.DispatchDiscreteVariableUpdateHandler context events self.AllocateDiscreteVariables],
        .error e⟩ := by
  simp only [System.CalcDiscreteVariableUpdate, ValidateContext_ok self context hc,
    ValidateCreatedForThisSystem_ok self _ hd, Run.bind_eq, Run.pure_eq, Run.bind, Run.pure,
    Run.call, List.nil_append]
  refine ⟨.logic_error ("ExecuteInitializationEvents" ++
    "(): An event handler failed with message: \"" ++ message ++ "\"."), ?_⟩
  simp [hf, EventStatus.ThrowOnFailure, Run.throw]

theorem discrete_stage_succeeded (self : System) (context : Context)
    (events : EventCollection)
    (hc : context.system_id = self.system_id)
    (hd : self.AllocateDiscreteVariables.system_id = self.system_id)
    (hf : (self.DispatchDiscreteVariableUpdateHandler context events
      self.AllocateDiscreteVariables).1 = .Succeeded)
    (hid : (self.DispatchDiscreteVariableUpdateHandler context events
      self.AllocateDiscreteVariables).2.system_id = self.system_id) :
    Run.bind (self.CalcDiscreteVariableUpdate context events
        self.AllocateDiscreteVariables) (fun updated =>
        Run.bind (updated.1.ThrowOnFailure "ExecuteInitializationEvents") (fun _ =>
          self.ApplyDiscreteVariableUpdate events updated.2 context)) =
      ⟨[.DispatchDiscreteVariableUpdateHandler context events self.AllocateDiscreteVariables,
          .DoApplyDiscreteVariableUpdate events
            (self.DispatchDiscreteVariableUpdateHandler context events
              self.AllocateDiscreteVariables).2 context],
        .ok (self.DoApplyDiscreteVariableUpdate events
          (self.DispatchDiscreteVariableUpdateHandler context events
            self.AllocateDiscreteVariables).2 context)⟩ := by
  simp [System.CalcDiscreteVariableUpdate, ValidateContext_ok self context hc,
    ValidateCreatedForThisSystem_ok self _ hd, Run.bind, Run.pure,
    Run.call, hf, EventStatus.ThrowOnFailure, System.ApplyDiscreteVariableUpdate,
    ValidateCreatedForThisSystem_ok self _ hid]
theorem Run.call_bind {α β : Type} (c : Call) (a : α) (f : α → Run β) :
    Run.bind (Run.call c a) f = ⟨c :: (f a).calls, (f a).result⟩ := rfl

theorem Run.mk_error_bind {α β : Type} (l : List Call) (e : Exception) (f : α → Run β) :
    Run.bind (⟨l, .error e⟩ : Run α) f = ⟨l, .error e⟩ := rfl

theorem Run.mk_ok_bind {α β : Type} (l : List Call) (a : α) (f : α → Run β) :
    Run.bind (⟨l, .ok a⟩ : Run α) f = ⟨l ++ (f a).calls, (f a).result⟩ := rfl

theorem ExecuteInitializationEvents_stages (self : System) (context : Context)
    (hc : context.system_id = self.system_id)
    (hs : context.state.system_id = self.system_id)
    (hd : self.AllocateDiscreteVariables.system_id = self.system_id) :
    let run := self.ExecuteInitializationEvents context
    let init_events :=
      self.DoGetInitializationEvents context self.AllocateCompositeEventCollection.Clear
    let unrestricted := init_events.unrestricted_update_events
    let discrete := init_events.discrete_update_events
    let publish := init_events.publish_events
    let updated := self.DispatchUnrestrictedUpdateHandler context unrestricted context.state
    let unrestricted_done : Prop :=
      EventCollection.HasEvents unrestricted = true →
        updated.1 = .Succeeded ∧ updated.2.system_id = self.system_id ∧
        context.state.continuous_state.size = updated.2.continuous_state.size ∧
        context.state.discrete_state.num_groups = updated.2.discrete_state.num_groups ∧
        context.state.abstract_state.length = updated.2.abstract_state.length
    let committed :=
      if EventCollection.HasEvents unrestricted then
        self.DoApplyUnrestrictedUpdate unrestricted updated.2 context
      else context
    let discrete_updated := self.DispatchDiscreteVariableUpdateHandler committed discrete
      self.AllocateDiscreteVariables
    let discrete_done : Prop :=
      EventCollection.HasEvents discrete = true →
        discrete_updated.1 = .Succeeded ∧ discrete_updated.2.system_id = self.system_id
    let both_committed :=
      if EventCollection.HasEvents discrete then
        self.DoApplyDiscreteVariableUpdate discrete discrete_updated.2 committed
      else committed
    (∀ message, EventCollection.HasEvents unrestricted = true →
      updated.1 = .Failed message →
      run.raises = true ∧
      run.calls = [.DoGetInitializationEvents context,
        .DispatchUnrestrictedUpdateHandler context unrestricted context.state] ∧
      self.context_after context run.calls = context) ∧
    (∀ message, unrestricted_done → EventCollection.HasEvents discrete = true →
      discrete_updated.1 = .Failed message →
      run.raises = true ∧
      run.calls = [.DoGetInitializationEvents context] ++
        (if EventCollection.HasEvents unrestricted then
          [.DispatchUnrestrictedUpdateHandler context unrestricted context.state,
            .DoApplyUnrestrictedUpdate unrestricted updated.2 context]
        else []) ++
        [.DispatchDiscreteVariableUpdateHandler committed discrete
          self.AllocateDiscreteVariables] ∧
      self.context_after context run.calls = committed) ∧
    (∀ message, unrestricted_done → discrete_done →
      EventCollection.HasEvents publish = true →
      self.DispatchPublishHandler both_committed publish = .Failed message →
      run.raises = true ∧
      run.calls = [.DoGetInitializationEvents context] ++
        (if EventCollection.HasEvents unrestricted then
          [.DispatchUnrestrictedUpdateHandler context unrestricted context.state,
            .DoApplyUnrestrictedUpdate unrestricted updated.2 context]
        else []) ++
        (if EventCollection.HasEvents discrete then
          [.DispatchDiscreteVariableUpdateHandler committed discrete
              self.AllocateDiscreteVariables,
            .DoApplyDiscreteVariableUpdate discrete discrete_updated.2 committed]
        else []) ++
        [.DispatchPublishHandler both_committed publish] ∧
      self.context_after context run.calls = both_committed) := by
  intro run init_events unrestricted discrete publish updated unrestricted_done committed
    discrete_updated discrete_done both_committed
  have hrun : run = _ := ExecuteInitializationEvents_unfold self context hc
  have hcc : committed.system_id = self.system_id := by
    simp only [committed]
    split
    · exact hc
    · exact hc
  have hstage1 : unrestricted_done →
      (if EventCollection.HasEvents unrestricted then
        Run.bind (self.CalcUnrestrictedUpdate context unrestricted context.state)
          (fun updated =>
            Run.bind (updated.1.ThrowOnFailure "ExecuteInitializationEvents") (fun _ =>
              self.ApplyUnrestrictedUpdate unrestricted updated.2 context))
      else Run.pure context) =
      ⟨if EventCollection.HasEvents unrestricted then
          [.DispatchUnrestrictedUpdateHandler context unrestricted context.state,
            .DoApplyUnrestrictedUpdate unrestricted updated.2 context]
        else [], .ok committed⟩ := by
    intro hu
    by_cases hU : EventCollection.HasEvents unrestricted = true
    · obtain ⟨h1, h2, h3, h4, h5⟩ := hu hU
      simp only [hU, if_true, committed]
      exact unrestricted_stage_succeeded self context unrestricted hc hs h1 h2
        (by simp [h3, h4, h5])
    · simp only [hU, if_false, committed, Bool.false_eq_true]
      rfl
  refine ⟨?_, ?_, ?_⟩
  · intro message hU hf
    obtain ⟨e, he⟩ := unrestricted_stage_failed self context unrestricted message hc hs hf
    have hr : run = ⟨[.DoGetInitializationEvents context,
        .DispatchUnrestrictedUpdateHandler context unrestricted context.state], .error e⟩ := by
      rw [hrun]
      simp only [init_events, unrestricted] at hU he
      simp only [Run.call_bind, hU, if_true, he, Run.mk_error_bind]
    rw [hr]
    exact ⟨rfl, rfl, rfl⟩
  · intro message hu hD hf
    obtain ⟨e, he⟩ := discrete_stage_failed self committed discrete message hcc hd hf
    have h1 := hstage1 hu
    have hr : run = ⟨[.DoGetInitializationEvents context] ++
        (if EventCollection.HasEvents unrestricted then
          [.DispatchUnrestrictedUpdateHandler context unrestricted context.state,
            .DoApplyUnrestrictedUpdate unrestricted updated.2 context]
        else []) ++
        [.DispatchDiscreteVariableUpdateHandler committed discrete
          self.AllocateDiscreteVariables], .error e⟩ := by
      rw [hrun]
      simp only [init_events, unrestricted, discrete, updated, committed] at h1 hD he ⊢
      simp only [Run.call_bind, h1, Run.mk_ok_bind, hD, if_true, he, Run.mk_error_bind,
        List.singleton_append, List.cons_append, List.nil_append]
    rw [hr]
    refine ⟨rfl, rfl, ?_⟩
    by_cases hU : EventCollection.HasEvents unrestricted = true
    · simp only [hU, if_true, committed]
      rfl
    · simp only [hU, if_false, committed, Bool.false_eq_true]
      rfl
  · intro message hu hdone hP hf
    have h1 := hstage1 hu
    have hbc : both_committed.system_id = self.system_id := by
      simp only [both_committed]
      split
      · exact hcc
      · exact hcc
    have h2 : (if EventCollection.HasEvents discrete then
          Run.bind (self.CalcDiscreteVariableUpdate committed discrete
            self.AllocateDiscreteVariables) (fun updated =>
              Run.bind (updated.1.ThrowOnFailure "ExecuteInitializationEvents") (fun _ =>
                self.ApplyDiscreteVariableUpdate discrete updated.2 committed))
        else Run.pure committed) =
        ⟨if EventCollection.HasEvents discrete then
            [.DispatchDiscreteVariableUpdateHandler committed discrete
                self.AllocateDiscreteVariables,
              .DoApplyDiscreteVariableUpdate discrete discrete_updated.2 committed]
          else [], .ok both_committed⟩ := by
      by_cases hD : EventCollection.HasEvents discrete = true
      · obtain ⟨h3, h4⟩ := hdone hD
        simp only [hD, if_true, both_committed]
        exact discrete_stage_succeeded self committed discrete hcc hd h3 h4
      · simp only [hD, if_false, both_committed, Bool.false_eq_true]
        rfl
    have h3 : Run.bind (self.Publish both_committed publish) (fun status =>
          status.ThrowOnFailure "ExecuteInitializationEvents") =
        ⟨[.DispatchPublishHandler both_committed publish],
          .error (.logic_error ("ExecuteInitializationEvents" ++
            "(): An event handler failed with message: \"" ++ message ++ "\"."))⟩ := by
      simp [System.Publish, ValidateContext_ok self both_committed hbc, Run.bind, Run.pure,
        Run.call, hf, EventStatus.ThrowOnFailure, Run.throw]
    have hr : run = ⟨[.DoGetInitializationEvents context] ++
        (if EventCollection.HasEvents unrestricted then
          [.DispatchUnrestrictedUpdateHandler context unrestricted context.state,
            .DoApplyUnrestrictedUpdate unrestricted updated.2 context]
        else []) ++
        (if EventCollection.HasEvents discrete then
          [.DispatchDiscreteVariableUpdateHandler committed discrete
              self.AllocateDiscreteVariables,
            .DoApplyDiscreteVariableUpdate discrete discrete_updated.2 committed]
        else []) ++
        [.DispatchPublishHandler both_committed publish],
        .error (.logic_error ("ExecuteInitializationEvents" ++
          "(): An event handler failed with message: \"" ++ message ++ "\"."))⟩ := by
      rw [hrun]
      simp only [init_events, unrestricted, discrete, publish, updated, committed,
        discrete_updated, both_committed] at h1 h2 h3 hP ⊢
      simp only [Run.call_bind, h1, Run.mk_ok_bind, h2, hP, if_true, h3, Run.mk_error_bind,
        List.singleton_append, List.cons_append, List.nil_append, List.append_assoc]
    rw [hr]
    refine ⟨rfl, rfl, ?_⟩
    by_cases hU : EventCollection.HasEvents unrestricted = true <;>
      by_cases hD : EventCollection.HasEvents discrete = true <;>
      simp only [hU, hD, if_true, if_false, committed, both_committed, Bool.false_eq_true] <;>
      rfl

/-- C26: `ExecuteInitializationEvents` on a context created for this system
(whose state and the buffer of discrete variables the system allocates carry
the identity of the system).  When the unrestricted-update handlers report
failure the call raises right after that dispatch: nothing is applied, no
other handler is dispatched and the context is as before the call.  When the
unrestricted update is absent or succeeds and the discrete-update handlers
report failure, the call raises right after that dispatch: the unrestricted
update stays applied, the discrete update is not applied and no publish
handler is dispatched.  When both are absent or succeed and the publish
handlers report failure, the call raises with both updates applied. -/
theorem ExecuteInitializationEvents_failure (self : System) (context : Context)
    (hc : context.system_id = self.system_id)
    (hs : context.state.system_id = self.system_id)
    (hd : self.AllocateDiscreteVariables.system_id = self.system_id) :
    let run := self.ExecuteInitializationEvents context
    let init_events :=
      self.DoGetInitializationEvents context self.AllocateCompositeEventCollection.Clear
    let unrestricted := init_events.unrestricted_update_events
    let discrete := init_events.discrete_update_events
    let publish := init_events.publish_events
    let updated := self.DispatchUnrestrictedUpdateHandler context unrestricted context.state
    let unrestricted_done : Prop :=
      EventCollection.HasEvents unrestricted = true →
        updated.1 = .Succeeded ∧ updated.2.system_id = self.system_id ∧
        context.state.continuous_state.size = updated.2.continuous_state.size ∧
        context.state.discrete_state.num_groups = updated.2.discrete_state.num_groups ∧
        context.state.abstract_state.length = updated.2.abstract_state.length
    let committed :=
      if EventCollection.HasEvents unrestricted then
        self.DoApplyUnrestrictedUpdate unrestricted updated.2 context
      else context
    let discrete_updated := self.DispatchDiscreteVariableUpdateHandler committed discrete
      self.AllocateDiscreteVariables
    let discrete_done : Prop :=
      EventCollection.HasEvents discrete = true →
        discrete_updated.1 = .Succeeded ∧ discrete_updated.2.system_id = self.system_id
    let both_committed :=
      if EventCollection.HasEvents discrete then
        self.DoApplyDiscreteVariableUpdate discrete discrete_updated.2 committed
      else committed
    (∀ message, EventCollection.HasEvents unrestricted = true →
      updated.1 = .Failed message →
      run.raises = true ∧
      run.calls = [.DoGetInitializationEvents context,
        .DispatchUnrestrictedUpdateHandler context unrestricted context.state] ∧
      self.context_after context run.calls = context) ∧
    (∀ message, unrestricted_done → EventCollection.HasEvents discrete = true →
      discrete_updated.1 = .Failed message →
      run.raises = true ∧
      run.calls = [.DoGetInitializationEvents context] ++
        (if EventCollection.HasEvents unrestricted then
          [.DispatchUnrestrictedUpdateHandler context unrestricted context.state,
            .DoApplyUnrestrictedUpdate unrestricted updated.2 context]
        else []) ++
        [.DispatchDiscreteVariableUpdateHandler committed discrete
          self.AllocateDiscreteVariables] ∧
      self.context_after context run.calls = committed) ∧
    (∀ message, unrestricted_done → discrete_done →
      EventCollection.HasEvents publish = true →
      self.DispatchPublishHandler both_committed publish = .Failed message →
      run.raises = true ∧
      run.calls = [.DoGetInitializationEvents context] ++
        (if EventCollection.HasEvents unrestricted then
          [.DispatchUnrestrictedUpdateHandler context unrestricted context.state,
            .DoApplyUnrestrictedUpdate unrestricted updated.2 context]
        else []) ++
        (if EventCollection.HasEvents discrete then
          [.DispatchDiscreteVariableUpdateHandler committed discrete
              self.AllocateDiscreteVariables,
            .DoApplyDiscreteVariableUpdate discrete discrete_updated.2 committed]
        else []) ++
        [.DispatchPublishHandler both_committed publish] ∧
      self.context_after context run.calls = both_committed) := by
  exact ExecuteInitializationEvents_stages self context hc hs hd

theorem ExecuteInitializationEvents_failure_witness :
    (empty_Context 1).system_id = (failing_discrete_System 1).system_id ∧
    (empty_Context 1).state.system_id = (failing_discrete_System 1).system_id ∧
    (failing_discrete_System 1).AllocateDiscreteVariables.system_id =
      (failing_discrete_System 1).system_id ∧
    ((failing_discrete_System 1).ExecuteInitializationEvents (empty_Context 1)).raises = true ∧
    ((failing_discrete_System 1).ExecuteInitializationEvents (empty_Context 1)).calls =
      [.DoGetInitializationEvents (empty_Context 1),
        .DispatchUnrestrictedUpdateHandler (empty_Context 1)
          [{ kind := .unrestricted_update, id := 3 }] (empty_Context 1).state,
        .DoApplyUnrestrictedUpdate [{ kind := .unrestricted_update, id := 3 }]
          (empty_Context 1).state (empty_Context 1),
        .DispatchDiscreteVariableUpdateHandler (empty_Context 1)
          [{ kind := .discrete_update, id := 2 }]
          (failing_discrete_System 1).AllocateDiscreteVariables] := by
  have h := (ExecuteInitializationEvents_failure (failing_discrete_System 1) (empty_Context 1)
    rfl rfl rfl).2.1 "no" (fun _ => ⟨rfl, rfl, rfl, rfl, rfl⟩) rfl rfl
  exact ⟨rfl, rfl, rfl, h.1, h.2.1⟩

theorem CheckSystemConstraintsSatisfied.loop_eq (T : ScalarType)
    (CheckSatisfied : SystemConstraint → Context → Scalar → Bool) (context : Context)
    (tol : Scalar) :
    ∀ (constraints : List SystemConstraint) (result : Bool),
      CheckSystemConstraintsSatisfied.loop T CheckSatisfied context tol constraints result =
        (result && constraints.all (fun constraint => CheckSatisfied constraint context tol))
  | [], result => by simp [CheckSystemConstraintsSatisfied.loop]
  | constraint :: rest, result => by
    simp only [CheckSystemConstraintsSatisfied.loop, List.all_cons,
      CheckSystemConstraintsSatisfied.loop_eq T CheckSatisfied context tol rest]
    cases result <;> cases CheckSatisfied constraint context tol <;>
      cases scalar_predicate.is_bool T <;> simp

/-- C27: for a context created for this system and a tolerance `tol >= 0`,
`CheckSystemConstraintsSatisfied` returns the conjunction of
`CheckSatisfied(context, tol)` over all constraints of the registry: true
exactly when every constraint reports satisfaction, and true when there is
no constraint.  The loop with the early exit of the boolean-valued scalar
types computes the same value as the loop without it, which is that
conjunction. -/
theorem CheckSystemConstraintsSatisfied_all
    (CheckSatisfied : SystemConstraint → Context → Scalar → Bool) (self : System)
    (context : Context) (tol : Scalar)
    (hc : context.system_id = self.system_id) (ht : tol.ge (.finite 0) = true) :
    let run := self.CheckSystemConstraintsSatisfied CheckSatisfied context tol
    run.result = .ok (spec_CheckSystemConstraintsSatisfied CheckSatisfied self context tol) ∧
    (run.result = .ok true ↔
      ∀ constraint ∈ self.constraints_, CheckSatisfied constraint context tol = true) ∧
    (self.constraints_ = [] → run.result = .ok true) ∧
    (∀ T : ScalarType, scalar_predicate.is_bool T = true →
      CheckSystemConstraintsSatisfied.loop T CheckSatisfied context tol self.constraints_ true =
        CheckSystemConstraintsSatisfied.loop .Expression CheckSatisfied context tol
          self.constraints_ true ∧
      CheckSystemConstraintsSatisfied.loop T CheckSatisfied context tol self.constraints_ true =
        spec_CheckSystemConstraintsSatisfied CheckSatisfied self context tol) := by
  intro run
  have hr : run.result =
      .ok (spec_CheckSystemConstraintsSatisfied CheckSatisfied self context tol) := by
    simp [run, System.CheckSystemConstraintsSatisfied, ValidateContext_ok self context hc, ht,
      Run.bind, Run.pure, CheckSystemConstraintsSatisfied.loop_eq,
      spec_CheckSystemConstraintsSatisfied]
  refine ⟨hr, ?_, ?_, ?_⟩
  · rw [hr]
    simp [spec_CheckSystemConstraintsSatisfied, List.all_eq_true]
  · intro he
    rw [hr]
    simp [spec_CheckSystemConstraintsSatisfied, he]
  · intro T _
    simp [CheckSystemConstraintsSatisfied.loop_eq, spec_CheckSystemConstraintsSatisfied]

theorem CheckSystemConstraintsSatisfied_all_witness :
    (empty_Context 1).system_id = (constrained_System 1).system_id ∧
    Scalar.ge (.finite 0) (.finite 0) = true ∧
    scalar_predicate.is_bool (constrained_System 1).scalar_type = true ∧
    ((constrained_System 1).CheckSystemConstraintsSatisfied check_by_name (empty_Context 1)
      (.finite 0)).result = .ok false ∧
    ((default_System 1).CheckSystemConstraintsSatisfied check_by_name (empty_Context 1)
      (.finite 0)).result = .ok true :=
  ⟨rfl, by decide, rfl,
    (CheckSystemConstraintsSatisfied_all check_by_name (constrained_System 1) (empty_Context 1)
      (.finite 0) rfl (by decide)).1.trans (by decide),
    (CheckSystemConstraintsSatisfied_all check_by_name (default_System 1) (empty_Context 1)
      (.finite 0) rfl (by decide)).2.2.1 rfl⟩

theorem DiscreteValues.SetFrom_same_shape (self other : DiscreteValues)
    (h : self.groups.map List.length = other.groups.map List.length) :
    self.SetFrom other = Run.pure { self with groups := other.groups } := by
  have hn : self.num_groups = other.num_groups := by
    have := congrArg List.length h
    simpa [DiscreteValues.num_groups] using this
  simp [DiscreteValues.SetFrom, hn, h]

theorem DiscreteValues.SetFrom_other_shape (self other : DiscreteValues)
    (h : self.groups.map List.length ≠ other.groups.map List.length) :
    ∃ e, self.SetFrom other = ⟨[], .error e⟩ := by
  unfold DiscreteValues.SetFrom
  by_cases hn : self.num_groups = other.num_groups
  · exact ⟨.logic_error "SetFrom(): the size of a group differs.",
      by simp [hn, h, Run.throw]⟩
  · exact ⟨.logic_error "SetFrom(): num_groups() == other.num_groups()",
      by simp [hn, Run.throw]⟩

/-- C25: for a context and an output buffer created for this system, the
buffer having the shape of the discrete state of the context (as many groups,
of the same sizes).  When the search for the unique periodic discrete-update
timing finds no timing, `CalcUniquePeriodicDiscreteUpdate` raises the error
that the system has no periodic discrete update events.  When it finds one,
the buffer is overwritten with the discrete state of the context and exactly
the events found are dispatched on it, once: the call returns what the
handlers leave when they succeed, which is the discrete state of the context
when they change nothing, and raises when they report failure.  In every case
the run is the same for any two buffers of that shape created for this
system, whatever they held before; a buffer of another shape makes the call
raise before anything is dispatched. -/
theorem CalcUniquePeriodicDiscreteUpdate_seeded (self : System) (context : Context)
    (discrete_values : DiscreteValues)
    (hc : context.system_id = self.system_id)
    (hd : discrete_values.system_id = self.system_id)
    (hshape : discrete_values.groups.map List.length =
      context.get_discrete_state.groups.map List.length) :
    let collection := self.AllocateCompositeEventCollection
    let found := self.FindUniquePeriodicDiscreteUpdatesOrThrow
      "CalcUniquePeriodicDiscreteUpdate" context none collection.discrete_update_events
    let run := self.CalcUniquePeriodicDiscreteUpdate context discrete_values
    let seeded : DiscreteValues :=
      { system_id := self.system_id, groups := context.get_discrete_state.groups }
    (∀ events, found = .ok (none, events) →
      run.calls = [] ∧
      run.result = .error (.logic_error ("CalcUniquePeriodicDiscreteUpdate" ++
        "(): there are no periodic discrete update events in this System."))) ∧
    (∀ timing events, found = .ok (some timing, events) →
      let out := self.DispatchDiscreteVariableUpdateHandler context events seeded
      run.calls = [.DispatchDiscreteVariableUpdateHandler context events seeded] ∧
      (out.1 = .Succeeded → run.result = .ok out.2) ∧
      (out = (.Succeeded, seeded) → run.result = .ok seeded) ∧
      (∀ message, out.1 = .Failed message → run.raises = true)) ∧
    (∀ other : DiscreteValues, other.system_id = self.system_id →
      other.groups.map List.length = context.get_discrete_state.groups.map List.length →
      self.CalcUniquePeriodicDiscreteUpdate context other = run) ∧
    (∀ other : DiscreteValues, other.system_id = self.system_id →
      other.groups.map List.length ≠ context.get_discrete_state.groups.map List.length →
      (self.CalcUniquePeriodicDiscreteUpdate context other).raises = true ∧
      (self.CalcUniquePeriodicDiscreteUpdate context other).calls = []) := by
  intro collection found run seeded
  have hseed : ∀ buffer : DiscreteValues, buffer.system_id = self.system_id →
      ({ buffer with groups := context.get_discrete_state.groups } : DiscreteValues) =
        seeded := by
    intro buffer hb
    simp only [seeded, ← hb]
  have hrun : ∀ buffer : DiscreteValues, buffer.system_id = self.system_id →
      buffer.groups.map List.length = context.get_discrete_state.groups.map List.length →
      self.CalcUniquePeriodicDiscreteUpdate context buffer =
        match found with
        | .error e => ⟨[], .error e⟩
        | .ok (none, _) =>
          ⟨[], .error (.logic_error ("CalcUniquePeriodicDiscreteUpdate" ++
            "(): there are no periodic discrete update events in this System."))⟩
        | .ok (some _, events) =>
          ⟨[.DispatchDiscreteVariableUpdateHandler context events seeded],
            match (self.DispatchDiscreteVariableUpdateHandler context events seeded).1 with
            | .Succeeded =>
              .ok (self.DispatchDiscreteVariableUpdateHandler context events seeded).2
            | .Failed message =>
              .error (.logic_error ("CalcUniquePeriodicDiscreteUpdate" ++
                "(): An event handler failed with message: \"" ++ message ++ "\"."))⟩ := by
    intro buffer hb hsh
    simp only [System.CalcUniquePeriodicDiscreteUpdate, ValidateContext_ok self context hc,
      ValidateCreatedForThisSystem_ok self _ hb, Run.bind_eq, Run.pure_eq,
      DiscreteValues.SetFrom_same_shape buffer _ hsh, hseed buffer hb]
    cases hf : found with
    | error e =>
      simp only [found, collection] at hf
      simp [hf, Run.bind, Run.pure, Run.throw]
    | ok pair =>
      obtain ⟨timing, events⟩ := pair
      simp only [found, collection] at hf
      cases timing with
      | none => simp [hf, Run.bind, Run.pure, Run.throw]
      | some timing =>
        have hs : seeded.system_id = self.system_id := rfl
        simp only [hf, Run.bind, Run.pure, Option.isNone_some, Bool.false_eq_true, if_false,
          System.CalcDiscreteVariableUpdate, ValidateContext_ok self context hc,
          ValidateCreatedForThisSystem_ok self _ hs, Run.call, Run.bind_eq, Run.pure_eq]
        cases hstatus : (self.DispatchDiscreteVariableUpdateHandler context events seeded).1 <;>
          simp [EventStatus.ThrowOnFailure, hstatus, Run.pure, Run.throw]
  refine ⟨?_, ?_, ?_, ?_⟩
  · intro events hf
    have hr := hrun discrete_values hd hshape
    rw [hf] at hr
    constructor <;> simp [run, hr]
  · intro timing events hf out
    have hr := hrun discrete_values hd hshape
    rw [hf] at hr
    refine ⟨?_, ?_, ?_, ?_⟩
    · simp [run, hr]
    · intro hs
      simp only [out] at hs
      simp [run, hr, hs, out]
    · intro hs
      simp only [out] at hs
      simp [run, hr, hs]
    · intro message hs
      simp only [out] at hs
      simp [run, hr, hs, Run.raises]
  · intro other ho hsh
    simp only [run, hrun discrete_values hd hshape, hrun other ho hsh]
  · intro other ho hsh
    obtain ⟨e, he⟩ := DiscreteValues.SetFrom_other_shape other _ hsh
    simp only [System.CalcUniquePeriodicDiscreteUpdate, ValidateContext_ok self context hc,
      ValidateCreatedForThisSystem_ok self _ ho, Run.bind_eq, Run.pure_eq, he]
    cases hf : self.FindUniquePeriodicDiscreteUpdatesOrThrow
        "CalcUniquePeriodicDiscreteUpdate" context none
        self.AllocateCompositeEventCollection.discrete_update_events with
    | error e2 => simp [Run.bind, Run.pure, Run.throw, Run.raises]
    | ok pair =>
      obtain ⟨timing, events⟩ := pair
      cases timing <;> simp [Run.bind, Run.pure, Run.throw, Run.raises]

theorem CalcUniquePeriodicDiscreteUpdate_seeded_witness :
    one_group_Context.system_id = (unique_periodic_System 1).system_id ∧
    ({ system_id := 1, groups := [[.finite 9]] } : DiscreteValues).system_id =
      (unique_periodic_System 1).system_id ∧
    ({ system_id := 1, groups := [[.finite 9]] } : DiscreteValues).groups.map List.length =
      one_group_Context.get_discrete_state.groups.map List.length ∧
    ((unique_periodic_System 1).CalcUniquePeriodicDiscreteUpdate one_group_Context
      { system_id := 1, groups := [[.finite 9]] }).result =
      .ok { system_id := 1, groups := [[.finite 3]] } ∧
    ((default_System 1).CalcUniquePeriodicDiscreteUpdate one_group_Context
      { system_id := 1, groups := [[.finite 9]] }).result =
      .error (.logic_error ("CalcUniquePeriodicDiscreteUpdate" ++
        "(): there are no periodic discrete update events in this System.")) ∧
    ((unique_periodic_System 1).CalcUniquePeriodicDiscreteUpdate one_group_Context
      { system_id := 1, groups := [] }).raises = true :=
  ⟨rfl, rfl, rfl,
    ((CalcUniquePeriodicDiscreteUpdate_seeded (unique_periodic_System 1) one_group_Context
      { system_id := 1, groups := [[.finite 9]] } rfl rfl rfl).2.1 _ _ rfl).2.2.1 rfl,
    ((CalcUniquePeriodicDiscreteUpdate_seeded (default_System 1) one_group_Context
      { system_id := 1, groups := [[.finite 9]] } rfl rfl rfl).1 _ rfl).2,
    ((CalcUniquePeriodicDiscreteUpdate_seeded (unique_periodic_System 1) one_group_Context
      { system_id := 1, groups := [[.finite 9]] } rfl rfl rfl).2.2.2
      { system_id := 1, groups := [] } rfl (by decide)).1⟩

theorem unrestricted_stage_resized (self : System) (context : Context)
    (events : EventCollection)
    (hc : context.system_id = self.system_id) (hs : context.state.system_id = self.system_id)
    (hshape : context.state.continuous_state.size ≠
        (self.DispatchUnrestrictedUpdateHandler context events
          context.state).2.continuous_state.size ∨
      context.state.discrete_state.num_groups ≠
        (self.DispatchUnrestrictedUpdateHandler context events
          context.state).2.discrete_state.num_groups ∨
      context.state.abstract_state.length ≠
        (self.DispatchUnrestrictedUpdateHandler context events
          context.state).2.abstract_state.length) :
    Run.bind (self.CalcUnrestrictedUpdate context events context.state) (fun updated =>
        Run.bind (updated.1.ThrowOnFailure "ExecuteInitializationEvents") (fun _ =>
          self.ApplyUnrestrictedUpdate events updated.2 context)) =
      ⟨[.DispatchUnrestrictedUpdateHandler context events context.state],
        .error shape_error⟩ := by
  simp only [System.CalcUnrestrictedUpdate, ValidateContext_ok self context hc,
    ValidateCreatedForThisSystem_ok self _ hs, Run.bind_eq, Run.pure_eq, Run.bind, Run.pure,
    Run.call, List.nil_append]
  rw [if_pos hshape]
  simp [Run.throw]

/-- C2 (as amended): the calls `ExecuteInitializationEvents` makes are always
an initial part of the prescribed sequence (collect, then unrestricted calc
and apply, then discrete calc and apply against the context with the
unrestricted update applied, then publish, each kind only if its collection
has events and at most once), and are the whole sequence whenever the call
returns without raising.  Hence the log of dispatched handler kinds is always
an initial part of unrestricted, discrete, publish restricted to the kinds
that have events, is all of it when the call returns without raising, and
reads unrestricted, discrete, publish when moreover all three collections
have events.
A stage that reports failure or raises ends the sequence there: on a context
created for this system (whose state and the buffer of discrete variables the
system allocates carry its identity), when the unrestricted-update handlers
report failure or change the shape of the state, the call raises and the
dispatch of these handlers is its last call; when the unrestricted stage is
absent or succeeds and the discrete-update handlers report failure, the call
raises and the dispatch of these handlers is its last call; when both are
absent or succeed and the publish handlers report failure, the call raises
after the whole sequence. -/
theorem ExecuteInitializationEvents_order (self : System) (context : Context) :
    let run := self.ExecuteInitializationEvents context
    let init_events :=
      self.DoGetInitializationEvents context self.AllocateCompositeEventCollection.Clear
    let unrestricted := init_events.unrestricted_update_events
    let discrete := init_events.discrete_update_events
    let publish := init_events.publish_events
    let kinds_with_events :=
      (if EventCollection.HasEvents unrestricted then [EventKind.unrestricted_update] else []) ++
      (if EventCollection.HasEvents discrete then [EventKind.discrete_update] else []) ++
      (if EventCollection.HasEvents publish then [EventKind.publish] else [])
    let updated := self.DispatchUnrestrictedUpdateHandler context unrestricted context.state
    let resized : Prop :=
      context.state.continuous_state.size ≠ updated.2.continuous_state.size ∨
      context.state.discrete_state.num_groups ≠ updated.2.discrete_state.num_groups ∨
      context.state.abstract_state.length ≠ updated.2.abstract_state.length
    let unrestricted_done : Prop :=
      EventCollection.HasEvents unrestricted = true →
        updated.1 = .Succeeded ∧ updated.2.system_id = self.system_id ∧
        context.state.continuous_state.size = updated.2.continuous_state.size ∧
        context.state.discrete_state.num_groups = updated.2.discrete_state.num_groups ∧
        context.state.abstract_state.length = updated.2.abstract_state.length
    let committed :=
      if EventCollection.HasEvents unrestricted then
        self.DoApplyUnrestrictedUpdate unrestricted updated.2 context
      else context
    let discrete_updated := self.DispatchDiscreteVariableUpdateHandler committed discrete
      self.AllocateDiscreteVariables
    let discrete_done : Prop :=
      EventCollection.HasEvents discrete = true →
        discrete_updated.1 = .Succeeded ∧ discrete_updated.2.system_id = self.system_id
    let both_committed :=
      if EventCollection.HasEvents discrete then
        self.DoApplyDiscreteVariableUpdate discrete discrete_updated.2 committed
      else committed
    run.calls <+: spec_ExecuteInitializationEvents self context ∧
    (run.raises = false → run.calls = spec_ExecuteInitializationEvents self context) ∧
    run.calls.filterMap Call.handler_kind <+: kinds_with_events ∧
    (run.raises = false → run.calls.filterMap Call.handler_kind = kinds_with_events) ∧
    (run.raises = false →
      EventCollection.HasEvents unrestricted = true →
      EventCollection.HasEvents discrete = true →
      EventCollection.HasEvents publish = true →
      run.calls.filterMap Call.handler_kind =
        [EventKind.unrestricted_update, EventKind.discrete_update, EventKind.publish]) ∧
    (context.system_id = self.system_id → context.state.system_id = self.system_id →
      self.AllocateDiscreteVariables.system_id = self.system_id →
      (∀ message, EventCollection.HasEvents unrestricted = true →
        updated.1 = .Failed message →
        run.raises = true ∧
        run.calls = [.DoGetInitializationEvents context,
          .DispatchUnrestrictedUpdateHandler context unrestricted context.state]) ∧
      (EventCollection.HasEvents unrestricted = true → resized →
        run.raises = true ∧
        run.calls = [.DoGetInitializationEvents context,
          .DispatchUnrestrictedUpdateHandler context unrestricted context.state]) ∧
      (∀ message, unrestricted_done → EventCollection.HasEvents discrete = true →
        discrete_updated.1 = .Failed message →
        run.raises = true ∧
        run.calls = [.DoGetInitializationEvents context] ++
          (if EventCollection.HasEvents unrestricted then
            [.DispatchUnrestrictedUpdateHandler context unrestricted context.state,
              .DoApplyUnrestrictedUpdate unrestricted updated.2 context]
          else []) ++
          [.DispatchDiscreteVariableUpdateHandler committed discrete
            self.AllocateDiscreteVariables]) ∧
      (∀ message, unrestricted_done → discrete_done →
        EventCollection.HasEvents publish = true →
        self.DispatchPublishHandler both_committed publish = .Failed message →
        run.raises = true ∧
        run.calls = spec_ExecuteInitializationEvents self context)) := by
  intro run init_events unrestricted discrete publish kinds_with_events updated resized
    unrestricted_done committed discrete_updated discrete_done both_committed
  obtain ⟨h1, h2, h3, h4, h5⟩ := ExecuteInitializationEvents_order_base self context
  refine ⟨h1, h2, h3, h4, h5, ?_⟩
  intro hc hs hd
  obtain ⟨hA, hB, hC⟩ := ExecuteInitializationEvents_stages self context hc hs hd
  refine ⟨?_, ?_, ?_, ?_⟩
  · intro message hU hf
    exact ⟨(hA message hU hf).1, (hA message hU hf).2.1⟩
  · intro hU hr
    have he := unrestricted_stage_resized self context unrestricted hc hs hr
    have hrun : run = ⟨[.DoGetInitializationEvents context,
        .DispatchUnrestrictedUpdateHandler context unrestricted context.state],
        .error shape_error⟩ := by
      rw [show run = _ from ExecuteInitializationEvents_unfold self context hc]
      simp only [init_events, unrestricted] at hU he
      simp only [Run.call_bind, hU, if_true, he, Run.mk_error_bind]
    rw [hrun]
    exact ⟨rfl, rfl⟩
  · intro message hu hD hf
    exact ⟨(hB message hu hD hf).1, (hB message hu hD hf).2.1⟩
  · intro message hu hdone hP hf
    obtain ⟨hr, hcalls, _⟩ := hC message hu hdone hP hf
    refine ⟨hr, ?_⟩
    rw [hcalls]
    simp only [spec_ExecuteInitializationEvents]
    simp only [init_events, unrestricted, discrete, publish] at hP
    by_cases hU : EventCollection.HasEvents unrestricted = true <;>
      by_cases hD : EventCollection.HasEvents discrete = true <;>
      simp only [init_events, unrestricted, discrete, publish] at hU hD <;>
      simp [hU, hD, hP, committed, both_committed, discrete_updated, updated, unrestricted,
        discrete, publish, init_events]

/-- Witness of C2: with one event of each kind and succeeding handlers the
log reads unrestricted, discrete, publish; with a failing unrestricted-update
handler the call raises and the dispatch of that handler is its last call. -/
theorem ExecuteInitializationEvents_order_witness :
    ((one_of_each_System 7).ExecuteInitializationEvents (empty_Context 7)).raises = false ∧
    ((one_of_each_System 7).ExecuteInitializationEvents (empty_Context 7)).calls.filterMap
        Call.handler_kind =
      [EventKind.unrestricted_update, EventKind.discrete_update, EventKind.publish] ∧
    ((failing_unrestricted_System 7).ExecuteInitializationEvents
      (empty_Context 7)).raises = true ∧
    ((failing_unrestricted_System 7).ExecuteInitializationEvents (empty_Context 7)).calls =
      [.DoGetInitializationEvents (empty_Context 7),
        .DispatchUnrestrictedUpdateHandler (empty_Context 7)
          [{ kind := .unrestricted_update, id := 3 }] (empty_Context 7).state] :=
  ⟨by decide,
    (ExecuteInitializationEvents_order (one_of_each_System 7) (empty_Context 7)).2.2.2.2.1
      (by decide) (by decide) (by decide) (by decide),
    (((ExecuteInitializationEvents_order (failing_unrestricted_System 7)
      (empty_Context 7)).2.2.2.2.2 rfl rfl rfl).1 "no" rfl rfl).1,
    (((ExecuteInitializationEvents_order (failing_unrestricted_System 7)
      (empty_Context 7)).2.2.2.2.2 rfl rfl rfl).1 "no" rfl rfl).2⟩

theorem message_includes_count (message part : String) (h : message_includes message part)
    (c : Char) : part.toList.count c ≤ message.toList.count c := by
  obtain ⟨before, after, rfl⟩ := h
  simp only [String.toList, String.data_append, List.count_append]
  omega

/-- C22, evaluated on the code: a system of type
`drake::systems::System<double>` and pathname `::sys` whose update handler
changes the shape of the state and whose `DoCalcNextUpdateTime` sets no time.
The errors of `CalcNextUpdateTime` and of `Clone` carry a message that
includes the type and the pathname of the system.  The shape error of
`CalcUnrestrictedUpdate` and the missing-index error of `get_constraint`,
raised by the same system, carry a message that includes neither its type
nor its pathname: the first is a fixed text, the second names the system by
`get_name()` only. -/
theorem error_messages_without_type :
    (silent_resizing_System 1).GetSystemType = "drake::systems::System<double>" ∧
    (silent_resizing_System 1).GetSystemPathname = "::sys" ∧
    (∃ e, ((silent_resizing_System 1).CalcNextUpdateTime (empty_Context 1)
        (empty_events 1)).result = .error e ∧
      message_includes e.what (silent_resizing_System 1).GetSystemType ∧
      message_includes e.what (silent_resizing_System 1).GetSystemPathname) ∧
    (∃ e, (System.Clone convert_nothing (silent_resizing_System 1)).result = .error e ∧
      message_includes e.what (silent_resizing_System 1).GetSystemType ∧
      message_includes e.what (silent_resizing_System 1).GetSystemPathname) ∧
    (∃ e, ((silent_resizing_System 1).CalcUnrestrictedUpdate (empty_Context 1)
        [{ kind := .unrestricted_update, id := 1 }] (empty_State 1)).result = .error e ∧
      e.what = "State variable dimensions cannot be changed in CalcUnrestrictedUpdate()." ∧
      ¬ message_includes e.what (silent_resizing_System 1).GetSystemType ∧
      ¬ message_includes e.what (silent_resizing_System 1).GetSystemPathname) ∧
    (∃ e, (silent_resizing_System 1).get_constraint 0 = .error e ∧
      e.what = "System sys: Constraint index 0 is out of range. There are only 0 constraints." ∧
      ¬ message_includes e.what (silent_resizing_System 1).GetSystemType ∧
      ¬ message_includes e.what (silent_resizing_System 1).GetSystemPathname) := by
  refine ⟨rfl, rfl, ?_, ?_, ⟨_, rfl, rfl, ?_, ?_⟩, ⟨_, rfl, by decide, ?_, ?_⟩⟩
  · obtain ⟨e, he⟩ : ∃ e, ((silent_resizing_System 1).CalcNextUpdateTime (empty_Context 1)
        (empty_events 1)).result = .error e := ⟨_, rfl⟩
    obtain ⟨rest, hrest⟩ := CalcNextUpdateTime_error (silent_resizing_System 1)
      (empty_Context 1) (empty_events 1) rfl rfl e he
    refine ⟨e, he, ?_⟩
    rw [hrest]
    exact message_includes_both _ _ _ _ _
  · refine ⟨Clone.error (silent_resizing_System 1), rfl, ?_⟩
    exact message_includes_both _ _ _ _ _
  · intro h
    have := message_includes_chars _ _ h '<' (by decide)
    revert this
    decide
  · intro h
    have := message_includes_chars _ _ h ':' (by decide)
    revert this
    decide
  · intro h
    have := message_includes_chars _ _ h '<' (by decide)
    revert this
    decide
  · intro h
    have := message_includes_count _ _ h ':'
    revert this
    decide

end systems
end drake
